import Mathlib

/-! CIVIC: the ingestion pipeline.

A shallow embedding of `src/pages/SocialFeed.jsx` (`detectFake`, the record
built in `processNextPost`, and the scheduler `startScraping` /
`processNextPost` with its timers), of `addComplaint` of `src/App.jsx` and of
`isNeglected` of `src/pages/MapView.jsx`.

JavaScript strings are sequences of UTF-16 code units; they are embedded as
lists of natural numbers, one per code unit, so that `length`, `slice`,
`includes` and the regular expressions count what the source counts.
-/

namespace Civic

/-! ## Strings -/

/-- A JavaScript string: its UTF-16 code units. -/
abbrev JSString := List Nat

/-- The UTF-16 code units of one Unicode scalar value. -/
def utf16 (c : Char) : List Nat :=
  if c.toNat < 65536 then [c.toNat]
  else [55296 + (c.toNat - 65536) / 1024, 56320 + (c.toNat - 65536) % 1024]

/-- A string literal of the source as a JavaScript string. -/
def js (s : String) : JSString := s.toList.flatMap utf16

/-- `s.includes(kw)`: `kw` occurs in `s` as a contiguous run of code units. -/
def includes (s kw : JSString) : Bool := s.tails.any (fun t => kw.isPrefixOf t)

/-! ## Lower-casing (`String.prototype.toLowerCase`)

ECMAScript lowers a string by the default case conversion of the Unicode
Standard: the string is read as code points, every code point is replaced by
its lower case mapping, and the result is written back as code units. The
tables below are those of the Unicode Character Database, version 14.0. -/

/-- The UTF-16 code units of the code point `cp`. -/
def codeUnits (cp : Nat) : List Nat :=
  if cp < 65536 then [cp]
  else [55296 + (cp - 65536) / 1024, 56320 + (cp - 65536) % 1024]

/-- A leading (high) surrogate. -/
def isLead (c : Nat) : Bool := 55296 ≤ c && c ≤ 56319

/-- A trailing (low) surrogate. -/
def isTrail (c : Nat) : Bool := 56320 ≤ c && c ≤ 57343

/-- The code point of a surrogate pair. -/
def codePoint (hi lo : Nat) : Nat := 65536 + (hi - 55296) * 1024 + (lo - 56320)

/-- The simple lower case mappings of the Unicode Character Database (version
14.0) outside Basic Latin, as rows `(first, last, step, image)`: the code
points `first`, `first + step`, ... up to `last` have the lower case `image`,
`image + step`, ... -/
def lowerRows : List (Nat × Nat × Nat × Nat) :=
  [(192, 214, 1, 224), (216, 222, 1, 248), (256, 302, 2, 257), (306, 310, 2, 307),
    (313, 327, 2, 314), (330, 374, 2, 331), (376, 376, 1, 255), (377, 381, 2, 378),
    (385, 385, 1, 595), (386, 388, 2, 387), (390, 390, 1, 596), (391, 391, 1, 392),
    (393, 394, 1, 598), (395, 395, 1, 396), (398, 398, 1, 477), (399, 399, 1, 601),
    (400, 400, 1, 603), (401, 401, 1, 402), (403, 403, 1, 608), (404, 404, 1, 611),
    (406, 406, 1, 617), (407, 407, 1, 616), (408, 408, 1, 409), (412, 412, 1, 623),
    (413, 413, 1, 626), (415, 415, 1, 629), (416, 420, 2, 417), (422, 422, 1, 640),
    (423, 423, 1, 424), (425, 425, 1, 643), (428, 428, 1, 429), (430, 430, 1, 648),
    (431, 431, 1, 432), (433, 434, 1, 650), (435, 437, 2, 436), (439, 439, 1, 658),
    (440, 440, 1, 441), (444, 444, 1, 445), (452, 452, 1, 454), (453, 453, 1, 454),
    (455, 455, 1, 457), (456, 456, 1, 457), (458, 458, 1, 460), (459, 475, 2, 460),
    (478, 494, 2, 479), (497, 497, 1, 499), (498, 500, 2, 499), (502, 502, 1, 405),
    (503, 503, 1, 447), (504, 542, 2, 505), (544, 544, 1, 414), (546, 562, 2, 547),
    (570, 570, 1, 11365), (571, 571, 1, 572), (573, 573, 1, 410), (574, 574, 1, 11366),
    (577, 577, 1, 578), (579, 579, 1, 384), (580, 580, 1, 649), (581, 581, 1, 652),
    (582, 590, 2, 583), (880, 882, 2, 881), (886, 886, 1, 887), (895, 895, 1, 1011),
    (902, 902, 1, 940), (904, 906, 1, 941), (908, 908, 1, 972), (910, 911, 1, 973),
    (913, 929, 1, 945), (931, 939, 1, 963), (975, 975, 1, 983), (984, 1006, 2, 985),
    (1012, 1012, 1, 952), (1015, 1015, 1, 1016), (1017, 1017, 1, 1010), (1018, 1018, 1, 1019),
    (1021, 1023, 1, 891), (1024, 1039, 1, 1104), (1040, 1071, 1, 1072), (1120, 1152, 2, 1121),
    (1162, 1214, 2, 1163), (1216, 1216, 1, 1231), (1217, 1229, 2, 1218), (1232, 1326, 2, 1233),
    (1329, 1366, 1, 1377), (4256, 4293, 1, 11520), (4295, 4295, 1, 11559), (4301, 4301, 1, 11565),
    (5024, 5103, 1, 43888), (5104, 5109, 1, 5112), (7312, 7354, 1, 4304), (7357, 7359, 1, 4349),
    (7680, 7828, 2, 7681), (7838, 7838, 1, 223), (7840, 7934, 2, 7841), (7944, 7951, 1, 7936),
    (7960, 7965, 1, 7952), (7976, 7983, 1, 7968), (7992, 7999, 1, 7984), (8008, 8013, 1, 8000),
    (8025, 8031, 2, 8017), (8040, 8047, 1, 8032), (8072, 8079, 1, 8064), (8088, 8095, 1, 8080),
    (8104, 8111, 1, 8096), (8120, 8121, 1, 8112), (8122, 8123, 1, 8048), (8124, 8124, 1, 8115),
    (8136, 8139, 1, 8050), (8140, 8140, 1, 8131), (8152, 8153, 1, 8144), (8154, 8155, 1, 8054),
    (8168, 8169, 1, 8160), (8170, 8171, 1, 8058), (8172, 8172, 1, 8165), (8184, 8185, 1, 8056),
    (8186, 8187, 1, 8060), (8188, 8188, 1, 8179), (8486, 8486, 1, 969), (8490, 8490, 1, 107),
    (8491, 8491, 1, 229), (8498, 8498, 1, 8526), (8544, 8559, 1, 8560), (8579, 8579, 1, 8580),
    (9398, 9423, 1, 9424), (11264, 11311, 1, 11312), (11360, 11360, 1, 11361),
    (11362, 11362, 1, 619), (11363, 11363, 1, 7549), (11364, 11364, 1, 637),
    (11367, 11371, 2, 11368), (11373, 11373, 1, 593), (11374, 11374, 1, 625),
    (11375, 11375, 1, 592), (11376, 11376, 1, 594), (11378, 11378, 1, 11379),
    (11381, 11381, 1, 11382), (11390, 11391, 1, 575), (11392, 11490, 2, 11393),
    (11499, 11501, 2, 11500), (11506, 11506, 1, 11507), (42560, 42604, 2, 42561),
    (42624, 42650, 2, 42625), (42786, 42798, 2, 42787), (42802, 42862, 2, 42803),
    (42873, 42875, 2, 42874), (42877, 42877, 1, 7545), (42878, 42886, 2, 42879),
    (42891, 42891, 1, 42892), (42893, 42893, 1, 613), (42896, 42898, 2, 42897),
    (42902, 42920, 2, 42903), (42922, 42922, 1, 614), (42923, 42923, 1, 604),
    (42924, 42924, 1, 609), (42925, 42925, 1, 620), (42926, 42926, 1, 618), (42928, 42928, 1, 670),
    (42929, 42929, 1, 647), (42930, 42930, 1, 669), (42931, 42931, 1, 43859),
    (42932, 42946, 2, 42933), (42948, 42948, 1, 42900), (42949, 42949, 1, 642),
    (42950, 42950, 1, 7566), (42951, 42953, 2, 42952), (42960, 42960, 1, 42961),
    (42966, 42968, 2, 42967), (42997, 42997, 1, 42998), (65313, 65338, 1, 65345),
    (66560, 66599, 1, 66600), (66736, 66771, 1, 66776), (66928, 66964, 2, 66967),
    (66929, 66937, 2, 66968), (66941, 66953, 2, 66980), (66957, 66961, 2, 66996),
    (66965, 66965, 1, 67004), (68736, 68786, 1, 68800), (71840, 71871, 1, 71872),
    (93760, 93791, 1, 93792), (125184, 125217, 1, 125218)]

/-- The code points with the property `Cased` (Unicode 14.0), as ranges. -/
def casedRanges : List (Nat × Nat) :=
  [(65, 90), (97, 122), (170, 170), (181, 181), (186, 186), (192, 214), (216, 246), (248, 442),
    (444, 447), (452, 659), (661, 696), (704, 705), (736, 740), (837, 837), (880, 883), (886, 887),
    (890, 893), (895, 895), (902, 902), (904, 906), (908, 908), (910, 929), (931, 1013),
    (1015, 1153), (1162, 1327), (1329, 1366), (1376, 1416), (4256, 4293), (4295, 4295),
    (4301, 4301), (4304, 4346), (4349, 4351), (5024, 5109), (5112, 5117), (7296, 7304),
    (7312, 7354), (7357, 7359), (7424, 7615), (7680, 7957), (7960, 7965), (7968, 8005),
    (8008, 8013), (8016, 8023), (8025, 8025), (8027, 8027), (8029, 8029), (8031, 8061),
    (8064, 8116), (8118, 8124), (8126, 8126), (8130, 8132), (8134, 8140), (8144, 8147),
    (8150, 8155), (8160, 8172), (8178, 8180), (8182, 8188), (8305, 8305), (8319, 8319),
    (8336, 8348), (8450, 8450), (8455, 8455), (8458, 8467), (8469, 8469), (8473, 8477),
    (8484, 8484), (8486, 8486), (8488, 8488), (8490, 8493), (8495, 8500), (8505, 8505),
    (8508, 8511), (8517, 8521), (8526, 8526), (8544, 8575), (8579, 8580), (9398, 9449),
    (11264, 11492), (11499, 11502), (11506, 11507), (11520, 11557), (11559, 11559), (11565, 11565),
    (42560, 42605), (42624, 42653), (42786, 42887), (42891, 42894), (42896, 42954), (42960, 42961),
    (42963, 42963), (42965, 42969), (42997, 42998), (43000, 43002), (43824, 43866), (43868, 43880),
    (43888, 43967), (64256, 64262), (64275, 64279), (65313, 65338), (65345, 65370), (66560, 66639),
    (66736, 66771), (66776, 66811), (66928, 66938), (66940, 66954), (66956, 66962), (66964, 66965),
    (66967, 66977), (66979, 66993), (66995, 67001), (67003, 67004), (67456, 67456), (67459, 67461),
    (67463, 67504), (67506, 67514), (68736, 68786), (68800, 68850), (71840, 71903), (93760, 93823),
    (119808, 119892), (119894, 119964), (119966, 119967), (119970, 119970), (119973, 119974),
    (119977, 119980), (119982, 119993), (119995, 119995), (119997, 120003), (120005, 120069),
    (120071, 120074), (120077, 120084), (120086, 120092), (120094, 120121), (120123, 120126),
    (120128, 120132), (120134, 120134), (120138, 120144), (120146, 120485), (120488, 120512),
    (120514, 120538), (120540, 120570), (120572, 120596), (120598, 120628), (120630, 120654),
    (120656, 120686), (120688, 120712), (120714, 120744), (120746, 120770), (120772, 120779),
    (122624, 122633), (122635, 122654), (125184, 125251), (127280, 127305), (127312, 127337),
    (127344, 127369)]

/-- The code points with the property `Case_Ignorable` (Unicode 14.0), as
ranges. -/
def caseIgnorableRanges : List (Nat × Nat) :=
  [(39, 39), (46, 46), (58, 58), (94, 94), (96, 96), (168, 168), (173, 173), (175, 175),
    (180, 180), (183, 184), (688, 879), (884, 885), (890, 890), (900, 901), (903, 903),
    (1155, 1161), (1369, 1369), (1375, 1375), (1425, 1469), (1471, 1471), (1473, 1474),
    (1476, 1477), (1479, 1479), (1524, 1524), (1536, 1541), (1552, 1562), (1564, 1564),
    (1600, 1600), (1611, 1631), (1648, 1648), (1750, 1757), (1759, 1768), (1770, 1773),
    (1807, 1807), (1809, 1809), (1840, 1866), (1958, 1968), (2027, 2037), (2042, 2042),
    (2045, 2045), (2070, 2093), (2137, 2139), (2184, 2184), (2192, 2193), (2200, 2207),
    (2249, 2306), (2362, 2362), (2364, 2364), (2369, 2376), (2381, 2381), (2385, 2391),
    (2402, 2403), (2417, 2417), (2433, 2433), (2492, 2492), (2497, 2500), (2509, 2509),
    (2530, 2531), (2558, 2558), (2561, 2562), (2620, 2620), (2625, 2626), (2631, 2632),
    (2635, 2637), (2641, 2641), (2672, 2673), (2677, 2677), (2689, 2690), (2748, 2748),
    (2753, 2757), (2759, 2760), (2765, 2765), (2786, 2787), (2810, 2815), (2817, 2817),
    (2876, 2876), (2879, 2879), (2881, 2884), (2893, 2893), (2901, 2902), (2914, 2915),
    (2946, 2946), (3008, 3008), (3021, 3021), (3072, 3072), (3076, 3076), (3132, 3132),
    (3134, 3136), (3142, 3144), (3146, 3149), (3157, 3158), (3170, 3171), (3201, 3201),
    (3260, 3260), (3263, 3263), (3270, 3270), (3276, 3277), (3298, 3299), (3328, 3329),
    (3387, 3388), (3393, 3396), (3405, 3405), (3426, 3427), (3457, 3457), (3530, 3530),
    (3538, 3540), (3542, 3542), (3633, 3633), (3636, 3642), (3654, 3662), (3761, 3761),
    (3764, 3772), (3782, 3782), (3784, 3789), (3864, 3865), (3893, 3893), (3895, 3895),
    (3897, 3897), (3953, 3966), (3968, 3972), (3974, 3975), (3981, 3991), (3993, 4028),
    (4038, 4038), (4141, 4144), (4146, 4151), (4153, 4154), (4157, 4158), (4184, 4185),
    (4190, 4192), (4209, 4212), (4226, 4226), (4229, 4230), (4237, 4237), (4253, 4253),
    (4348, 4348), (4957, 4959), (5906, 5908), (5938, 5939), (5970, 5971), (6002, 6003),
    (6068, 6069), (6071, 6077), (6086, 6086), (6089, 6099), (6103, 6103), (6109, 6109),
    (6155, 6159), (6211, 6211), (6277, 6278), (6313, 6313), (6432, 6434), (6439, 6440),
    (6450, 6450), (6457, 6459), (6679, 6680), (6683, 6683), (6742, 6742), (6744, 6750),
    (6752, 6752), (6754, 6754), (6757, 6764), (6771, 6780), (6783, 6783), (6823, 6823),
    (6832, 6862), (6912, 6915), (6964, 6964), (6966, 6970), (6972, 6972), (6978, 6978),
    (7019, 7027), (7040, 7041), (7074, 7077), (7080, 7081), (7083, 7085), (7142, 7142),
    (7144, 7145), (7149, 7149), (7151, 7153), (7212, 7219), (7222, 7223), (7288, 7293),
    (7376, 7378), (7380, 7392), (7394, 7400), (7405, 7405), (7412, 7412), (7416, 7417),
    (7468, 7530), (7544, 7544), (7579, 7679), (8125, 8125), (8127, 8129), (8141, 8143),
    (8157, 8159), (8173, 8175), (8189, 8190), (8203, 8207), (8216, 8217), (8228, 8228),
    (8231, 8231), (8234, 8238), (8288, 8292), (8294, 8303), (8305, 8305), (8319, 8319),
    (8336, 8348), (8400, 8432), (11388, 11389), (11503, 11505), (11631, 11631), (11647, 11647),
    (11744, 11775), (11823, 11823), (12293, 12293), (12330, 12333), (12337, 12341), (12347, 12347),
    (12441, 12446), (12540, 12542), (40981, 40981), (42232, 42237), (42508, 42508), (42607, 42610),
    (42612, 42621), (42623, 42623), (42652, 42655), (42736, 42737), (42752, 42785), (42864, 42864),
    (42888, 42890), (42994, 42996), (43000, 43001), (43010, 43010), (43014, 43014), (43019, 43019),
    (43045, 43046), (43052, 43052), (43204, 43205), (43232, 43249), (43263, 43263), (43302, 43309),
    (43335, 43345), (43392, 43394), (43443, 43443), (43446, 43449), (43452, 43453), (43471, 43471),
    (43493, 43494), (43561, 43566), (43569, 43570), (43573, 43574), (43587, 43587), (43596, 43596),
    (43632, 43632), (43644, 43644), (43696, 43696), (43698, 43700), (43703, 43704), (43710, 43711),
    (43713, 43713), (43741, 43741), (43756, 43757), (43763, 43764), (43766, 43766), (43867, 43871),
    (43881, 43883), (44005, 44005), (44008, 44008), (44013, 44013), (64286, 64286), (64434, 64450),
    (65024, 65039), (65043, 65043), (65056, 65071), (65106, 65106), (65109, 65109), (65279, 65279),
    (65287, 65287), (65294, 65294), (65306, 65306), (65342, 65342), (65344, 65344), (65392, 65392),
    (65438, 65439), (65507, 65507), (65529, 65531), (66045, 66045), (66272, 66272), (66422, 66426),
    (67456, 67461), (67463, 67504), (67506, 67514), (68097, 68099), (68101, 68102), (68108, 68111),
    (68152, 68154), (68159, 68159), (68325, 68326), (68900, 68903), (69291, 69292), (69446, 69456),
    (69506, 69509), (69633, 69633), (69688, 69702), (69744, 69744), (69747, 69748), (69759, 69761),
    (69811, 69814), (69817, 69818), (69821, 69821), (69826, 69826), (69837, 69837), (69888, 69890),
    (69927, 69931), (69933, 69940), (70003, 70003), (70016, 70017), (70070, 70078), (70089, 70092),
    (70095, 70095), (70191, 70193), (70196, 70196), (70198, 70199), (70206, 70206), (70367, 70367),
    (70371, 70378), (70400, 70401), (70459, 70460), (70464, 70464), (70502, 70508), (70512, 70516),
    (70712, 70719), (70722, 70724), (70726, 70726), (70750, 70750), (70835, 70840), (70842, 70842),
    (70847, 70848), (70850, 70851), (71090, 71093), (71100, 71101), (71103, 71104), (71132, 71133),
    (71219, 71226), (71229, 71229), (71231, 71232), (71339, 71339), (71341, 71341), (71344, 71349),
    (71351, 71351), (71453, 71455), (71458, 71461), (71463, 71467), (71727, 71735), (71737, 71738),
    (71995, 71996), (71998, 71998), (72003, 72003), (72148, 72151), (72154, 72155), (72160, 72160),
    (72193, 72202), (72243, 72248), (72251, 72254), (72263, 72263), (72273, 72278), (72281, 72283),
    (72330, 72342), (72344, 72345), (72752, 72758), (72760, 72765), (72767, 72767), (72850, 72871),
    (72874, 72880), (72882, 72883), (72885, 72886), (73009, 73014), (73018, 73018), (73020, 73021),
    (73023, 73029), (73031, 73031), (73104, 73105), (73109, 73109), (73111, 73111), (73459, 73460),
    (78896, 78904), (92912, 92916), (92976, 92982), (92992, 92995), (94031, 94031), (94095, 94111),
    (94176, 94177), (94179, 94180), (110576, 110579), (110581, 110587), (110589, 110590),
    (113821, 113822), (113824, 113827), (118528, 118573), (118576, 118598), (119143, 119145),
    (119155, 119170), (119173, 119179), (119210, 119213), (119362, 119364), (121344, 121398),
    (121403, 121452), (121461, 121461), (121476, 121476), (121499, 121503), (121505, 121519),
    (122880, 122886), (122888, 122904), (122907, 122913), (122915, 122916), (122918, 122922),
    (123184, 123197), (123566, 123566), (123628, 123631), (125136, 125142), (125252, 125259),
    (127995, 127999), (917505, 917505), (917536, 917631), (917760, 917999)]

/-- Membership in a table of ranges. -/
def inRanges (t : List (Nat × Nat)) (cp : Nat) : Bool := t.any (fun r => r.1 ≤ cp && cp ≤ r.2)

/-- The property `Cased` of a code point. -/
def cased (cp : Nat) : Bool := inRanges casedRanges cp

/-- The property `Case_Ignorable` of a code point. -/
def caseIgnorable (cp : Nat) : Bool := inRanges caseIgnorableRanges cp

/-- The simple lower case mapping of a code point. -/
def lowerPoint (cp : Nat) : Nat :=
  if cp < 128 then (if 65 ≤ cp ∧ cp ≤ 90 then cp + 32 else cp)
  else
    match lowerRows.find? (fun r => r.1 ≤ cp && cp ≤ r.2.1 && (cp - r.1) % r.2.2.1 == 0) with
    | some r => r.2.2.2 + (cp - r.1)
    | none => cp

/-- The second half of the condition `Final_Sigma`: no cased letter follows,
case-ignorable code points skipped. `casedFollows s` tells whether one does. -/
def casedFollows : JSString → Bool
  | [] => false
  | [c] => !caseIgnorable c && cased c
  | c :: d :: rest =>
    if isLead c && isTrail d then
      if caseIgnorable (codePoint c d) then casedFollows rest else cased (codePoint c d)
    else if caseIgnorable c then casedFollows (d :: rest) else cased c

/-- The lower case of the code point `cp` in its context: `before` tells whether
a cased letter precedes it, case-ignorable code points skipped, and `after` is
the rest of the string. Capital sigma (U+03A3) lowers to the final sigma U+03C2
under `Final_Sigma` and to U+03C3 otherwise; capital I with dot above (U+0130)
lowers to U+0069 U+0307; every other code point has its simple mapping. -/
def lowerAt (before : Bool) (cp : Nat) (after : JSString) : JSString :=
  if cp = 931 then (if before && !casedFollows after then [962] else [963])
  else if cp = 304 then [105, 775]
  else codeUnits (lowerPoint cp)

/-- The context `before` after the code point `cp` is passed. -/
def precedes (before : Bool) (cp : Nat) : Bool :=
  if caseIgnorable cp then before else cased cp

/-- `toLowerCase` from a position inside the string: the code points are read
off the code units (a surrogate pair is one code point, a lone surrogate is a
code point of its own) and lowered in their context. -/
def lowerFrom : Bool → JSString → JSString
  | _, [] => []
  | before, [c] => lowerAt before c []
  | before, c :: d :: rest =>
    if isLead c && isTrail d then
      lowerAt before (codePoint c d) rest ++ lowerFrom (precedes before (codePoint c d)) rest
    else lowerAt before c (d :: rest) ++ lowerFrom (precedes before c) (d :: rest)

/-- `String.prototype.toLowerCase`: the default case conversion of Unicode
(`toLowercase` of the Unicode Standard, section 3.13, with the
language-independent rules of SpecialCasing.txt). -/
def toLowerCase (s : JSString) : JSString := lowerFrom false s

/-! ## Regular expressions

The regular expressions of the source use literals, `.`, character classes,
alternation, `*`, `+` and `{5,}`. They are embedded as syntax trees and given
the backtracking semantics of ECMAScript: `matchR r s` lists, in priority
order, what is left of `s` after each way `r` can match a prefix of `s`. -/

/-- Regular expressions over code units. -/
inductive Regex where
  | empty : Regex
  | cls (p : Nat → Bool) : Regex
  | seq (a b : Regex) : Regex
  | alt (a b : Regex) : Regex
  | star (a : Regex) : Regex

/-- Greedy iteration of a matcher `m`; an iteration that consumes nothing is
rejected, so at most `s.length` iterations can happen and `k` starts there. -/
def starLoop (m : JSString → List JSString) : Nat → JSString → List JSString
  | 0, s => [s]
  | k + 1, s => ((m s).filter (fun t => t.length < s.length)).flatMap (starLoop m k) ++ [s]

/-- The remainders of `s` after each match of `r` at the start of `s`. -/
def matchR : Regex → JSString → List JSString
  | .empty, s => [s]
  | .cls p, s =>
    match s with
    | [] => []
    | c :: t => if p c then [t] else []
  | .seq a b, s => (matchR a s).flatMap (matchR b)
  | .alt a b, s => matchR a s ++ matchR b s
  | .star a, s => starLoop (matchR a) s.length s

/-- `re.test(s)` for a regular expression without the sticky flag: some
position of `s` starts a match. -/
def test (r : Regex) (s : JSString) : Bool := s.tails.any (fun t => !(matchR r t).isEmpty)

/-- A pattern character under the `i` flag. Without the `u` flag two code
units match when their `Canonicalize` images (upper-casing) agree, and a code
unit of 128 or more is never canonicalized to one below 128: a Basic Latin
letter matches exactly its two cases, any other Basic Latin character only
itself. -/
def chI (c : Nat) : Regex :=
  .cls (fun d =>
    d == c || (97 ≤ c && c ≤ 122 && d == c - 32) || (65 ≤ c && c ≤ 90 && d == c + 32))

/-- A pattern character without the `i` flag. -/
def ch (c : Nat) : Regex := .cls (fun d => d == c)

/-- A run of pattern characters, each built by `f`. -/
def litWith (f : Nat → Regex) : List Nat → Regex
  | [] => .empty
  | [c] => f c
  | c :: cs => .seq (f c) (litWith f cs)

/-- A literal under the `i` flag. -/
def litI (s : String) : Regex := litWith chI (js s)

/-- A literal without the `i` flag. -/
def lit (s : String) : Regex := litWith ch (js s)

/-- The pattern `.`: any code unit but the line terminators. -/
def dot : Regex := .cls (fun d => !(d == 10 || d == 13 || d == 8232 || d == 8233))

/-- The quantifier `+`. -/
def plus (a : Regex) : Regex := .seq a (.star a)

/-- The class `[a-z]` under the `i` flag. -/
def letterI : Regex := .cls (fun d => (97 ≤ d && d ≤ 122) || (65 ≤ d && d ≤ 90))

/-- Alternation of a list of branches, leftmost first. -/
def alts : List Regex → Regex
  | [] => .cls (fun _ => false)
  | [a] => a
  | a :: as => .alt a (alts as)

/-! ## The fake detector (`detectFake`, SocialFeed.jsx) -/

/-- The pattern `/http|bit\.ly|click|buy now|discount|promo|free.*code|deal/i`. -/
def promoRe : Regex :=
  alts [litI "http", litI "bit.ly", litI "click", litI "buy now", litI "discount",
    litI "promo", .seq (litI "free") (.seq (.star dot) (litI "code")), litI "deal"]

/-- The pattern `/lol|haha|test test|not a real/i`. -/
def jokeRe : Regex := alts [litI "lol", litI "haha", litI "test test", litI "not a real"]

/-- The pattern `/aaa+|xxx+|zzz+/`. -/
def repeatRe : Regex :=
  alts [.seq (lit "aa") (plus (ch 97)), .seq (lit "xx") (plus (ch 120)),
    .seq (lit "zz") (plus (ch 122))]

/-- The pattern `/[a-z]{5,}/i`. -/
def wordRe : Regex :=
  .seq letterI (.seq letterI (.seq letterI (.seq letterI (.seq letterI (.star letterI)))))

/-- The list `civicKeywords`. -/
def civicKeywords : List JSString :=
  ["pothole", "light", "water", "garbage", "trash", "road", "park",
    "tree", "sewer", "drain", "bus", "parking", "broken", "repair", "fix",
    "problem", "issue", "complaint", "dirty", "unsafe", "danger", "blocked",
    "smell", "pest", "flood", "street", "signal", "traffic", "paani", "karo",
    "nahi", "gaya", "bhai", "bahut", "playground", "swing", "vandal", "leak"].map js

/-- The five reasons pushed by the pattern rules and the civic-relevance one. -/
def reasonShort : String := "Too short to be a real complaint"
def reasonPromo : String := "Contains spam/promotional links"
def reasonJoke : String := "Appears to be a test or joke post"
def reasonRepeat : String := "Repeated characters detected"
def reasonIncoherent : String := "No coherent text found"
def reasonCivic : String := "No civic issue keywords detected"

/-- A raw post of the feed. `raw` is `none` when the property is missing
(`undefined`). -/
structure Post where
  id : String
  platform : String
  handle : String
  time : String
  raw : Option JSString
  avatar : String

/-- The value `detectFake` returns. -/
structure Verdict where
  isFake : Bool
  reasons : List String
deriving DecidableEq, Repr

/-- What a call can throw. -/
inductive JSError where
  | typeError : JSError
deriving DecidableEq, Repr

deriving instance DecidableEq for Except

/-- `reasons.push(r)` guarded by `cond`. -/
def pushIf (cond : Bool) (r : String) (reasons : List String) : List String :=
  if cond then reasons ++ [r] else reasons

/-- `const hasCivic = civicKeywords.some(kw => text.includes(kw))`. -/
def hasCivic (text : JSString) : Bool := civicKeywords.any (fun kw => includes text kw)

/-- The statements of `detectFake` after `text` is bound (lines 33 to 51). -/
def detectFakeText (text : JSString) : Verdict :=
  let reasons : List String := []
  let reasons := pushIf (text.length < 40) reasonShort reasons
  let reasons := pushIf (test promoRe text) reasonPromo reasons
  let reasons := pushIf (test jokeRe text) reasonJoke reasons
  let reasons := pushIf (test repeatRe text) reasonRepeat reasons
  let reasons := pushIf (!test wordRe text) reasonIncoherent reasons
  let reasons := pushIf (!hasCivic text && reasons.length == 0) reasonCivic reasons
  { isFake := reasons.length > 0, reasons := reasons }

/-- `detectFake(post)` with the built-in `toLowerCase` as the parameter
`lower`. Reading `toLowerCase` off a missing `raw` throws. -/
def detectFakeWith (lower : JSString → JSString) (post : Post) : Except JSError Verdict :=
  match post.raw with
  | none => .error .typeError
  | some raw => .ok (detectFakeText (lower raw))

/-- `detectFake(post)`. -/
def detectFake (post : Post) : Except JSError Verdict := detectFakeWith toLowerCase post

/-! ## The title and description of an imported record (`processNextPost`) -/

/-- The class `\w`: Basic Latin letters, digits and the underscore. -/
def isWord (d : Nat) : Bool :=
  (97 ≤ d && d ≤ 122) || (65 ≤ d && d ≤ 90) || (48 ≤ d && d ≤ 57) || d == 95

/-- The pattern `/#\w+/`. -/
def hashtagRe : Regex := .seq (ch 35) (plus (.cls isWord))

/-- The scan of `s.replace(re, "")` for a global `re`. `skip` counts the code
units of the current match still to be dropped. Outside a match the first
(highest priority) match at the current position is taken when there is one
and it is not empty; otherwise the code unit is kept and the scan moves on. -/
def removeFrom (r : Regex) : Nat → JSString → JSString
  | _, [] => []
  | skip + 1, _ :: t => removeFrom r skip t
  | 0, c :: t =>
    match (matchR r (c :: t)).head? with
    | some rest =>
      if rest.length < (c :: t).length then removeFrom r (t.length - rest.length) t
      else c :: removeFrom r 0 t
    | none => c :: removeFrom r 0 t

/-- `s.replace(re, "")` for a global `re`. -/
def removeAll (r : Regex) (s : JSString) : JSString := removeFrom r 0 s

/-- White space and line terminators, the code units `trim` removes. -/
def isSpace (d : Nat) : Bool :=
  d == 9 || d == 10 || d == 11 || d == 12 || d == 13 || d == 32 || d == 160 || d == 5760 ||
  (8192 ≤ d && d ≤ 8202) || d == 8232 || d == 8233 || d == 8239 || d == 8287 ||
  d == 12288 || d == 65279

/-- `String.prototype.trim`. -/
def trim (s : JSString) : JSString := (s.dropWhile isSpace).rdropWhile isSpace

/-- `s.slice(0, n)`. -/
def slice0 (s : JSString) (n : Nat) : JSString := s.take n

/-- The `title` of the record:
`post.raw.slice(0, 60).replace(/#\w+/g, "").trim() + (post.raw.length > 60 ? "..." : "")`. -/
def complaintTitle (raw : JSString) : JSString :=
  trim (removeAll hashtagRe (slice0 raw 60)) ++ (if raw.length > 60 then js "..." else js "")

/-- The `description` of the record: `post.raw.replace(/#\w+/g, "").trim()`. -/
def complaintDescription (raw : JSString) : JSString := trim (removeAll hashtagRe raw)

/-- The title as the specification words it: strip the hashtag tokens, trim,
then truncate to 60 and append the ellipsis iff the truncation removed
something. -/
def titleSpec (raw : JSString) : JSString :=
  let cleaned := trim (removeAll hashtagRe raw)
  slice0 cleaned 60 ++ (if cleaned.length > 60 then js "..." else js "")

/-! ## The neglect evaluator (`isNeglected`, MapView.jsx) -/

/-- The two properties of a stored record that `isNeglected` reads; `none` is
a missing property. -/
structure StoredComplaint where
  status : Option String
  timestamp : Option String

/-- The milliseconds of one day, `1000 * 60 * 60 * 24`. -/
def msPerDay : Int := 1000 * 60 * 60 * 24

/-- The time value of `new Date(timestamp)`: `none` is NaN (an invalid date).
`dateParse` is the parser of the engine for date strings; a missing timestamp
gives an invalid date. -/
def dateOf (dateParse : String → Option Int) (timestamp : Option String) : Option Int :=
  match timestamp with
  | none => none
  | some s => dateParse s

/-- `isNeglected(complaint)`, with the clock reading `now` of `new Date()` (in
milliseconds) and the date parser made explicit. Time values are integers of
magnitude at most 8.64e15, so their difference is exact in double precision,
and the rounded quotient by `msPerDay` reaches 30 exactly when the difference
reaches `30 * msPerDay`; the floor of the integer quotient is therefore
compared. A NaN difference compares false. -/
def isNeglected (now : Int) (dateParse : String → Option Int) (complaint : StoredComplaint) :
    Bool :=
  if complaint.status = some "resolved" then false
  else if complaint.timestamp = some "Just now" then false
  else
    match dateOf dateParse complaint.timestamp with
    | none => false
    | some t =>
      let diffDays := Int.fdiv (now - t) msPerDay
      decide (diffDays ≥ 30)

/-! ## The demo batch (`RAW_SOCIAL_POSTS`, SocialFeed.jsx) -/

/-- One entry of `RAW_SOCIAL_POSTS`. -/
def mkPost (id platform handle time : String) (raw : String) (avatar : String) : Post :=
  { id := id, platform := platform, handle := handle, time := time, raw := some (js raw),
    avatar := avatar }

/-- The array `RAW_SOCIAL_POSTS`. -/
def RAW_SOCIAL_POSTS : List Post :=
  [mkPost "t1" "twitter" "@delhi_resident" "2m ago" "The streetlight near Connaught Place has been broken for 2 weeks!! Nobody fixing it #DelhiProblems #Infrastructure" "DR",
    mkPost "w1" "whatsapp" "Resident Group Delhi" "5m ago" "Bhai logo garbage truck aaya hi nahi 3 din se, hamare block mein bahut smell aa rahi hai. Koi complain karo please" "RG",
    mkPost "t2" "twitter" "@angryCitizen99" "8m ago" "HUGE pothole on MG Road near metro station. My bike\x27s tyre burst! @MunicipalCorp @DelhiGovt please fix URGENTLY 🚨" "AC",
    mkPost "e1" "email" "ramesh.k@gmail.com" "12m ago" "Subject: Water supply cut for 4 days in Sector 14\n\nDear Sir, We have not received water supply for the past 4 days in Sector 14, Dwarka. Kindly look into this matter urgently." "RK",
    mkPost "t3" "twitter" "@localreporter" "15m ago" "Park in Lajpat Nagar completely vandalized. Benches broken, graffiti everywhere. Kids have nowhere to play. @DDA_India" "LR",
    mkPost "w2" "whatsapp" "Colony WhatsApp" "18m ago" "Bus stop ka shed toot gaya 2 mahine pehle se. Baarish mein bohot problem hoti hai. Koi sunta hi nahi hai" "CW",
    mkPost "e2" "email" "priya.sharma@yahoo.com" "22m ago" "Subject: Illegal parking blocking our driveway\n\nFor the past month, unknown vehicles are parking in front of our gate at 45 Vasant Vihar. Police not responding to calls." "PS",
    mkPost "t4" "twitter" "@techie_delhi" "25m ago" "lol free pizza lol discount code FREE100 click link bit.ly/fakespam not a real complaint haha spam test" "TD",
    mkPost "w3" "whatsapp" "Saket Residents" "28m ago" "Sewer line overflow ho gayi Select City Walk ke peeche. Raste pe paani bhar gaya. Bahut buri smell. Health hazard ban raha hai" "SR",
    mkPost "t5" "twitter" "@frustrated_mom" "31m ago" "The playground at RK Puram park is so dangerous!! Rusty swings, broken slide. My child got hurt yesterday. This is unacceptable @DelhiGovt" "FM",
    mkPost "e3" "email" "suresh.v@hotmail.com" "35m ago" "Subject: Dead tree leaning on power lines\n\nA large dead tree at B-12 Green Park Extension is leaning dangerously over power lines. It can fall any time and cause serious accidents." "SV",
    mkPost "t6" "twitter" "@spambot_xyz" "38m ago" "BUY NOW!!! Best deals!!! Click here!!! Not related to civic issues at all. aaaa aaa test test test" "SB"]

/-! ## Numbers

A JavaScript number is a double. A finite double is embedded as the rational it
denotes, and an arithmetic operation on doubles is the exact operation on
rationals followed by `fl`, the rounding to the nearest double with ties to the
even significand (53 bits, gradual underflow below 2^-1022). No value of the
pipeline comes near the overflow threshold, which is not modelled. -/

/-- The integer nearest to `y`, the even one of the two at a tie. -/
def roundHalfEven (y : ℚ) : Int :=
  if y - ⌊y⌋ < 1 / 2 then ⌊y⌋
  else if 1 / 2 < y - ⌊y⌋ then ⌊y⌋ + 1
  else if ⌊y⌋ % 2 = 0 then ⌊y⌋ else ⌊y⌋ + 1

/-- The spacing of the doubles in the binade of `q`: 52 binary places below the
leading bit of `q`, and 2^-1074 in the subnormal range. -/
def ulp (q : ℚ) : ℚ := (2 : ℚ) ^ (max (Int.log 2 |q|) (-1022) - 52)

/-- The double nearest to `q`, ties to even. -/
def fl (q : ℚ) : ℚ := if q = 0 then 0 else roundHalfEven (q / ulp q) * ulp q

/-- The rational `q` is a double: rounding leaves it unchanged. -/
def isDouble (q : ℚ) : Prop := fl q = q

instance (q : ℚ) : Decidable (isDouble q) := inferInstanceAs (Decidable (fl q = q))

/-! ## The record built for an approved post (`processNextPost`)

`Math.random()` and the clock are inputs. Every operation of the source on
numbers is followed by `fl`; `Math.floor` and the sum `2000 + n` of two small
integers are exact. -/

/-- The result of `classifyComplaint` (`hooks/useAIClassifier`); `none` is a
missing or null property. -/
structure Classification where
  urgency : Option String
  department : Option String
  confidence : Option Nat

/-- The functions of the environment the pipeline calls: the classifier, which
is imported from `../hooks/useAIClassifier`, and `Date.prototype.toISOString`. -/
structure Env where
  classifyComplaint : JSString → JSString → Classification
  toISOString : Int → String

/-- The six values `Math.random()` returns while one record is built, named by
what they are used for, in the order of the calls. -/
structure Draws where
  spot : ℚ
  id : ℚ
  num : ℚ
  upvotes : ℚ
  lat : ℚ
  lng : ℚ

/-- The contract of `Math.random()`: a double, at least 0 and less than 1. -/
def unitDraw (r : ℚ) : Prop := isDouble r ∧ 0 ≤ r ∧ r < 1

/-- All six draws honour the contract of `Math.random()`. -/
def Draws.valid (d : Draws) : Prop :=
  unitDraw d.spot ∧ unitDraw d.id ∧ unitDraw d.num ∧ unitDraw d.upvotes ∧ unitDraw d.lat ∧
    unitDraw d.lng

/-- The table `delhiSpots`: each decimal literal of the source denotes the
double nearest to it. -/
def delhiSpots : List (ℚ × ℚ) :=
  [(fl 28.6315, fl 77.2167), (fl 28.5677, fl 77.2433), (fl 28.7298, fl 77.1116),
    (fl 28.6517, fl 77.1906), (fl 28.5823, fl 77.0500), (fl 28.6289, fl 77.0836),
    (fl 28.6692, fl 77.2887), (fl 28.7006, fl 77.1318), (fl 28.5488, fl 77.2519),
    (fl 28.6780, fl 77.2223), (fl 28.7147, fl 77.1902), (fl 28.5756, fl 77.1935)]

/-- The index `Math.floor(r * delhiSpots.length)`: the floor of the double
product. -/
def spotIndex (r : ℚ) : Int := ⌊fl (r * (delhiSpots.length : ℚ))⌋

/-- `delhiSpots[Math.floor(r * delhiSpots.length)]`; `none` is `undefined`, the
value of an index outside the table. -/
def spotAt (r : ℚ) : Option (ℚ × ℚ) :=
  if 0 ≤ spotIndex r then delhiSpots[(spotIndex r).toNat]? else none

/-- `x || d` on an optional string: a missing value and the empty string are
falsy. -/
def orElse (x : Option String) (d : String) : String :=
  match x with
  | some s => if s = "" then d else s
  | none => d

/-- The record `complaint` of `processNextPost`. -/
structure Complaint where
  id : ℚ
  complaintId : String
  title : JSString
  description : JSString
  location : String
  urgency : String
  department : String
  status : String
  upvotes : Int
  timestamp : String
  source : String
  sourceHandle : String
  lat : ℚ
  lng : ℚ

/-- The statements that build `complaint` (lines 187 to 210) for a post with
text `raw`, the classification `ai`, the clock reading `now` and the draws `d`.
Reading `spot[0]` off an `undefined` spot throws. -/
def buildComplaint (env : Env) (post : Post) (raw : JSString) (ai : Classification)
    (now : Int) (d : Draws) : Except JSError Complaint :=
  let spot := spotAt d.spot
  let newId : ℚ := fl ((now : ℚ) + d.id)
  let complaintNum : Int := 2000 + ⌊fl (d.num * 999)⌋
  match spot with
  | none => .error .typeError
  | some spot =>
    .ok {
      id := newId
      complaintId := "CMR-2026-" ++ toString complaintNum
      title := complaintTitle raw
      description := complaintDescription raw
      location := "Auto-detected from post"
      urgency := orElse ai.urgency "medium"
      department := orElse ai.department "Infrastructure"
      status := "open"
      upvotes := ⌊fl (d.upvotes * 20)⌋
      timestamp := env.toISOString now
      source := post.platform
      sourceHandle := post.handle
      lat := fl (spot.1 + fl (fl (d.lat - 0.5) * fl 0.01))
      lng := fl (spot.2 + fl (fl (d.lng - 0.5) * fl 0.01)) }

/-! ## The complaint store (`addComplaint`, App.jsx) -/

/-- `addComplaint`: the updater `prev => [c, ...(prev || [])]` applied to the
store; `none` is the store before it is loaded (`null`). -/
def addComplaint (c : Complaint) (prev : Option (List Complaint)) : Option (List Complaint) :=
  some (c :: prev.getD [])

/-! ## The ingestion scheduler (`SocialFeed`, SocialFeed.jsx)

The component state, the two refs and the timers of the browser are the fields
of one record. Time is virtual: a timer callback runs at an instant given to
it, takes no time, and the state updates it queues are applied in order. -/

/-- The state `stats`. -/
structure Stats where
  scanned : Nat
  imported : Nat
  rejected : Nat

/-- A pending `setTimeout` callback of `processNextPost`: the instant it is due
and the post its closure holds. -/
structure Timeout where
  due : Int
  post : Post

/-- The state of `SocialFeed` (`posts`, `statuses`, `aiResults`, `fakeResults`,
`running`, `stats`, `intervalRef`, `indexRef`), the clock, the timers of the
browser (the active intervals with their handle and next due instant, the
pending timeouts in the order they were set, the next free handle) and the
state `complaints` of `App`. -/
structure World where
  posts : List Post
  statuses : String → Option String
  aiResults : String → Option Classification
  fakeResults : String → Option Verdict
  running : Bool
  stats : Stats
  intervalRef : Option Nat
  indexRef : Nat
  now : Int
  intervals : List (Nat × Int)
  timeouts : List Timeout
  nextHandle : Nat
  complaints : Option (List Complaint)

/-- The object `{ ...prev, [k]: v }`. -/
def setKey {α : Type} (m : String → Option α) (k : String) (v : α) : String → Option α :=
  fun x => if x = k then some v else m x

/-- `clearInterval(ref)`: the interval with that handle, if any, is removed. -/
def clearInterval (ref : Option Nat) (intervals : List (Nat × Int)) : List (Nat × Int) :=
  match ref with
  | none => intervals
  | some h => intervals.filter (fun e => e.1 ≠ h)

/-- The callback passed to `setTimeout` in `processNextPost` (lines 171 to
213), for the post its closure holds and the draws `Math.random()` returns. An
exception ends the callback: the updates queued before it stay. -/
def resolvePost (env : Env) (post : Post) (d : Draws) (w : World) : World :=
  match detectFake post, post.raw with
  | .ok fake, some raw =>
    let ai := env.classifyComplaint raw (js "")
    let w := { w with fakeResults := setKey w.fakeResults post.id fake,
                      aiResults := setKey w.aiResults post.id ai }
    if fake.isFake then
      { w with statuses := setKey w.statuses post.id "fake",
               stats := { w.stats with rejected := w.stats.rejected + 1 } }
    else
      let w := { w with statuses := setKey w.statuses post.id "approved",
                        stats := { w.stats with imported := w.stats.imported + 1 } }
      match buildComplaint env post raw ai w.now d with
      | .error _ => w
      | .ok complaint => { w with complaints := addComplaint complaint w.complaints }
  | _, _ => w

/-- `processNextPost` up to the call of `setTimeout`, which is recorded as a
pending timeout due 1200 ms later. -/
def processNextPost (w : World) : World :=
  if w.indexRef ≥ RAW_SOCIAL_POSTS.length then
    { w with running := false, intervals := clearInterval w.intervalRef w.intervals }
  else
    match RAW_SOCIAL_POSTS[w.indexRef]? with
    | none => w
    | some post =>
      { w with indexRef := w.indexRef + 1,
               posts := post :: w.posts,
               statuses := setKey w.statuses post.id "scanning",
               stats := { w.stats with scanned := w.stats.scanned + 1 },
               timeouts := w.timeouts ++ [{ due := w.now + 1200, post := post }] }

/-- `startScraping`; `setInterval(processNextPost, 1800)` is recorded as a new
active interval, first due 1800 ms later. -/
def startScraping (w : World) : World :=
  if w.running then w
  else
    { w with indexRef := 0,
             posts := [],
             statuses := fun _ => none,
             aiResults := fun _ => none,
             fakeResults := fun _ => none,
             stats := { scanned := 0, imported := 0, rejected := 0 },
             running := true,
             intervalRef := some w.nextHandle,
             intervals := w.intervals ++ [(w.nextHandle, w.now + 1800)],
             nextHandle := w.nextHandle + 1 }

/-- The browser runs the callback of the interval `h` at the instant `t`, then
arms the interval again if the callback has not cleared it. -/
def fireInterval (h : Nat) (t : Int) (w : World) : World :=
  let w := processNextPost { w with now := t }
  { w with intervals := w.intervals.map (fun e => if e.1 = h then (h, t + 1800) else e) }

/-- The browser runs the `i`-th pending timeout at the instant `t`. -/
def fireTimeout (env : Env) (i : Nat) (t : Int) (d : Draws) (w : World) : World :=
  match w.timeouts[i]? with
  | none => w
  | some e => resolvePost env e.post d { w with now := t, timeouts := w.timeouts.eraseIdx i }

/-- The first interval with the least due instant. -/
def earliestInterval : List (Nat × Int) → Option (Nat × Int)
  | [] => none
  | e :: es =>
    match earliestInterval es with
    | none => some e
    | some b => if b.2 < e.2 then some b else some e

/-- The position and due instant of the first timeout with the least due
instant, positions counted from `i`. -/
def earliestTimeout : Nat → List Timeout → Option (Nat × Int)
  | _, [] => none
  | i, e :: es =>
    match earliestTimeout (i + 1) es with
    | none => some (i, e.due)
    | some b => if b.2 < e.due then some b else some (i, e.due)

/-- The event loop with exact timers: the timer that is due first runs, at the
instant it is due (an interval before a timeout due at the same instant).
`rand t` are the draws `Math.random()` returns at the instant `t`. -/
def advance (env : Env) (rand : Int → Draws) (w : World) : World :=
  match earliestInterval w.intervals, earliestTimeout 0 w.timeouts with
  | none, none => w
  | some a, none => fireInterval a.1 (max a.2 w.now) w
  | none, some b => fireTimeout env b.1 (max b.2 w.now) (rand (max b.2 w.now)) w
  | some a, some b =>
    if a.2 ≤ b.2 then fireInterval a.1 (max a.2 w.now) w
    else fireTimeout env b.1 (max b.2 w.now) (rand (max b.2 w.now)) w

/-- One step inside a run, with timers that may run late and in any order: an
active interval ticks, a pending timeout resolves its post (with draws that
honour the contract of `Math.random()`), or the start command is issued while
the run is in progress. The number counts the ticks of the step. -/
inductive RunStep (env : Env) : World → Nat → World → Prop where
  | tick (w : World) (h : Nat) (due t : Int) :
      (h, due) ∈ w.intervals → due ≤ t → RunStep env w 1 (fireInterval h t w)
  | resolve (w : World) (i : Nat) (t : Int) (d : Draws) :
      i < w.timeouts.length → d.valid → RunStep env w 0 (fireTimeout env i t d w)
  | start (w : World) : w.running = true → RunStep env w 0 (startScraping w)

/-- The states of the run that the start command begins in `w0`, with the
number of ticks that have run so far. -/
inductive InRun (env : Env) (w0 : World) : Nat → World → Prop where
  | start : InRun env w0 0 (startScraping w0)
  | step (n k : Nat) (w w2 : World) :
      InRun env w0 n w → RunStep env w k w2 → InRun env w0 (n + k) w2

/-- No run is in progress and no timer is left: the state of a fresh mount and
the state a completed run ends in. -/
def Idle (w : World) : Prop := w.running = false ∧ w.intervals = [] ∧ w.timeouts = []

/-- The state of `SocialFeed` when it is mounted at the instant `t`, with the
store `complaints`. -/
def initialWorld (t : Int) (complaints : Option (List Complaint)) : World :=
  { posts := [], statuses := fun _ => none, aiResults := fun _ => none,
    fakeResults := fun _ => none, running := false,
    stats := { scanned := 0, imported := 0, rejected := 0 },
    intervalRef := none, indexRef := 0, now := t, intervals := [], timeouts := [],
    nextHandle := 1, complaints := complaints }

/-- A status is one of the two terminal ones. -/
def isTerminal (s : Option String) : Bool := s == some "fake" || s == some "approved"

/-- The number of demo posts whose status is terminal. -/
def terminalCount (w : World) : Nat :=
  RAW_SOCIAL_POSTS.countP (fun p => isTerminal (w.statuses p.id))

/-- The number of demo posts whose status is `scanning`. -/
def scanningCount (w : World) : Nat :=
  RAW_SOCIAL_POSTS.countP (fun p => w.statuses p.id == some "scanning")

/-- What every state of a run satisfies. -/
structure RunInv (w : World) : Prop where
  cursor_le : w.indexRef ≤ 12
  scanned_eq : w.stats.scanned = w.indexRef
  resolved_add : w.stats.imported + w.stats.rejected + w.timeouts.length = w.stats.scanned
  terminal_eq : terminalCount w = w.stats.imported + w.stats.rejected
  scanning_eq : scanningCount w = w.timeouts.length
  untouched : ∀ p ∈ RAW_SOCIAL_POSTS.drop w.indexRef, w.statuses p.id = none
  pending : ∀ e ∈ w.timeouts,
    e.post ∈ RAW_SOCIAL_POSTS ∧ w.statuses e.post.id = some "scanning"
  pending_nodup : (w.timeouts.map (fun e => e.post.id)).Nodup

/-- `detectFake` flags the post. -/
def flagged (p : Post) : Bool :=
  match detectFake p with
  | .ok v => v.isFake
  | .error _ => false

/-! ## Auxiliary definitions for the proofs -/

/-- The body of `detectFake` with the six tested conditions as parameters. -/
def verdictOf (short promo joke rep incoherent civic : Bool) : Verdict :=
  let reasons : List String := []
  let reasons := pushIf short reasonShort reasons
  let reasons := pushIf promo reasonPromo reasons
  let reasons := pushIf joke reasonJoke reasons
  let reasons := pushIf rep reasonRepeat reasons
  let reasons := pushIf incoherent reasonIncoherent reasons
  let reasons := pushIf (!civic && reasons.length == 0) reasonCivic reasons
  { isFake := reasons.length > 0, reasons := reasons }

/-- The reasons in the order the rules are evaluated. -/
def reasonPriority : List String :=
  [reasonShort, reasonPromo, reasonJoke, reasonRepeat, reasonIncoherent, reasonCivic]

/-- A hashtag token starts here: `#` followed by a word character. -/
def hasTagAt : JSString → Bool
  | c :: d :: _ => c == 35 && isWord d
  | _ => false

/-- The first code unit is a word character. -/
def headWord : JSString → Bool
  | d :: _ => isWord d
  | [] => false

/-- A post of the feed with the given text. -/
def postOf (raw : Option JSString) : Post :=
  { id := "t1", platform := "twitter", handle := "@delhi_resident", time := "2m ago",
    raw := raw, avatar := "DR" }

/-- The text of the first demo post (`t1`). -/
def streetlightText : JSString :=
  js "The streetlight near Connaught Place has been broken for 2 weeks!! Nobody fixing it #DelhiProblems #Infrastructure"

/-- A 39 code unit text that begins with U+0130; its lower case has 40. -/
def dottedText : JSString := js "İstanbul road has a pothole near school"

/-- A short text in Basic Latin. -/
def shortText : JSString := js "Pothole on MG Road"

/-- A genuine post of 61 code units that ends in a hashtag. -/
def taggedText : JSString := js "The streetlight near Connaught Place is broken #DelhiProblems"

/-- A genuine post that begins with a hashtag. -/
def leadingTagText : JSString :=
  js "#DelhiProblems The streetlight near Connaught Place has been broken for two weeks"

/-- A date parser for the examples: every string is the instant 0. -/
def epochParse : String → Option Int := fun _ => some 0

/-- The number of flagged posts among the first `j` demo posts. -/
def fakeCount (j : Nat) : Nat := (RAW_SOCIAL_POSTS.take j).countP flagged

/-- The run with exact timers that the start command begins in `w0`, after `n`
timer callbacks. -/
def timedRun (env : Env) (rand : Int → Draws) (w0 : World) (n : Nat) : World :=
  (advance env rand)^[n] (startScraping w0)

/-- The state of the run with exact timers begun in `w0` once `k` ticks have
run, before (`waiting`) or after the resolution of the post of the last
tick. -/
structure Phase (w0 : World) (k : Nat) (waiting : Bool) (w : World) : Prop where
  running : w.running = true
  ref : w.intervalRef = some w0.nextHandle
  cursor : w.indexRef = k
  intervals : w.intervals = [(w0.nextHandle, w0.now + 1800 * ((k : Int) + 1))]
  timeouts : if waiting then
      ∃ post, RAW_SOCIAL_POSTS[k - 1]? = some post ∧
        w.timeouts = [{ due := w0.now + 1800 * (k : Int) + 1200, post := post }]
    else w.timeouts = []
  clock : w.now = w0.now + 1800 * (k : Int) + (if waiting ∨ k = 0 then 0 else 1200)
  rejected : w.stats.rejected = fakeCount (if waiting then k - 1 else k)
  inv : RunInv w

/-- An environment for the examples: a classifier that finds nothing and a
constant time stamp. -/
def sampleEnv : Env :=
  { classifyComplaint := fun _ _ => { urgency := none, department := none, confidence := none },
    toISOString := fun _ => "2026-01-01T00:00:00.000Z" }

/-- Six draws for the examples. -/
def sampleDraws : Draws :=
  { spot := 1 / 2, id := 1 / 4, num := 1 / 2, upvotes := 1 / 2, lat := 0, lng := 3 / 4 }

/-- A text that spells `park` with the Kelvin sign U+212A, whose lower case is
the letter `k`. -/
def kelvinText : JSString := js "The par\u212A near our school needs new benches soon"

/-- A text that spells `click` with the Kelvin sign U+212A. -/
def clickText : JSString := js "Please clic\u212A on the pothole report near the main road"

/-- The double written `0.8333333333333333`, the greatest double below 5/6. -/
def tieDraw : ℚ := 3752999689475413 / 4503599627370496

/-- The draws of the examples with `tieDraw` as the first. -/
def tieDraws : Draws :=
  { spot := tieDraw, id := 1 / 4, num := 1 / 2, upvotes := 1 / 2, lat := 0, lng := 3 / 4 }

/-- The double next above `0.25`. -/
def quarterNext : ℚ := 1 / 4 + 1 / 2 ^ 54

/-- The time values of ECMAScript: at most 8.64e15 ms from the epoch. -/
def timeValue (t : Int) : Prop := |t| ≤ 8640000000000000

/-- A bound of the offset `(Math.random() - 0.5) * 0.01` computed in doubles. -/
def offsetBound : ℚ := (1 / 2 + 1 / 2 ^ 54) * (1 / 100 + 1 / 2 ^ 60) + 1 / 2 ^ 61

/-- A classification with both properties present. -/
def sampleClassification : Classification :=
  { urgency := some "high", department := some "Electricity", confidence := some 90 }

end Civic

namespace Civic

/-! ## The fake detector -/

theorem detectFakeText_eq (text : JSString) :
    detectFakeText text =
      verdictOf (decide (text.length < 40)) (test promoRe text) (test jokeRe text)
        (test repeatRe text) (!test wordRe text) (hasCivic text) := rfl

theorem detectFakeWith_some (lower : JSString → JSString) (post : Post) (raw : JSString)
    (h : post.raw = some raw) : detectFakeWith lower post = .ok (detectFakeText (lower raw)) := by
  unfold detectFakeWith
  rw [h]

theorem detectFake_some (post : Post) (raw : JSString) (h : post.raw = some raw) :
    detectFake post = .ok (detectFakeText (toLowerCase raw)) :=
  detectFakeWith_some toLowerCase post raw h

theorem detectFake_none (post : Post) (h : post.raw = none) :
    detectFake post = .error .typeError := by
  unfold detectFake detectFakeWith
  rw [h]

theorem hasCivic_iff (text : JSString) :
    hasCivic text = true ↔ ∃ kw ∈ civicKeywords, includes text kw = true := by
  simp [hasCivic, List.any_eq_true]

theorem verdictOf_clean :
    ∀ short promo joke rep incoherent civic : Bool,
      civic = true → short = false → promo = false → joke = false → rep = false →
      incoherent = false →
      verdictOf short promo joke rep incoherent civic = ⟨false, []⟩ := by
  decide

theorem verdictOf_short :
    ∀ promo joke rep incoherent civic : Bool,
      (verdictOf true promo joke rep incoherent civic).isFake = true ∧
      reasonShort ∈ (verdictOf true promo joke rep incoherent civic).reasons ∧
      (verdictOf true promo joke rep incoherent civic).reasons.head? = some reasonShort := by
  decide

theorem verdictOf_isFake :
    ∀ short promo joke rep incoherent civic : Bool,
      ((verdictOf short promo joke rep incoherent civic).isFake = true ↔
        (verdictOf short promo joke rep incoherent civic).reasons ≠ []) := by
  decide

theorem verdictOf_ordered :
    ∀ short promo joke rep incoherent civic : Bool,
      (verdictOf short promo joke rep incoherent civic).reasons.Sublist reasonPriority ∧
      (verdictOf short promo joke rep incoherent civic).reasons.Nodup ∧
      (reasonShort ∈ (verdictOf short promo joke rep incoherent civic).reasons ↔ short = true) ∧
      (reasonPromo ∈ (verdictOf short promo joke rep incoherent civic).reasons ↔ promo = true) ∧
      (reasonJoke ∈ (verdictOf short promo joke rep incoherent civic).reasons ↔ joke = true) ∧
      (reasonRepeat ∈ (verdictOf short promo joke rep incoherent civic).reasons ↔ rep = true) ∧
      (reasonIncoherent ∈ (verdictOf short promo joke rep incoherent civic).reasons ↔
        incoherent = true) := by
  decide

theorem verdictOf_civic :
    ∀ short promo joke rep incoherent civic : Bool,
      (reasonCivic ∈ (verdictOf short promo joke rep incoherent civic).reasons ↔
        (civic = false ∧ short = false ∧ promo = false ∧ joke = false ∧ rep = false ∧
          incoherent = false)) ∧
      (reasonCivic ∈ (verdictOf short promo joke rep incoherent civic).reasons →
        (verdictOf short promo joke rep incoherent civic).reasons = [reasonCivic]) := by
  decide

theorem includes_iff_contiguous (s kw : JSString) : includes s kw = true ↔ kw <:+: s := by
  unfold includes
  rw [List.any_eq_true, List.infix_iff_prefix_suffix]
  constructor
  · rintro ⟨t, ht, hp⟩
    exact ⟨t, List.isPrefixOf_iff_prefix.mp hp, (List.mem_tails _ _).mp ht⟩
  · rintro ⟨t, hp, ht⟩
    exact ⟨t, (List.mem_tails _ _).mpr ht, List.isPrefixOf_iff_prefix.mpr hp⟩

/-! ### Lower-casing -/

theorem lowerAt_basic (before : Bool) (c : Nat) (after : JSString) (h : c < 128) :
    lowerAt before c after = [if 65 ≤ c ∧ c ≤ 90 then c + 32 else c] := by
  have h1 : c ≠ 931 := by omega
  have h2 : c ≠ 304 := by omega
  unfold lowerAt lowerPoint codeUnits
  rw [if_neg h1, if_neg h2, if_pos h]
  split_ifs <;> first | rfl | omega

theorem isLead_basic (c : Nat) (h : c < 128) : isLead c = false := by
  unfold isLead
  simp
  omega

theorem isTrail_basic (c : Nat) (h : c < 128) : isTrail c = false := by
  unfold isTrail
  simp
  omega

/-- One step of `lowerFrom`: either a surrogate pair is read, or one code unit. -/
theorem lowerFrom_cons (before : Bool) (c : Nat) (t : JSString) :
    (∃ d rest, t = d :: rest ∧ isTrail d = true ∧
        lowerFrom before (c :: t)
          = lowerAt before (codePoint c d) rest
            ++ lowerFrom (precedes before (codePoint c d)) rest) ∨
      lowerFrom before (c :: t) = lowerAt before c t ++ lowerFrom (precedes before c) t := by
  cases t with
  | nil =>
    right
    simp [lowerFrom]
  | cons d rest =>
    by_cases hp : (isLead c && isTrail d) = true
    · left
      refine ⟨d, rest, rfl, ?_, ?_⟩
      · simp only [Bool.and_eq_true] at hp
        exact hp.2
      · simp only [lowerFrom, hp, if_true]
    · right
      simp only [lowerFrom, hp]
      rfl

theorem lowerFrom_cons_basic (before : Bool) (c : Nat) (t : JSString) (h : c < 128) :
    lowerFrom before (c :: t)
      = [if 65 ≤ c ∧ c ≤ 90 then c + 32 else c] ++ lowerFrom (precedes before c) t := by
  cases t with
  | nil => simp [lowerFrom, lowerAt_basic before c [] h]
  | cons d rest =>
    simp only [lowerFrom, isLead_basic c h, Bool.false_and]
    rw [lowerAt_basic before c _ h]
    rfl

/-- Lower-casing keeps the length of a Basic Latin text. -/
theorem lowerFrom_length_basic (s : JSString) :
    ∀ before, (∀ c ∈ s, c < 128) → (lowerFrom before s).length = s.length := by
  induction s with
  | nil =>
    intro _ _
    simp [lowerFrom]
  | cons c t ih =>
    intro before hs
    rw [lowerFrom_cons_basic before c t (hs c (List.mem_cons_self _ _)), List.length_append,
      ih _ (fun d hd => hs d (List.mem_cons_of_mem _ hd))]
    simp
    omega

theorem toLowerCase_length_basic (s : JSString) (h : ∀ c ∈ s, c < 128) :
    (toLowerCase s).length = s.length :=
  lowerFrom_length_basic s false h

/-- A run of small Basic Latin letters comes out of lower-casing unchanged. -/
theorem lowerFrom_small (kw : JSString) (hkw : ∀ c ∈ kw, 97 ≤ c ∧ c ≤ 122) :
    ∀ before b, ∃ after, lowerFrom before (kw ++ b) = kw ++ lowerFrom after b := by
  induction kw with
  | nil =>
    intro before b
    exact ⟨before, rfl⟩
  | cons c t ih =>
    intro before b
    have hc := hkw c (List.mem_cons_self _ _)
    obtain ⟨after, ha⟩ := ih (fun d hd => hkw d (List.mem_cons_of_mem _ hd))
      (precedes before c) b
    refine ⟨after, ?_⟩
    rw [List.cons_append, lowerFrom_cons_basic before c _ (by omega), ha,
      if_neg (by omega)]
    rfl

theorem lowerFrom_contains (kw : JSString) (hkw : ∀ c ∈ kw, 97 ≤ c ∧ c ≤ 122) :
    ∀ n (a : JSString), a.length ≤ n → ∀ before b,
      ∃ x y, lowerFrom before (a ++ kw ++ b) = x ++ kw ++ y := by
  intro n
  induction n with
  | zero =>
    intro a ha before b
    have : a = [] := List.length_eq_zero.mp (by omega)
    obtain ⟨after, h⟩ := lowerFrom_small kw hkw before b
    exact ⟨[], lowerFrom after b, by rw [this]; simpa using h⟩
  | succ n ih =>
    intro a ha before b
    cases a with
    | nil =>
      obtain ⟨after, h⟩ := lowerFrom_small kw hkw before b
      exact ⟨[], lowerFrom after b, by simpa using h⟩
    | cons c a1 =>
      rcases lowerFrom_cons before c (a1 ++ kw ++ b) with ⟨d, rest, hd, htrail, hstep⟩ | hstep
      · cases a1 with
        | nil =>
          cases kw with
          | nil =>
            exact ⟨lowerFrom before ([c] ++ [] ++ b), [], by simp⟩
          | cons k kt =>
            exfalso
            simp only [List.nil_append, List.cons_append, List.cons.injEq] at hd
            have hk := hkw k (List.mem_cons_self _ _)
            have := isTrail_basic k (by omega)
            rw [hd.1] at this
            rw [this] at htrail
            cases htrail
        | cons d1 a2 =>
          simp only [List.cons_append, List.cons.injEq] at hd
          obtain ⟨x, y, hxy⟩ := ih a2 (by simp at ha; omega)
            (precedes before (codePoint c d)) b
          refine ⟨lowerAt before (codePoint c d) rest ++ x, y, ?_⟩
          simp only [List.cons_append] at hstep ⊢
          rw [hstep, ← hd.2, hxy]
          simp
      · obtain ⟨x, y, hxy⟩ := ih a1 (by simp at ha; omega) (precedes before c) b
        refine ⟨lowerAt before c (a1 ++ kw ++ b) ++ x, y, ?_⟩
        simp only [List.cons_append] at hstep ⊢
        rw [hstep, hxy]
        simp

/-- A run of small Basic Latin letters in the text is still in its lower case. -/
theorem includes_toLowerCase (raw kw : JSString) (hkw : ∀ c ∈ kw, 97 ≤ c ∧ c ≤ 122)
    (h : includes raw kw = true) : includes (toLowerCase raw) kw = true := by
  rw [includes_iff_contiguous] at h ⊢
  obtain ⟨a, b, hab⟩ := h
  obtain ⟨x, y, hxy⟩ := lowerFrom_contains kw hkw a.length a (le_refl _) false b
  exact ⟨x, y, by rw [← hab]; exact hxy.symm⟩

theorem civicKeywords_small : ∀ kw ∈ civicKeywords, ∀ c ∈ kw, 97 ≤ c ∧ c ≤ 122 := by
  decide

/-- C1: whatever the built-in `toLowerCase` returns (`lower`), a text whose lower
case contains a civic keyword, has at least 40 code units, matches none of the
promotional, joke/test and repeated-character patterns and has a run of five
letters is not fake, and the reasons are empty. With the lower-casing of
Unicode (`detectFake`) a civic keyword of the raw text is still in its lower
case, so a raw text that contains one qualifies as well. -/
theorem detectFake_civic_clean (post : Post) (raw : JSString) (h : post.raw = some raw) :
    (∀ lower : JSString → JSString,
      (∃ kw ∈ civicKeywords, includes (lower raw) kw = true) →
      40 ≤ (lower raw).length →
      test promoRe (lower raw) = false →
      test jokeRe (lower raw) = false →
      test repeatRe (lower raw) = false →
      test wordRe (lower raw) = true →
      detectFakeWith lower post = .ok { isFake := false, reasons := [] }) ∧
    ((∃ kw ∈ civicKeywords, includes raw kw = true ∨ includes (toLowerCase raw) kw = true) →
      40 ≤ (toLowerCase raw).length →
      test promoRe (toLowerCase raw) = false →
      test jokeRe (toLowerCase raw) = false →
      test repeatRe (toLowerCase raw) = false →
      test wordRe (toLowerCase raw) = true →
      detectFake post = .ok { isFake := false, reasons := [] }) := by
  have key : ∀ lower : JSString → JSString,
      (∃ kw ∈ civicKeywords, includes (lower raw) kw = true) →
      40 ≤ (lower raw).length →
      test promoRe (lower raw) = false →
      test jokeRe (lower raw) = false →
      test repeatRe (lower raw) = false →
      test wordRe (lower raw) = true →
      detectFakeWith lower post = .ok { isFake := false, reasons := [] } := by
    intro lower hcivic hlen hpromo hjoke hrep hword
    rw [detectFakeWith_some lower post raw h, detectFakeText_eq]
    congr 1
    apply verdictOf_clean
    · exact (hasCivic_iff _).2 hcivic
    · simpa using hlen
    · exact hpromo
    · exact hjoke
    · exact hrep
    · simp [hword]
  refine ⟨key, ?_⟩
  intro hcivic
  apply key toLowerCase
  obtain ⟨kw, hkw, hin⟩ := hcivic
  refine ⟨kw, hkw, ?_⟩
  rcases hin with hin | hin
  · exact includes_toLowerCase raw kw (civicKeywords_small kw hkw) hin
  · exact hin

set_option maxRecDepth 100000 in
theorem kelvinText_lower :
    includes kelvinText (js "park") = false ∧
      includes (toLowerCase kelvinText) (js "park") = true ∧
      40 ≤ (toLowerCase kelvinText).length ∧
      test promoRe (toLowerCase kelvinText) = false ∧
      test jokeRe (toLowerCase kelvinText) = false ∧
      test repeatRe (toLowerCase kelvinText) = false ∧
      test wordRe (toLowerCase kelvinText) = true := by
  decide

theorem detectFake_civic_clean_witness :
    detectFake (postOf (some streetlightText)) = .ok { isFake := false, reasons := [] } ∧
      includes kelvinText (js "park") = false ∧
      detectFake (postOf (some kelvinText)) = .ok { isFake := false, reasons := [] } :=
  ⟨(detectFake_civic_clean (postOf (some streetlightText)) streetlightText rfl).2
      ⟨js "light", by decide, Or.inl (by decide)⟩ (by decide) (by decide) (by decide)
      (by decide) (by decide),
    kelvinText_lower.1,
    (detectFake_civic_clean (postOf (some kelvinText)) kelvinText rfl).1 toLowerCase
      ⟨js "park", by decide, kelvinText_lower.2.1⟩ kelvinText_lower.2.2.1
      kelvinText_lower.2.2.2.1 kelvinText_lower.2.2.2.2.1 kelvinText_lower.2.2.2.2.2.1
      kelvinText_lower.2.2.2.2.2.2⟩

/-- C2 as stated fails: a raw text of 39 code units whose lower case has 40
(U+0130 lowers to two code units) is not flagged at all. -/
theorem detectFake_short_raw_counterexample :
    dottedText.length = 39 ∧ (toLowerCase dottedText).length = 40 ∧
      detectFake (postOf (some dottedText)) = .ok { isFake := false, reasons := [] } := by
  decide

/-- C2, amended: when the lower-cased text, which is what `detectFake` measures,
has fewer than 40 code units, the verdict is fake and the too-short reason is
present, as the first reason. A raw text under 40 code units qualifies whenever
it is Basic Latin (lower-casing keeps its length). -/
theorem detectFake_short (post : Post) (raw : JSString) (h : post.raw = some raw)
    (hlen : (toLowerCase raw).length < 40 ∨ (raw.length < 40 ∧ ∀ c ∈ raw, c < 128)) :
    ∃ v, detectFake post = .ok v ∧ v.isFake = true ∧ reasonShort ∈ v.reasons ∧
      v.reasons.head? = some reasonShort := by
  have hlow : (toLowerCase raw).length < 40 := by
    rcases hlen with hl | ⟨hl, hascii⟩
    · exact hl
    · rw [toLowerCase_length_basic raw hascii]
      exact hl
  refine ⟨detectFakeText (toLowerCase raw), detectFake_some post raw h, ?_⟩
  rw [detectFakeText_eq]
  have hd : decide ((toLowerCase raw).length < 40) = true := by simpa using hlow
  rw [hd]
  exact verdictOf_short _ _ _ _ _

theorem detectFake_short_witness :
    ∃ v, detectFake (postOf (some shortText)) = .ok v ∧ v.isFake = true ∧
      reasonShort ∈ v.reasons ∧ v.reasons.head? = some reasonShort :=
  detectFake_short (postOf (some shortText)) shortText rfl (Or.inl (by decide))

/-- C3 as stated fails: on a post whose text is missing the call throws, and
no verdict is returned. -/
theorem detectFake_missing_counterexample :
    detectFake (postOf none) = .error .typeError ∧
      ¬ ∃ v, detectFake (postOf none) = .ok v := by
  refine ⟨rfl, ?_⟩
  rintro ⟨v, hv⟩
  cases hv

/-- C3, amended: on the empty text `detectFake` returns a fake verdict whose
reasons are exactly the too-short and the incoherence reason (the
civic-relevance reason is absent); on a missing text it throws a TypeError. -/
theorem detectFake_empty_or_missing (post : Post) :
    (post.raw = some [] →
      detectFake post = .ok { isFake := true, reasons := [reasonShort, reasonIncoherent] } ∧
        reasonCivic ∉ [reasonShort, reasonIncoherent]) ∧
    (post.raw = none → detectFake post = .error .typeError) := by
  refine ⟨fun h => ⟨?_, by decide⟩, detectFake_none post⟩
  rw [detectFake_some post [] h]
  decide

theorem detectFake_empty_or_missing_witness :
    detectFake (postOf (some [])) =
        .ok { isFake := true, reasons := [reasonShort, reasonIncoherent] } ∧
      detectFake (postOf none) = .error .typeError :=
  ⟨((detectFake_empty_or_missing (postOf (some []))).1 rfl).1,
    (detectFake_empty_or_missing (postOf none)).2 rfl⟩

/-- C4: on every text `detectFake` returns a verdict, and in every verdict it
returns `isFake` is true exactly when `reasons` is not empty. -/
theorem detectFake_isFake_iff (post : Post) :
    (∀ raw, post.raw = some raw → ∃ v, detectFake post = .ok v) ∧
    (∀ v, detectFake post = .ok v → (v.isFake = true ↔ v.reasons ≠ [])) := by
  refine ⟨fun raw h => ⟨_, detectFake_some post raw h⟩, ?_⟩
  intro v hv
  cases hraw : post.raw with
  | none =>
    rw [detectFake_none post hraw] at hv
    cases hv
  | some raw =>
    rw [detectFake_some post raw hraw] at hv
    cases hv
    rw [detectFakeText_eq]
    exact verdictOf_isFake _ _ _ _ _ _

theorem detectFake_isFake_iff_witness :
    (∃ v, detectFake (postOf (some shortText)) = .ok v) ∧
      ((Verdict.mk true [reasonShort]).isFake = true ↔
        (Verdict.mk true [reasonShort]).reasons ≠ []) :=
  ⟨(detectFake_isFake_iff (postOf (some shortText))).1 shortText rfl,
    (detectFake_isFake_iff (postOf (some shortText))).2 ⟨true, [reasonShort]⟩ (by decide)⟩

/-- C5: whatever the built-in `toLowerCase` returns (`lower`), the reasons
returned are a duplicate-free sublist of the priority list (so they keep its
order), and each of the five pattern rules contributes its reason exactly when
its own condition holds on the lower-cased text. -/
theorem detectFake_reasons_ordered (lower : JSString → JSString) (post : Post)
    (raw : JSString) (h : post.raw = some raw) :
    ∃ v, detectFakeWith lower post = .ok v ∧
      v.reasons.Sublist reasonPriority ∧ v.reasons.Nodup ∧
      (reasonShort ∈ v.reasons ↔ (lower raw).length < 40) ∧
      (reasonPromo ∈ v.reasons ↔ test promoRe (lower raw) = true) ∧
      (reasonJoke ∈ v.reasons ↔ test jokeRe (lower raw) = true) ∧
      (reasonRepeat ∈ v.reasons ↔ test repeatRe (lower raw) = true) ∧
      (reasonIncoherent ∈ v.reasons ↔ test wordRe (lower raw) = false) := by
  refine ⟨detectFakeText (lower raw), detectFakeWith_some lower post raw h, ?_⟩
  rw [detectFakeText_eq]
  have key := verdictOf_ordered (decide ((lower raw).length < 40))
    (test promoRe (lower raw)) (test jokeRe (lower raw))
    (test repeatRe (lower raw)) (!test wordRe (lower raw))
    (hasCivic (lower raw))
  obtain ⟨h1, h2, h3, h4, h5, h6, h7⟩ := key
  refine ⟨h1, h2, ?_, h4, h5, h6, ?_⟩
  · rw [h3]; simp
  · rw [h7]; simp

set_option maxRecDepth 100000 in
theorem clickText_lower :
    test promoRe clickText = false ∧ test promoRe (toLowerCase clickText) = true := by
  decide

theorem detectFake_reasons_ordered_witness :
    test promoRe clickText = false ∧
      ∃ v, detectFake (postOf (some clickText)) = .ok v ∧
        v.reasons.Sublist reasonPriority ∧ v.reasons.Nodup ∧ reasonPromo ∈ v.reasons := by
  obtain ⟨v, hv, h1, h2, _, h4, _⟩ :=
    detectFake_reasons_ordered toLowerCase (postOf (some clickText)) clickText rfl
  exact ⟨clickText_lower.1, v, hv, h1, h2, h4.2 clickText_lower.2⟩

/-- C6: whatever the built-in `toLowerCase` returns (`lower`), the
civic-relevance reason is among the reasons exactly when the lower-cased text
contains no civic keyword and none of the five earlier rules fired; when it is
present it is the only reason. -/
theorem detectFake_civic_reason (lower : JSString → JSString) (post : Post)
    (raw : JSString) (h : post.raw = some raw) :
    ∃ v, detectFakeWith lower post = .ok v ∧
      (reasonCivic ∈ v.reasons ↔
        ((∀ kw ∈ civicKeywords, includes (lower raw) kw = false) ∧
          ¬ (lower raw).length < 40 ∧
          test promoRe (lower raw) = false ∧
          test jokeRe (lower raw) = false ∧
          test repeatRe (lower raw) = false ∧
          test wordRe (lower raw) = true)) ∧
      (reasonCivic ∈ v.reasons → v.reasons = [reasonCivic]) := by
  refine ⟨detectFakeText (lower raw), detectFakeWith_some lower post raw h, ?_⟩
  rw [detectFakeText_eq]
  have key := verdictOf_civic (decide ((lower raw).length < 40))
    (test promoRe (lower raw)) (test jokeRe (lower raw))
    (test repeatRe (lower raw)) (!test wordRe (lower raw))
    (hasCivic (lower raw))
  refine ⟨?_, key.2⟩
  rw [key.1]
  have hc : hasCivic (lower raw) = false ↔
      ∀ kw ∈ civicKeywords, includes (lower raw) kw = false := by
    simp [hasCivic, List.any_eq_false]
  rw [hc]
  simp

theorem detectFake_civic_reason_witness :
    ∃ v, detectFake (postOf (some shortText)) = .ok v ∧
      (reasonCivic ∈ v.reasons ↔
        ((∀ kw ∈ civicKeywords, includes (toLowerCase shortText) kw = false) ∧
          ¬ (toLowerCase shortText).length < 40 ∧
          test promoRe (toLowerCase shortText) = false ∧
          test jokeRe (toLowerCase shortText) = false ∧
          test repeatRe (toLowerCase shortText) = false ∧
          test wordRe (toLowerCase shortText) = true)) ∧
      (reasonCivic ∈ v.reasons → v.reasons = [reasonCivic]) :=
  detectFake_civic_reason toLowerCase (postOf (some shortText)) shortText rfl

/-! ## Hashtag stripping -/

theorem matchR_cls_nil (p : Nat → Bool) : matchR (.cls p) [] = [] := rfl

theorem matchR_cls_cons (p : Nat → Bool) (c : Nat) (t : JSString) :
    matchR (.cls p) (c :: t) = if p c then [t] else [] := rfl

theorem matchR_seq (a b : Regex) (s : JSString) :
    matchR (.seq a b) s = (matchR a s).flatMap (matchR b) := rfl

theorem matchR_star (a : Regex) (s : JSString) :
    matchR (.star a) s = starLoop (matchR a) s.length s := rfl

theorem starLoop_succ (m : JSString → List JSString) (k : Nat) (s : JSString) :
    starLoop m (k + 1) s =
      ((m s).filter (fun t => t.length < s.length)).flatMap (starLoop m k) ++ [s] := rfl

theorem starLoop_cls (p : Nat → Bool) :
    ∀ (k : Nat) (s : JSString), s.length ≤ k →
      ∃ rest, starLoop (matchR (.cls p)) k s = s.dropWhile p :: rest := by
  intro k
  induction k with
  | zero =>
    intro s hs
    have : s = [] := List.length_eq_zero.mp (Nat.le_zero.mp hs)
    subst this
    exact ⟨[], rfl⟩
  | succ k ih =>
    intro s hs
    cases s with
    | nil => exact ⟨[], rfl⟩
    | cons c t =>
      have ht : t.length ≤ k := by simpa using hs
      obtain ⟨rest, hrest⟩ := ih t ht
      by_cases hc : p c = true
      · refine ⟨rest ++ [c :: t], ?_⟩
        rw [starLoop_succ, matchR_cls_cons]
        simp [hc, hrest]
      · refine ⟨[], ?_⟩
        rw [starLoop_succ, matchR_cls_cons]
        simp [hc]

theorem matchR_hashtag_cons (c : Nat) (t : JSString) :
    matchR hashtagRe (c :: t) =
      if c = 35 then (matchR (.cls isWord) t).flatMap (matchR (.star (.cls isWord))) else [] := by
  show (matchR (.cls (fun d => d == 35)) (c :: t)).flatMap
      (matchR (.seq (.cls isWord) (.star (.cls isWord)))) = _
  rw [matchR_cls_cons]
  by_cases hc : c = 35
  · simp [hc, matchR_seq]
  · simp [hc]

theorem matchR_hashtag_tag (d : Nat) (t : JSString) (hd : isWord d = true) :
    ∃ rest, matchR hashtagRe (35 :: d :: t) = t.dropWhile isWord :: rest := by
  obtain ⟨rest, hrest⟩ := starLoop_cls isWord t.length t (Nat.le_refl _)
  refine ⟨rest, ?_⟩
  rw [matchR_hashtag_cons, matchR_cls_cons]
  simp [hd, matchR_star, hrest]

theorem matchR_hashtag_none (s : JSString) (h : hasTagAt s = false) :
    matchR hashtagRe s = [] := by
  match s, h with
  | [], _ => rfl
  | [c], _ =>
    rw [matchR_hashtag_cons, matchR_cls_nil]
    simp
  | c :: d :: t, h =>
    simp only [hasTagAt, Bool.and_eq_false_iff, beq_eq_false_iff_ne] at h
    rw [matchR_hashtag_cons, matchR_cls_cons]
    by_cases hc : c = 35
    · have hd : isWord d = false := by
        rcases h with h | h
        · exact absurd hc h
        · exact h
      simp [hc, hd]
    · simp [hc]

theorem test_nil (r : Regex) : test r [] = !(matchR r []).isEmpty := by
  simp [test]

theorem test_cons (r : Regex) (c : Nat) (t : JSString) :
    test r (c :: t) = (!(matchR r (c :: t)).isEmpty || test r t) := by
  simp [test]

theorem test_hashtag_nil : test hashtagRe [] = false := rfl

theorem test_hashtag_cons (c : Nat) (t : JSString) :
    test hashtagRe (c :: t) = (hasTagAt (c :: t) || test hashtagRe t) := by
  rw [test_cons]
  congr 1
  cases htag : hasTagAt (c :: t) with
  | false => rw [matchR_hashtag_none _ htag]; rfl
  | true =>
    match t, htag with
    | d :: t, htag =>
      simp only [hasTagAt, Bool.and_eq_true, beq_iff_eq] at htag
      obtain ⟨hc, hd⟩ := htag
      subst hc
      obtain ⟨rest, hrest⟩ := matchR_hashtag_tag d t hd
      rw [hrest]
      rfl

theorem removeFrom_drop (r : Regex) :
    ∀ (s : JSString) (k : Nat), removeFrom r k s = removeFrom r 0 (s.drop k) := by
  intro s
  induction s with
  | nil => intro k; cases k <;> rfl
  | cons c t ih =>
    intro k
    cases k with
    | zero => rfl
    | succ k =>
      show removeFrom r k t = removeFrom r 0 (t.drop k)
      exact ih k

theorem removeFrom_sublist (r : Regex) :
    ∀ (s : JSString) (k : Nat), (removeFrom r k s).Sublist s := by
  intro s
  induction s with
  | nil => intro k; cases k <;> exact List.Sublist.refl _
  | cons c t ih =>
    intro k
    cases k with
    | succ k => exact (ih k).cons c
    | zero =>
      unfold removeFrom
      split
      · split
        · exact (ih _).cons c
        · exact (ih 0).cons₂ c
      · exact (ih 0).cons₂ c

theorem drop_length_sub_dropWhile (p : Nat → Bool) (t : JSString) :
    t.drop (t.length - (t.dropWhile p).length) = t.dropWhile p := by
  have h1 : t.takeWhile p ++ t.dropWhile p = t := List.takeWhile_append_dropWhile p t
  have h2 : t.length = (t.takeWhile p).length + (t.dropWhile p).length := by
    conv_lhs => rw [← h1]
    exact List.length_append _ _
  have h3 : t.length - (t.dropWhile p).length = (t.takeWhile p).length := by omega
  rw [h3]
  have h4 : (t.takeWhile p ++ t.dropWhile p).drop (t.takeWhile p).length = t.dropWhile p :=
    List.drop_left _ _
  rw [h1] at h4
  exact h4

theorem removeAll_tag (d : Nat) (t : JSString) (hd : isWord d = true) :
    removeAll hashtagRe (35 :: d :: t) = removeAll hashtagRe (t.dropWhile isWord) := by
  obtain ⟨rest, hrest⟩ := matchR_hashtag_tag d t hd
  have hle : (t.dropWhile isWord).length ≤ t.length :=
    (List.dropWhile_suffix isWord).length_le
  unfold removeAll
  rw [removeFrom, hrest]
  simp only [List.head?_cons, List.length_cons]
  rw [if_pos (by omega), removeFrom_drop]
  congr 1
  have h := drop_length_sub_dropWhile isWord t
  have h3 : t.length + 1 - (t.dropWhile isWord).length
      = (t.length - (t.dropWhile isWord).length) + 1 := by omega
  rw [h3, List.drop_succ_cons, h]

theorem removeAll_notag (c : Nat) (t : JSString) (h : hasTagAt (c :: t) = false) :
    removeAll hashtagRe (c :: t) = c :: removeAll hashtagRe t := by
  unfold removeAll
  rw [removeFrom, matchR_hashtag_none _ h]
  rfl

theorem headWord_dropWhile (t : JSString) : headWord (t.dropWhile isWord) = false := by
  induction t with
  | nil => rfl
  | cons c t ih =>
    by_cases hc : isWord c = true
    · rw [List.dropWhile_cons_of_pos hc]
      exact ih
    · rw [List.dropWhile_cons_of_neg hc]
      simpa [headWord] using hc

theorem hasTagAt_cons (c : Nat) (t : JSString) :
    hasTagAt (c :: t) = (c == 35 && headWord t) := by
  cases t <;> simp [hasTagAt, headWord]

theorem removeAll_clean_aux :
    ∀ (n : Nat) (s : JSString), s.length ≤ n →
      test hashtagRe (removeAll hashtagRe s) = false ∧
        (headWord s = false → headWord (removeAll hashtagRe s) = false) := by
  intro n
  induction n with
  | zero =>
    intro s hs
    have : s = [] := List.length_eq_zero.mp (Nat.le_zero.mp hs)
    subst this
    exact ⟨rfl, fun _ => rfl⟩
  | succ n ih =>
    intro s hs
    cases s with
    | nil => exact ⟨rfl, fun _ => rfl⟩
    | cons c t =>
      have ht : t.length ≤ n := by simpa using hs
      cases htag : hasTagAt (c :: t) with
      | true =>
        match t, htag, ht with
        | d :: t, htag, ht =>
          simp only [hasTagAt, Bool.and_eq_true, beq_iff_eq] at htag
          obtain ⟨hc, hd⟩ := htag
          subst hc
          rw [removeAll_tag d t hd]
          have hlen : (t.dropWhile isWord).length ≤ n := by
            have h1 : (t.dropWhile isWord).length ≤ t.length :=
              (List.dropWhile_suffix isWord).length_le
            have h2 : t.length + 1 ≤ n := by simpa using ht
            omega
          obtain ⟨h1, h2⟩ := ih (t.dropWhile isWord) hlen
          exact ⟨h1, fun _ => h2 (headWord_dropWhile t)⟩
      | false =>
        rw [removeAll_notag c t htag]
        obtain ⟨h1, h2⟩ := ih t ht
        refine ⟨?_, fun h => h⟩
        rw [test_hashtag_cons, h1, hasTagAt_cons, Bool.or_false]
        rw [hasTagAt_cons] at htag
        by_cases hc : c = 35
        · have hw : headWord t = false := by simpa [hc] using htag
          rw [h2 hw, Bool.and_false]
        · simp [hc]

theorem removeAll_clean (s : JSString) : test hashtagRe (removeAll hashtagRe s) = false :=
  (removeAll_clean_aux s.length s (Nat.le_refl _)).1

theorem removeAll_of_clean (s : JSString) (h : test hashtagRe s = false) :
    removeAll hashtagRe s = s := by
  induction s with
  | nil => rfl
  | cons c t ih =>
    rw [test_hashtag_cons, Bool.or_eq_false_iff] at h
    rw [removeAll_notag c t h.1, ih h.2]

theorem test_hashtag_suffix (p s : JSString) (h : test hashtagRe (p ++ s) = false) :
    test hashtagRe s = false := by
  induction p with
  | nil => exact h
  | cons c p ih =>
    rw [List.cons_append, test_hashtag_cons, Bool.or_eq_false_iff] at h
    exact ih h.2

theorem test_hashtag_left (p s : JSString) (h : test hashtagRe (p ++ s) = false) :
    test hashtagRe p = false := by
  induction p with
  | nil => rfl
  | cons c p ih =>
    rw [List.cons_append, test_hashtag_cons, Bool.or_eq_false_iff] at h
    rw [test_hashtag_cons, ih h.2, Bool.or_false]
    have h1 := h.1
    rw [hasTagAt_cons] at h1 ⊢
    cases p with
    | nil => simp [headWord]
    | cons d p => exact h1

theorem test_hashtag_trim (s : JSString) (h : test hashtagRe s = false) :
    test hashtagRe (trim s) = false := by
  have h1 : test hashtagRe (s.dropWhile isSpace) = false := by
    obtain ⟨p, hp⟩ := List.dropWhile_suffix (l := s) isSpace
    rw [← hp] at h
    exact test_hashtag_suffix p _ h
  obtain ⟨q, hq⟩ := List.rdropWhile_prefix isSpace (s.dropWhile isSpace)
  rw [← hq] at h1
  exact test_hashtag_left _ q h1

theorem trim_length_le (s : JSString) : (trim s).length ≤ s.length :=
  Nat.le_trans (List.rdropWhile_prefix isSpace (s.dropWhile isSpace)).length_le
    (List.dropWhile_suffix isSpace).length_le

theorem removeAll_length_le (r : Regex) (s : JSString) : (removeAll r s).length ≤ s.length :=
  (removeFrom_sublist r s 0).length_le

/-! ## The neglect evaluator -/

theorem fdiv_day_ge (d : Int) : 30 ≤ Int.fdiv d msPerDay ↔ 2592000000 ≤ d := by
  have hpos : (0 : Int) < msPerDay := by decide
  rw [Int.fdiv_eq_ediv d (Int.le_of_lt hpos), Int.le_ediv_iff_mul_le hpos]
  have : (30 : Int) * msPerDay = 2592000000 := by decide
  rw [this]

theorem isNeglected_eq (now : Int) (dateParse : String → Option Int) (c : StoredComplaint) :
    isNeglected now dateParse c = true ↔
      c.status ≠ some "resolved" ∧ c.timestamp ≠ some "Just now" ∧
        ∃ t, dateOf dateParse c.timestamp = some t ∧ 2592000000 ≤ now - t := by
  unfold isNeglected
  by_cases h1 : c.status = some "resolved"
  · simp [h1]
  · by_cases h2 : c.timestamp = some "Just now"
    · simp [h1, h2]
    · rw [if_neg h1, if_neg h2]
      cases hd : dateOf dateParse c.timestamp with
      | none => simp [h1, h2]
      | some t =>
        simp only [ne_eq, h1, not_false_eq_true, h2, Option.some.injEq, true_and,
          decide_eq_true_eq, exists_eq_left']
        exact fdiv_day_ge (now - t)

/-- C7: a record whose status is resolved is never neglected, whatever its
timestamp (old, invalid or missing), the clock and the date parser. -/
theorem isNeglected_resolved (now : Int) (dateParse : String → Option Int)
    (c : StoredComplaint) (h : c.status = some "resolved") :
    isNeglected now dateParse c = false := by
  unfold isNeglected
  rw [if_pos h]

theorem isNeglected_resolved_witness :
    isNeglected 4102444800000 epochParse { status := some "resolved", timestamp := none }
      = false :=
  isNeglected_resolved 4102444800000 epochParse
    { status := some "resolved", timestamp := none } rfl

/-- C8: a record is neglected exactly when its status is not resolved, its
timestamp is not the sentinel `Just now`, the timestamp is a valid date and
`now` is at least 30 days of milliseconds after it, which is when the floor of
the difference divided by one day is at least 30. It is not neglected 29 days
23 hours 59 minutes after the timestamp, it is neglected exactly 30 days after
it, and it is not neglected when the timestamp is invalid or in the future. -/
theorem isNeglected_iff (now : Int) (dateParse : String → Option Int) (c : StoredComplaint) :
    (isNeglected now dateParse c = true ↔
      c.status ≠ some "resolved" ∧ c.timestamp ≠ some "Just now" ∧
        ∃ t, dateOf dateParse c.timestamp = some t ∧ 30 * 86400000 ≤ now - t) ∧
    (∀ d : Int, 30 ≤ Int.fdiv d msPerDay ↔ 30 * 86400000 ≤ d) ∧
    (∀ t, dateOf dateParse c.timestamp = some t →
      now - t = 29 * 86400000 + 23 * 3600000 + 59 * 60000 →
      isNeglected now dateParse c = false) ∧
    (∀ t, c.status ≠ some "resolved" → c.timestamp ≠ some "Just now" →
      dateOf dateParse c.timestamp = some t → now - t = 30 * 86400000 →
      isNeglected now dateParse c = true) ∧
    (dateOf dateParse c.timestamp = none → isNeglected now dateParse c = false) ∧
    (∀ t, dateOf dateParse c.timestamp = some t → now < t →
      isNeglected now dateParse c = false) := by
  have key := isNeglected_eq now dateParse c
  refine ⟨key, fun d => fdiv_day_ge d, ?_, ?_, ?_, ?_⟩
  · intro t ht hdiff
    rw [← Bool.not_eq_true, key]
    rintro ⟨_, _, t2, ht2, hge⟩
    rw [ht] at ht2
    cases ht2
    omega
  · intro t h1 h2 ht hdiff
    rw [key]
    exact ⟨h1, h2, t, ht, by omega⟩
  · intro hnone
    rw [← Bool.not_eq_true, key]
    rintro ⟨_, _, t2, ht2, _⟩
    rw [hnone] at ht2
    cases ht2
  · intro t ht hlt
    rw [← Bool.not_eq_true, key]
    rintro ⟨_, _, t2, ht2, hge⟩
    rw [ht] at ht2
    cases ht2
    omega

theorem isNeglected_iff_witness :
    isNeglected (29 * 86400000 + 23 * 3600000 + 59 * 60000) epochParse
        { status := some "open", timestamp := some "1970-01-01T00:00:00.000Z" } = false ∧
      isNeglected (30 * 86400000) epochParse
        { status := some "open", timestamp := some "1970-01-01T00:00:00.000Z" } = true ∧
      isNeglected (30 * 86400000) epochParse
        { status := some "open", timestamp := none } = false ∧
      isNeglected (-1) epochParse
        { status := some "open", timestamp := some "1970-01-01T00:00:00.000Z" } = false :=
  ⟨(isNeglected_iff (29 * 86400000 + 23 * 3600000 + 59 * 60000) epochParse
      { status := some "open", timestamp := some "1970-01-01T00:00:00.000Z" }).2.2.1 0 rfl
      (by decide),
    (isNeglected_iff (30 * 86400000) epochParse
      { status := some "open", timestamp := some "1970-01-01T00:00:00.000Z" }).2.2.2.1 0
      (by decide) (by decide) rfl (by decide),
    (isNeglected_iff (30 * 86400000) epochParse
      { status := some "open", timestamp := none }).2.2.2.2.1 rfl,
    (isNeglected_iff (-1) epochParse
      { status := some "open", timestamp := some "1970-01-01T00:00:00.000Z" }).2.2.2.2.2 0 rfl
      (by decide)⟩

/-! ## The title and description of an imported record -/

/-- C9 as stated fails: a genuine post of 61 code units that ends in a hashtag
gets the ellipsis although stripping and trimming leave 46 code units, which
the truncation to 60 does not touch; and for a post that begins with a hashtag
the title keeps fewer code units of the text than the truncation of the
stripped text would. -/
theorem complaintTitle_counterexample :
    detectFake (postOf (some taggedText)) = .ok { isFake := false, reasons := [] } ∧
      complaintTitle taggedText = js "The streetlight near Connaught Place is broken..." ∧
      titleSpec taggedText = js "The streetlight near Connaught Place is broken" ∧
      complaintTitle taggedText ≠ titleSpec taggedText ∧
      detectFake (postOf (some leadingTagText)) = .ok { isFake := false, reasons := [] } ∧
      complaintTitle leadingTagText = js "The streetlight near Connaught Place has been..." ∧
      titleSpec leadingTagText =
        js "The streetlight near Connaught Place has been broken for two..." := by
  decide

/-- C9, amended: the title is the first 60 code units of the raw text with the
hashtag tokens of that prefix stripped and the result trimmed (at most 60 code
units, free of hashtag tokens), followed by the ellipsis exactly when the raw
text has more than 60 code units. For a raw text of at most 60 code units this
is the title of the specification: the stripped, trimmed text with no
ellipsis. -/
theorem complaintTitle_spec (raw : JSString) :
    (∃ body, body = trim (removeAll hashtagRe (raw.take 60)) ∧ body.length ≤ 60 ∧
      test hashtagRe body = false ∧
      complaintTitle raw = body ++ (if 60 < raw.length then js "..." else [])) ∧
    (raw.length ≤ 60 →
      complaintTitle raw = trim (removeAll hashtagRe raw) ∧
        complaintTitle raw = titleSpec raw) := by
  constructor
  · refine ⟨_, rfl, ?_, test_hashtag_trim _ (removeAll_clean _), rfl⟩
    calc (trim (removeAll hashtagRe (raw.take 60))).length
        ≤ (removeAll hashtagRe (raw.take 60)).length := trim_length_le _
      _ ≤ (raw.take 60).length := removeAll_length_le _ _
      _ ≤ 60 := List.length_take_le 60 raw
  · intro hlen
    have htake : raw.take 60 = raw := List.take_of_length_le hlen
    have hclean : (trim (removeAll hashtagRe raw)).length ≤ 60 :=
      Nat.le_trans (trim_length_le _) (Nat.le_trans (removeAll_length_le _ _) hlen)
    have h1 : complaintTitle raw = trim (removeAll hashtagRe raw) := by
      unfold complaintTitle slice0
      rw [htake, if_neg (by omega)]
      exact List.append_nil _
    refine ⟨h1, ?_⟩
    rw [h1]
    unfold titleSpec slice0
    simp only
    rw [List.take_of_length_le hclean, if_neg (by omega)]
    exact (List.append_nil _).symm

theorem complaintTitle_spec_witness :
    shortText.length ≤ 60 ∧ complaintTitle shortText = titleSpec shortText :=
  ⟨by decide, ((complaintTitle_spec shortText).2 (by decide)).2⟩

/-- C10: the description is the whole raw text with every hashtag token removed
and then trimmed; it contains no hashtag token, stripping it again changes
nothing (nor does stripping the stripped text), and a text without hashtag
tokens is only trimmed. -/
theorem complaintDescription_clean (raw : JSString) :
    complaintDescription raw = trim (removeAll hashtagRe raw) ∧
      test hashtagRe (removeAll hashtagRe raw) = false ∧
      test hashtagRe (complaintDescription raw) = false ∧
      removeAll hashtagRe (removeAll hashtagRe raw) = removeAll hashtagRe raw ∧
      removeAll hashtagRe (complaintDescription raw) = complaintDescription raw ∧
      (test hashtagRe raw = false → complaintDescription raw = trim raw) := by
  have h1 : test hashtagRe (removeAll hashtagRe raw) = false := removeAll_clean raw
  have h2 : test hashtagRe (complaintDescription raw) = false := test_hashtag_trim _ h1
  refine ⟨rfl, h1, h2, removeAll_of_clean _ h1, removeAll_of_clean _ h2, ?_⟩
  intro h
  unfold complaintDescription
  rw [removeAll_of_clean raw h]

theorem complaintDescription_clean_witness :
    test hashtagRe shortText = false ∧ complaintDescription shortText = trim shortText :=
  ⟨by decide, (complaintDescription_clean shortText).2.2.2.2.2 (by decide)⟩

/-! ## Numbers -/

theorem roundHalfEven_sub (y : ℚ) :
    (roundHalfEven y : ℚ) - y ≤ 1 / 2 ∧ y - (roundHalfEven y : ℚ) ≤ 1 / 2 := by
  have h1 := Int.floor_le y
  have h2 := Int.lt_floor_add_one y
  unfold roundHalfEven
  split_ifs with a b c
  · constructor <;> linarith
  · push_cast
    constructor <;> linarith
  · constructor <;> linarith
  · push_cast
    constructor <;> linarith

theorem roundHalfEven_le_of_lt (y : ℚ) (n : Int) (h : y < n + 1 / 2) : roundHalfEven y ≤ n := by
  have h1 := (roundHalfEven_sub y).1
  have h2 : (roundHalfEven y : ℚ) < (n : ℚ) + 1 := by linarith
  have h3 : roundHalfEven y < n + 1 := by exact_mod_cast h2
  omega

theorem le_roundHalfEven_of_lt (y : ℚ) (n : Int) (h : (n : ℚ) - 1 / 2 < y) :
    n ≤ roundHalfEven y := by
  have h1 := (roundHalfEven_sub y).2
  have h2 : (n : ℚ) - 1 < (roundHalfEven y : ℚ) := by linarith
  have h3 : n - 1 < roundHalfEven y := by exact_mod_cast h2
  omega

theorem roundHalfEven_intCast (n : Int) : roundHalfEven (n : ℚ) = n :=
  le_antisymm (roundHalfEven_le_of_lt _ n (by linarith))
    (le_roundHalfEven_of_lt _ n (by linarith))

theorem ulp_pos (q : ℚ) : 0 < ulp q := by
  unfold ulp
  positivity

/-- The binade of `q` fixes the spacing. -/
theorem ulp_of_binade (q : ℚ) (e : Int) (h1 : (2 : ℚ) ^ e ≤ |q|) (h2 : |q| < (2 : ℚ) ^ (e + 1)) :
    ulp q = (2 : ℚ) ^ (max e (-1022) - 52) := by
  have hpos : 0 < |q| := lt_of_lt_of_le (by positivity) h1
  have a : e ≤ Int.log 2 |q| := by
    rw [← Int.zpow_le_iff_le_log (by norm_num) hpos]
    exact_mod_cast h1
  have b : Int.log 2 |q| < e + 1 := by
    rw [← Int.lt_zpow_iff_log_lt (by norm_num) hpos]
    exact_mod_cast h2
  have c : Int.log 2 |q| = e := by omega
  unfold ulp
  rw [c]

theorem ulp_le_of_lt (q : ℚ) (e : Int) (he : -1022 ≤ e) (h0 : q ≠ 0)
    (h2 : |q| < (2 : ℚ) ^ (e + 1)) : ulp q ≤ (2 : ℚ) ^ (e - 52) := by
  have hpos : 0 < |q| := abs_pos.mpr h0
  have b : Int.log 2 |q| < e + 1 := by
    rw [← Int.lt_zpow_iff_log_lt (by norm_num) hpos]
    exact_mod_cast h2
  unfold ulp
  apply zpow_le_zpow_right₀ (by norm_num)
  omega

theorem fl_zero : fl 0 = 0 := by
  unfold fl
  simp

theorem fl_eq (q : ℚ) (h : q ≠ 0) : fl q = roundHalfEven (q / ulp q) * ulp q := by
  unfold fl
  rw [if_neg h]

/-- Rounding moves a number by at most half the spacing. -/
theorem fl_sub (q : ℚ) (h : q ≠ 0) :
    fl q - q ≤ ulp q / 2 ∧ q - fl q ≤ ulp q / 2 := by
  have hu := ulp_pos q
  obtain ⟨a, b⟩ := roundHalfEven_sub (q / ulp q)
  rw [fl_eq q h]
  have e : q = q / ulp q * ulp q := by field_simp
  constructor
  · have : ((roundHalfEven (q / ulp q) : ℚ) - q / ulp q) * ulp q ≤ 1 / 2 * ulp q :=
      mul_le_mul_of_nonneg_right a hu.le
    nlinarith
  · have : (q / ulp q - (roundHalfEven (q / ulp q) : ℚ)) * ulp q ≤ 1 / 2 * ulp q :=
      mul_le_mul_of_nonneg_right b hu.le
    nlinarith

theorem fl_sub_of_lt (q : ℚ) (e : Int) (he : -1022 ≤ e) (h2 : |q| < (2 : ℚ) ^ (e + 1)) :
    |fl q - q| ≤ (2 : ℚ) ^ (e - 53) := by
  by_cases h0 : q = 0
  · rw [h0, fl_zero]
    simp
    positivity
  · obtain ⟨a, b⟩ := fl_sub q h0
    have c := ulp_le_of_lt q e he h0 h2
    have d : (2 : ℚ) ^ (e - 52) = 2 * (2 : ℚ) ^ (e - 53) := by
      rw [show e - 52 = (e - 53) + 1 by ring, zpow_add_one₀ (by norm_num)]
      ring
    rw [abs_le]
    constructor <;> linarith

theorem fl_nonneg (q : ℚ) (h : 0 ≤ q) : 0 ≤ fl q := by
  by_cases h0 : q = 0
  · rw [h0, fl_zero]
  · rw [fl_eq q h0]
    have hu := ulp_pos q
    have : (0 : Int) ≤ roundHalfEven (q / ulp q) := by
      apply le_roundHalfEven_of_lt
      have : 0 ≤ q / ulp q := div_nonneg h hu.le
      push_cast
      linarith
    have : (0 : ℚ) ≤ (roundHalfEven (q / ulp q) : ℚ) := by exact_mod_cast this
    positivity

/-- Rounding does not cross a grid point `n * ulp q` by half a spacing. -/
theorem fl_le_of_lt (q : ℚ) (n : Int) (h0 : q ≠ 0) (h : q / ulp q < n + 1 / 2) :
    fl q ≤ n * ulp q := by
  rw [fl_eq q h0]
  have := roundHalfEven_le_of_lt _ n h
  have : (roundHalfEven (q / ulp q) : ℚ) ≤ (n : ℚ) := by exact_mod_cast this
  exact mul_le_mul_of_nonneg_right this (ulp_pos q).le

theorem le_fl_of_lt (q : ℚ) (n : Int) (h0 : q ≠ 0) (h : (n : ℚ) - 1 / 2 < q / ulp q) :
    n * ulp q ≤ fl q := by
  rw [fl_eq q h0]
  have := le_roundHalfEven_of_lt _ n h
  have : (n : ℚ) ≤ (roundHalfEven (q / ulp q) : ℚ) := by exact_mod_cast this
  exact mul_le_mul_of_nonneg_right this (ulp_pos q).le


/-- A double in [1/2, 1) is at most 1 - 2^-53. -/
theorem unitDraw_le (r : ℚ) (h : unitDraw r) (hr : 1 / 2 ≤ r) :
    r * 2 ^ 53 ≤ 2 ^ 53 - 1 := by
  obtain ⟨hd, h0, h1⟩ := h
  have hne : r ≠ 0 := by linarith
  have habs : |r| = r := abs_of_nonneg h0
  have hu : ulp r = (2 : ℚ) ^ (-53 : Int) := by
    rw [ulp_of_binade r (-1) (by rw [habs]; norm_num; linarith) (by rw [habs]; norm_num; linarith)]
    norm_num
  unfold isDouble at hd
  rw [fl_eq r hne, hu] at hd
  have hk : (roundHalfEven (r / 2 ^ (-53 : Int)) : ℚ) = r * 2 ^ 53 := by
    have : (2 : ℚ) ^ (-53 : Int) = 1 / 2 ^ 53 := by norm_num
    rw [this] at hd ⊢
    field_simp at hd ⊢
    linarith
  have hlt : (roundHalfEven (r / 2 ^ (-53 : Int)) : ℚ) < 2 ^ 53 := by
    rw [hk]
    linarith
  have hlt2 : roundHalfEven (r / 2 ^ (-53 : Int)) < 2 ^ 53 := by exact_mod_cast hlt
  have hle : roundHalfEven (r / 2 ^ (-53 : Int)) ≤ 2 ^ 53 - 1 := by omega
  have hle2 : (roundHalfEven (r / 2 ^ (-53 : Int)) : ℚ) ≤ 2 ^ 53 - 1 := by exact_mod_cast hle
  rw [hk] at hle2
  exact hle2

/-- In doubles the product of a draw and 12 stays below 12. -/
theorem fl_mul_twelve (r : ℚ) (h : unitDraw r) : 0 ≤ fl (r * 12) ∧ fl (r * 12) < 12 := by
  have h0 := h.2.1
  have h1 := h.2.2
  refine ⟨fl_nonneg _ (by linarith), ?_⟩
  by_cases hc : r * 12 < 8
  · have habs : |r * 12| = r * 12 := abs_of_nonneg (by linarith)
    have k := fl_sub_of_lt (r * 12) 2 (by norm_num) (by rw [habs]; norm_num; linarith)
    rw [abs_le] at k
    have : (2 : ℚ) ^ ((2 : Int) - 53) ≤ 1 := by norm_num
    linarith [k.2]
  · push_neg at hc
    have habs : |r * 12| = r * 12 := abs_of_nonneg (by linarith)
    have hne : r * 12 ≠ 0 := by linarith
    have hu : ulp (r * 12) = (2 : ℚ) ^ (-49 : Int) := by
      rw [ulp_of_binade (r * 12) 3 (by rw [habs]; norm_num; linarith)
        (by rw [habs]; norm_num; linarith)]
      norm_num
    have hr := unitDraw_le r h (by linarith)
    have k := fl_le_of_lt (r * 12) (12 * 2 ^ 49 - 1) hne (by
      rw [hu]
      have : (2 : ℚ) ^ (-49 : Int) = 1 / 2 ^ 49 := by norm_num
      rw [this]
      push_cast
      field_simp
      norm_num at hr ⊢
      linarith)
    rw [hu] at k
    have : (((12 * 2 ^ 49 - 1 : Int) : ℚ)) * (2 : ℚ) ^ (-49 : Int) < 12 := by norm_num
    linarith

theorem offset_abs (r : ℚ) (h0 : 0 ≤ r) (h1 : r < 1) :
    |fl (fl (r - 1 / 2) * fl (1 / 100))| ≤ offsetBound := by
  have a := fl_sub_of_lt (r - 1 / 2) (-1) (by norm_num) (by
    rw [abs_lt]
    constructor <;> norm_num <;> linarith)
  have b := fl_sub_of_lt (1 / 100) (-7) (by norm_num) (by
    rw [abs_lt]
    constructor <;> norm_num)
  have ha : |fl (r - 1 / 2)| ≤ 1 / 2 + 1 / 2 ^ 54 := by
    rw [abs_le] at a ⊢
    norm_num at a ⊢
    constructor <;> linarith [a.1, a.2]
  have hb : |fl (1 / 100)| ≤ 1 / 100 + 1 / 2 ^ 60 := by
    rw [abs_le] at b ⊢
    norm_num at b ⊢
    constructor <;> linarith [b.1, b.2]
  have hab : |fl (r - 1 / 2) * fl (1 / 100)| ≤ (1 / 2 + 1 / 2 ^ 54) * (1 / 100 + 1 / 2 ^ 60) := by
    rw [abs_mul]
    exact mul_le_mul ha hb (abs_nonneg _) (by norm_num)
  have c := fl_sub_of_lt (fl (r - 1 / 2) * fl (1 / 100)) (-8) (by norm_num) (by
    refine lt_of_le_of_lt hab ?_
    norm_num)
  have hc : (2 : ℚ) ^ ((-8 : Int) - 53) = 1 / 2 ^ 61 := by norm_num
  rw [hc] at c
  unfold offsetBound
  rw [abs_le] at c hab ⊢
  constructor <;> linarith [c.1, c.2, hab.1, hab.2]

/-- A coordinate on the grid of its binade moves by at most `m` grid steps when
the offset is added in doubles. -/
theorem coordinate_bound (s r : ℚ) (e k m : Int) (he : -1022 ≤ e)
    (hs : s = k * (2 : ℚ) ^ (e - 52)) (h1 : (2 : ℚ) ^ e + 1 / 100 ≤ s)
    (h2 : s + 1 / 100 ≤ (2 : ℚ) ^ (e + 1)) (h0 : 0 ≤ r) (hr : r < 1)
    (hm1 : offsetBound / (2 : ℚ) ^ (e - 52) < m + 1 / 2)
    (hm2 : (m : ℚ) * (2 : ℚ) ^ (e - 52) ≤ 1 / 200) :
    |fl (s + fl (fl (r - 1 / 2) * fl (1 / 100))) - s| ≤ 1 / 200 := by
  have ho := offset_abs r h0 hr
  generalize fl (fl (r - 1 / 2) * fl (1 / 100)) = o at ho
  have hB : offsetBound < 1 / 100 := by
    unfold offsetBound
    norm_num
  rw [abs_le] at ho
  have hpe : (0 : ℚ) < (2 : ℚ) ^ e := by positivity
  have hz1 : (2 : ℚ) ^ e ≤ s + o := by linarith [ho.1]
  have hz2 : s + o < (2 : ℚ) ^ (e + 1) := by linarith [ho.2]
  have habs : |s + o| = s + o := abs_of_nonneg (by linarith)
  have hne : s + o ≠ 0 := by linarith
  have hu : ulp (s + o) = (2 : ℚ) ^ (e - 52) := by
    rw [ulp_of_binade (s + o) e (by rw [habs]; exact hz1) (by rw [habs]; exact hz2),
      max_eq_left he]
  have hup : (0 : ℚ) < (2 : ℚ) ^ (e - 52) := by positivity
  have hdiv : (s + o) / (2 : ℚ) ^ (e - 52) = k + o / (2 : ℚ) ^ (e - 52) := by
    rw [hs]
    field_simp
  have hob1 : o / (2 : ℚ) ^ (e - 52) ≤ offsetBound / (2 : ℚ) ^ (e - 52) :=
    div_le_div_of_nonneg_right ho.2 hup.le
  have hob2 : -(offsetBound / (2 : ℚ) ^ (e - 52)) ≤ o / (2 : ℚ) ^ (e - 52) := by
    rw [← neg_div]
    exact div_le_div_of_nonneg_right ho.1 hup.le
  have up := fl_le_of_lt (s + o) (k + m) hne (by
    rw [hu, hdiv]
    push_cast
    linarith)
  have lo := le_fl_of_lt (s + o) (k - m) hne (by
    rw [hu, hdiv]
    push_cast
    linarith)
  rw [hu] at up lo
  push_cast at up lo
  rw [abs_le]
  constructor
  · nlinarith
  · nlinarith

/-- The double sum of an integer time value and a draw lies between the time
value and the next integer. -/
theorem id_bounds (now : Int) (r : ℚ) (hn : |now| ≤ 8640000000000000) (h0 : 0 ≤ r)
    (h1 : r < 1) : (now : ℚ) ≤ fl (now + r) ∧ fl (now + r) ≤ now + 1 := by
  by_cases hz : (now : ℚ) + r = 0
  · rw [hz, fl_zero]
    constructor <;> linarith
  · have hnq : |(now : ℚ)| ≤ 8640000000000000 := by exact_mod_cast hn
    rw [abs_le] at hnq
    have hlt : |(now : ℚ) + r| < (2 : ℚ) ^ ((52 : Int) + 1) := by
      rw [abs_lt]
      constructor <;> norm_num <;> linarith [hnq.1, hnq.2]
    have hlog : Int.log 2 |(now : ℚ) + r| < 52 + 1 := by
      rw [← Int.lt_zpow_iff_log_lt (by norm_num) (abs_pos.mpr hz)]
      exact_mod_cast hlt
    obtain ⟨j, hj⟩ : ∃ j : ℕ, ulp ((now : ℚ) + r) * 2 ^ j = 1 := by
      refine ⟨(52 - max (Int.log 2 |(now : ℚ) + r|) (-1022)).toNat, ?_⟩
      unfold ulp
      rw [← zpow_natCast, ← zpow_add₀ (by norm_num)]
      have : max (Int.log 2 |(now : ℚ) + r|) (-1022) - 52
          + ((52 - max (Int.log 2 |(now : ℚ) + r|) (-1022)).toNat : Int) = 0 := by
        omega
      rw [this, zpow_zero]
    have hu := ulp_pos ((now : ℚ) + r)
    have hdiv : ∀ x : ℚ, x / ulp ((now : ℚ) + r) = x * 2 ^ j := by
      intro x
      rw [div_eq_iff hu.ne', mul_assoc, mul_comm _ (ulp _), hj, mul_one]
    have hp : (0 : ℚ) < 2 ^ j := by positivity
    have lo := le_fl_of_lt ((now : ℚ) + r) (now * 2 ^ j) hz (by
      rw [hdiv]
      push_cast
      nlinarith)
    have up := fl_le_of_lt ((now : ℚ) + r) ((now + 1) * 2 ^ j) hz (by
      rw [hdiv]
      push_cast
      nlinarith)
    push_cast at lo up
    rw [mul_assoc, mul_comm _ (ulp _), hj, mul_one] at lo up
    exact ⟨lo, up⟩


theorem fl_of_binade (q : ℚ) (e : Int) (h1 : (2 : ℚ) ^ e ≤ |q|) (h2 : |q| < (2 : ℚ) ^ (e + 1)) :
    fl q = roundHalfEven (q / (2 : ℚ) ^ (max e (-1022) - 52)) * (2 : ℚ) ^ (max e (-1022) - 52) := by
  have hne : q ≠ 0 := by
    intro h
    rw [h, abs_zero] at h1
    have : (0 : ℚ) < (2 : ℚ) ^ e := by positivity
    linarith
  rw [fl_eq q hne, ulp_of_binade q e h1 h2]

/-- A multiple of the spacing of its binade is a double. -/
theorem isDouble_of_grid (q : ℚ) (e k : Int) (h1 : (2 : ℚ) ^ e ≤ |q|)
    (h2 : |q| < (2 : ℚ) ^ (e + 1)) (hq : q = k * (2 : ℚ) ^ (max e (-1022) - 52)) :
    isDouble q := by
  unfold isDouble
  rw [fl_of_binade q e h1 h2]
  have hp : (0 : ℚ) < (2 : ℚ) ^ (max e (-1022) - 52) := by positivity
  have : q / (2 : ℚ) ^ (max e (-1022) - 52) = (k : ℚ) := by
    rw [div_eq_iff hp.ne']
    exact hq
  rw [this, roundHalfEven_intCast]
  exact hq.symm

theorem isDouble_zero : isDouble 0 := fl_zero

theorem roundHalfEven_tie (n : Int) (h : n % 2 = 1) : roundHalfEven ((n : ℚ) + 1 / 2) = n + 1 := by
  have hf : ⌊(n : ℚ) + 1 / 2⌋ = n := by
    rw [Int.floor_eq_iff]
    constructor <;> linarith
  unfold roundHalfEven
  rw [hf]
  have a : ¬ ((n : ℚ) + 1 / 2 - (n : ℚ) < 1 / 2) := by
    intro h
    linarith
  have b : ¬ (1 / 2 < (n : ℚ) + 1 / 2 - (n : ℚ)) := by
    intro h
    linarith
  have c : ¬ (n % 2 = 0) := by omega
  rw [if_neg a, if_neg b, if_neg c]

theorem unitDraw_tieDraw : unitDraw tieDraw := by
  refine ⟨isDouble_of_grid tieDraw (-1) 7505999378950826 ?_ ?_ ?_, ?_, ?_⟩ <;>
    norm_num [tieDraw, abs_of_nonneg]

/-- At the draw 0.8333333333333333 the exact product is below 10 and the double
product is 10. -/
theorem spotIndex_tieDraw : ⌊tieDraw * 12⌋ = 9 ∧ spotIndex tieDraw = 10 := by
  constructor
  · rw [Int.floor_eq_iff]
    norm_num [tieDraw]
  · unfold spotIndex
    have hl : ((delhiSpots.length : ℕ) : ℚ) = 12 := by
      have : delhiSpots.length = 12 := rfl
      rw [this]
      norm_num
    rw [hl]
    have h : fl (tieDraw * 12) = 10 := by
      rw [fl_of_binade (tieDraw * 12) 3 (by norm_num [tieDraw, abs_of_nonneg])
        (by norm_num [tieDraw, abs_of_nonneg])]
      have : tieDraw * 12 / (2 : ℚ) ^ (max (3 : Int) (-1022) - 52)
          = ((5629499534213119 : Int) : ℚ) + 1 / 2 := by
        norm_num [tieDraw]
      rw [this, roundHalfEven_tie _ (by decide)]
      norm_num
    rw [h]
    norm_num

theorem spot_lat (q : ℚ) (h1 : 17 ≤ q) (h2 : q ≤ 31) :
    ∃ k : Int, fl q = k * (2 : ℚ) ^ ((4 : Int) - 52) ∧ (2 : ℚ) ^ (4 : Int) + 1 / 100 ≤ fl q ∧
      fl q + 1 / 100 ≤ (2 : ℚ) ^ ((4 : Int) + 1) := by
  have habs : |q| = q := abs_of_nonneg (by linarith)
  have a := fl_of_binade q 4 (by rw [habs]; norm_num; linarith) (by rw [habs]; norm_num; linarith)
  have b := fl_sub_of_lt q 4 (by norm_num) (by rw [habs]; norm_num; linarith)
  rw [abs_le] at b
  refine ⟨_, a, ?_, ?_⟩
  · norm_num at b ⊢
    linarith [b.1]
  · norm_num at b ⊢
    linarith [b.2]

theorem spot_lng (q : ℚ) (h1 : 65 ≤ q) (h2 : q ≤ 127) :
    ∃ k : Int, fl q = k * (2 : ℚ) ^ ((6 : Int) - 52) ∧ (2 : ℚ) ^ (6 : Int) + 1 / 100 ≤ fl q ∧
      fl q + 1 / 100 ≤ (2 : ℚ) ^ ((6 : Int) + 1) := by
  have habs : |q| = q := abs_of_nonneg (by linarith)
  have a := fl_of_binade q 6 (by rw [habs]; norm_num; linarith) (by rw [habs]; norm_num; linarith)
  have b := fl_sub_of_lt q 6 (by norm_num) (by rw [habs]; norm_num; linarith)
  rw [abs_le] at b
  refine ⟨_, a, ?_, ?_⟩
  · norm_num at b ⊢
    linarith [b.1]
  · norm_num at b ⊢
    linarith [b.2]

/-- Every entry of the table: within 0.005 after the offsets are added. -/
theorem delhiSpots_offsets (spot : ℚ × ℚ) (h : spot ∈ delhiSpots) (r : ℚ) (h0 : 0 ≤ r)
    (h1 : r < 1) :
    |fl (spot.1 + fl (fl (r - 1 / 2) * fl (1 / 100))) - spot.1| ≤ 1 / 200 ∧
      |fl (spot.2 + fl (fl (r - 1 / 2) * fl (1 / 100))) - spot.2| ≤ 1 / 200 := by
  have key : ∀ a b : ℚ, 17 ≤ a → a ≤ 31 → 65 ≤ b → b ≤ 127 →
      |fl (fl a + fl (fl (r - 1 / 2) * fl (1 / 100))) - fl a| ≤ 1 / 200 ∧
      |fl (fl b + fl (fl (r - 1 / 2) * fl (1 / 100))) - fl b| ≤ 1 / 200 := by
    intro a b a1 a2 b1 b2
    obtain ⟨k, hk, l1, l2⟩ := spot_lat a a1 a2
    obtain ⟨k2, hk2, m1, m2⟩ := spot_lng b b1 b2
    exact ⟨coordinate_bound (fl a) r 4 k 1407374883553 (by norm_num) hk l1 l2 h0 h1
        (by norm_num [offsetBound]) (by norm_num),
      coordinate_bound (fl b) r 6 k2 351843720888 (by norm_num) hk2 m1 m2 h0 h1
        (by norm_num [offsetBound]) (by norm_num)⟩
  simp only [delhiSpots, List.mem_cons, List.mem_singleton, List.not_mem_nil, or_false] at h
  rcases h with h | h | h | h | h | h | h | h | h | h | h | h <;> rw [h] <;>
    exact key _ _ (by norm_num) (by norm_num) (by norm_num) (by norm_num)

/-! ## The record built for an approved post -/

/-- A number within half a spacing of the grid point `k` rounds to it. -/
theorem fl_of_near (q : ℚ) (e k : Int) (h1 : (2 : ℚ) ^ e ≤ |q|) (h2 : |q| < (2 : ℚ) ^ (e + 1))
    (hlo : (k : ℚ) - 1 / 2 < q / (2 : ℚ) ^ (max e (-1022) - 52))
    (hhi : q / (2 : ℚ) ^ (max e (-1022) - 52) < (k : ℚ) + 1 / 2) :
    fl q = k * (2 : ℚ) ^ (max e (-1022) - 52) := by
  rw [fl_of_binade q e h1 h2,
    le_antisymm (roundHalfEven_le_of_lt _ k hhi) (le_roundHalfEven_of_lt _ k hlo)]

theorem unitDraw_quarterNext : unitDraw quarterNext := by
  refine ⟨isDouble_of_grid quarterNext (-2) 4503599627370497 ?_ ?_ ?_, ?_, ?_⟩ <;>
    norm_num [quarterNext, abs_of_nonneg]

/-- Near 1.7e12 the doubles are 2^-12 apart: the sums of a clock reading with
the draw 0.25 and with the next double above 0.25 are the same double. -/
theorem id_rounding :
    fl (((1767225600000 : Int) : ℚ) + 1 / 4) = fl (((1767225600000 : Int) : ℚ) + quarterNext) ∧
      (1 / 4 : ℚ) ≠ quarterNext := by
  constructor
  · rw [fl_of_near (((1767225600000 : Int) : ℚ) + 1 / 4) 40 7238556057601024
        (by norm_num [abs_of_nonneg]) (by norm_num [abs_of_nonneg]) (by norm_num) (by norm_num),
      fl_of_near (((1767225600000 : Int) : ℚ) + quarterNext) 40 7238556057601024
        (by norm_num [abs_of_nonneg, quarterNext]) (by norm_num [abs_of_nonneg, quarterNext])
        (by norm_num [quarterNext]) (by norm_num [quarterNext])]
  · norm_num [quarterNext]

theorem delhiSpots_length : delhiSpots.length = 12 := rfl

theorem spotIndex_eq (r : ℚ) : spotIndex r = ⌊fl (r * 12)⌋ := by
  unfold spotIndex
  rw [delhiSpots_length]
  norm_num

theorem spotIndex_range (r : ℚ) (h : unitDraw r) : 0 ≤ spotIndex r ∧ spotIndex r < 12 := by
  obtain ⟨h0, h1⟩ := fl_mul_twelve r h
  rw [spotIndex_eq]
  constructor
  · exact Int.floor_nonneg.mpr h0
  · rw [Int.floor_lt]
    push_cast
    exact h1

theorem spotAt_of_unitDraw (r : ℚ) (h : unitDraw r) :
    ∃ spot, delhiSpots[(spotIndex r).toNat]? = some spot ∧ spotAt r = some spot := by
  obtain ⟨h0, h1⟩ := spotIndex_range r h
  have hlt : (spotIndex r).toNat < delhiSpots.length := by
    rw [delhiSpots_length]
    omega
  refine ⟨delhiSpots[(spotIndex r).toNat], List.getElem?_eq_getElem hlt, ?_⟩
  unfold spotAt
  rw [if_pos h0]
  exact List.getElem?_eq_getElem hlt

theorem unitDraw_half : unitDraw (1 / 2) := by
  refine ⟨isDouble_of_grid (1 / 2) (-1) 4503599627370496 ?_ ?_ ?_, ?_, ?_⟩ <;>
    norm_num [abs_of_nonneg]

theorem unitDraw_quarter : unitDraw (1 / 4) := by
  refine ⟨isDouble_of_grid (1 / 4) (-2) 4503599627370496 ?_ ?_ ?_, ?_, ?_⟩ <;>
    norm_num [abs_of_nonneg]

theorem unitDraw_three_quarters : unitDraw (3 / 4) := by
  refine ⟨isDouble_of_grid (3 / 4) (-1) 6755399441055744 ?_ ?_ ?_, ?_, ?_⟩ <;>
    norm_num [abs_of_nonneg]

theorem unitDraw_zero : unitDraw 0 := ⟨isDouble_zero, le_refl 0, by norm_num⟩

theorem sampleDraws_valid : sampleDraws.valid :=
  ⟨unitDraw_half, unitDraw_quarter, unitDraw_half, unitDraw_half, unitDraw_zero,
    unitDraw_three_quarters⟩

theorem tieDraws_valid : tieDraws.valid :=
  ⟨unitDraw_tieDraw, unitDraw_quarter, unitDraw_half, unitDraw_half, unitDraw_zero,
    unitDraw_three_quarters⟩

/-- C11: for draws that are doubles in [0,1) the spot index is the floor of the
double product of the draw and 12, it is a valid index into the 12 entry table,
the record is built, its `lat` and `lng` are the double sums of the coordinates
of that spot and the offsets computed in doubles, and they differ from the
coordinates of that spot by at most 0.005. -/
theorem buildComplaint_coordinates (env : Env) (post : Post) (raw : JSString)
    (ai : Classification) (now : Int) (d : Draws)
    (hspot : unitDraw d.spot) (hlat : unitDraw d.lat) (hlng : unitDraw d.lng) :
    spotIndex d.spot = ⌊fl (d.spot * 12)⌋ ∧ 0 ≤ spotIndex d.spot ∧ spotIndex d.spot < 12 ∧
      ∃ spot c, delhiSpots[(spotIndex d.spot).toNat]? = some spot ∧
        buildComplaint env post raw ai now d = .ok c ∧
        c.lat = fl (spot.1 + fl (fl (d.lat - 0.5) * fl 0.01)) ∧
        c.lng = fl (spot.2 + fl (fl (d.lng - 0.5) * fl 0.01)) ∧
        |c.lat - spot.1| ≤ 0.005 ∧ |c.lng - spot.2| ≤ 0.005 := by
  obtain ⟨h0, h1⟩ := spotIndex_range d.spot hspot
  obtain ⟨spot, hget, hat⟩ := spotAt_of_unitDraw d.spot hspot
  have hmem : spot ∈ delhiSpots := List.getElem?_mem hget
  have e1 : (0.5 : ℚ) = 1 / 2 := by norm_num
  have e2 : (0.01 : ℚ) = 1 / 100 := by norm_num
  have e3 : (0.005 : ℚ) = 1 / 200 := by norm_num
  refine ⟨spotIndex_eq d.spot, h0, h1, spot, ?_⟩
  unfold buildComplaint
  simp only [hat]
  refine ⟨_, hget, rfl, rfl, rfl, ?_, ?_⟩
  · rw [e1, e2, e3]
    exact (delhiSpots_offsets spot hmem d.lat hlat.2.1 hlat.2.2).1
  · rw [e1, e2, e3]
    exact (delhiSpots_offsets spot hmem d.lng hlng.2.1 hlng.2.2).2

theorem buildComplaint_coordinates_witness :
    ⌊tieDraw * 12⌋ = 9 ∧ spotIndex tieDraw = 10 ∧
      ∃ spot c, delhiSpots[10]? = some spot ∧
        buildComplaint sampleEnv (postOf (some streetlightText)) streetlightText
          sampleClassification 1767225600000 tieDraws = .ok c ∧
        |c.lat - spot.1| ≤ 0.005 ∧ |c.lng - spot.2| ≤ 0.005 := by
  obtain ⟨_, _, _, spot, c, hget, hc, _, _, hlat, hlng⟩ :=
    buildComplaint_coordinates sampleEnv (postOf (some streetlightText)) streetlightText
      sampleClassification 1767225600000 tieDraws tieDraws_valid.1 tieDraws_valid.2.2.2.2.1
      tieDraws_valid.2.2.2.2.2
  have hi : spotIndex tieDraws.spot = 10 := spotIndex_tieDraw.2
  rw [hi] at hget
  exact ⟨spotIndex_tieDraw.1, spotIndex_tieDraw.2, spot, c, hget, hc, hlat, hlng⟩

theorem buildComplaint_ok (env : Env) (post : Post) (raw : JSString) (ai : Classification)
    (now : Int) (d : Draws) (c : Complaint)
    (h : buildComplaint env post raw ai now d = .ok c) :
    c.id = fl ((now : ℚ) + d.id) ∧ c.status = "open" ∧
      c.location = "Auto-detected from post" ∧
      c.source = post.platform ∧ c.sourceHandle = post.handle ∧
      c.urgency = orElse ai.urgency "medium" ∧
      c.department = orElse ai.department "Infrastructure" ∧
      c.title = complaintTitle raw ∧ c.description = complaintDescription raw := by
  unfold buildComplaint at h
  cases hs : spotAt d.spot with
  | none =>
    simp only [hs] at h
    cases h
  | some spot =>
    simp only [hs] at h
    cases h
    exact ⟨rfl, rfl, rfl, rfl, rfl, rfl, rfl, rfl, rfl⟩

theorem buildComplaint_total (env : Env) (post : Post) (raw : JSString) (ai : Classification)
    (now : Int) (d : Draws) (hspot : unitDraw d.spot) :
    ∃ c, buildComplaint env post raw ai now d = .ok c := by
  obtain ⟨spot, _, hat⟩ := spotAt_of_unitDraw d.spot hspot
  unfold buildComplaint
  simp only [hat]
  exact ⟨_, rfl⟩

set_option maxRecDepth 100000 in
theorem first_two_approved :
    (RAW_SOCIAL_POSTS.take 2).map detectFake
      = [.ok { isFake := false, reasons := [] }, .ok { isFake := false, reasons := [] }] := by
  decide

/-- C12 as stated fails: the records built for the first two demo posts, both
approved, at the same clock reading with the same draw for the id have the
same id; and so has the record built with the next double above that draw,
because the double sum keeps only 12 binary places of the draw. -/
theorem buildComplaint_id_counterexample :
    ∃ p1 p2 raw1 raw2 c1 c2,
      RAW_SOCIAL_POSTS[0]? = some p1 ∧ RAW_SOCIAL_POSTS[1]? = some p2 ∧
      p1.raw = some raw1 ∧ p2.raw = some raw2 ∧
      detectFake p1 = .ok { isFake := false, reasons := [] } ∧
      detectFake p2 = .ok { isFake := false, reasons := [] } ∧
      buildComplaint sampleEnv p1 raw1 (sampleEnv.classifyComplaint raw1 (js ""))
        1767225600000 sampleDraws = .ok c1 ∧
      buildComplaint sampleEnv p2 raw2 (sampleEnv.classifyComplaint raw2 (js ""))
        1767225600000 { sampleDraws with spot := 0, lat := 1 / 2 } = .ok c2 ∧
      c1.sourceHandle ≠ c2.sourceHandle ∧ c1.id = c2.id ∧
      ∃ c3, buildComplaint sampleEnv p2 raw2 (sampleEnv.classifyComplaint raw2 (js ""))
          1767225600000 { sampleDraws with id := quarterNext } = .ok c3 ∧
        unitDraw quarterNext ∧ sampleDraws.id ≠ quarterNext ∧ c1.id = c3.id := by
  obtain ⟨c1, h1⟩ := buildComplaint_total sampleEnv
    (mkPost "t1" "twitter" "@delhi_resident" "2m ago" "The streetlight near Connaught Place has been broken for 2 weeks!! Nobody fixing it #DelhiProblems #Infrastructure" "DR")
    (js "The streetlight near Connaught Place has been broken for 2 weeks!! Nobody fixing it #DelhiProblems #Infrastructure")
    (sampleEnv.classifyComplaint (js "The streetlight near Connaught Place has been broken for 2 weeks!! Nobody fixing it #DelhiProblems #Infrastructure") (js ""))
    1767225600000 sampleDraws unitDraw_half
  obtain ⟨c2, h2⟩ := buildComplaint_total sampleEnv
    (mkPost "w1" "whatsapp" "Resident Group Delhi" "5m ago" "Bhai logo garbage truck aaya hi nahi 3 din se, hamare block mein bahut smell aa rahi hai. Koi complain karo please" "RG")
    (js "Bhai logo garbage truck aaya hi nahi 3 din se, hamare block mein bahut smell aa rahi hai. Koi complain karo please")
    (sampleEnv.classifyComplaint (js "Bhai logo garbage truck aaya hi nahi 3 din se, hamare block mein bahut smell aa rahi hai. Koi complain karo please") (js ""))
    1767225600000 { sampleDraws with spot := 0, lat := 1 / 2 } unitDraw_zero
  obtain ⟨c3, h3⟩ := buildComplaint_total sampleEnv
    (mkPost "w1" "whatsapp" "Resident Group Delhi" "5m ago" "Bhai logo garbage truck aaya hi nahi 3 din se, hamare block mein bahut smell aa rahi hai. Koi complain karo please" "RG")
    (js "Bhai logo garbage truck aaya hi nahi 3 din se, hamare block mein bahut smell aa rahi hai. Koi complain karo please")
    (sampleEnv.classifyComplaint (js "Bhai logo garbage truck aaya hi nahi 3 din se, hamare block mein bahut smell aa rahi hai. Koi complain karo please") (js ""))
    1767225600000 { sampleDraws with id := quarterNext } unitDraw_half
  have k1 := buildComplaint_ok _ _ _ _ _ _ _ h1
  have k2 := buildComplaint_ok _ _ _ _ _ _ _ h2
  have k3 := buildComplaint_ok _ _ _ _ _ _ _ h3
  have hv := List.cons.inj first_two_approved
  refine ⟨_, _, _, _, c1, c2, rfl, rfl, rfl, rfl, hv.1, (List.cons.inj hv.2).1, h1, h2,
    ?_, ?_, c3, h3, unitDraw_quarterNext, id_rounding.2, ?_⟩
  · rw [k1.2.2.2.2.1, k2.2.2.2.2.1]
    decide
  · rw [k1.1, k2.1]
  · rw [k1.1, k3.1]
    exact id_rounding.1

/-- C12, amended: the id is the double sum of the clock reading and the draw; it
lies between the clock reading and the clock reading plus 1, both included.
Two records built at clock readings at least 2 ms apart have different ids,
the later one the greater; two records built at the same clock reading with
the same draw have the same id. -/
theorem buildComplaint_id (env : Env) (p1 p2 : Post) (raw1 raw2 : JSString)
    (ai1 ai2 : Classification) (now1 now2 : Int) (d1 d2 : Draws) (c1 c2 : Complaint)
    (h1 : buildComplaint env p1 raw1 ai1 now1 d1 = .ok c1)
    (h2 : buildComplaint env p2 raw2 ai2 now2 d2 = .ok c2)
    (ht1 : timeValue now1) (ht2 : timeValue now2)
    (hd1 : unitDraw d1.id) (hd2 : unitDraw d2.id) :
    c1.id = fl ((now1 : ℚ) + d1.id) ∧ c2.id = fl ((now2 : ℚ) + d2.id) ∧
      (now1 : ℚ) ≤ c1.id ∧ c1.id ≤ (now1 : ℚ) + 1 ∧
      (now1 + 2 ≤ now2 → c1.id < c2.id ∧ c1.id ≠ c2.id) ∧
      (now1 = now2 → d1.id = d2.id → c1.id = c2.id) := by
  have k1 := (buildComplaint_ok _ _ _ _ _ _ _ h1).1
  have k2 := (buildComplaint_ok _ _ _ _ _ _ _ h2).1
  have b1 := id_bounds now1 d1.id ht1 hd1.2.1 hd1.2.2
  have b2 := id_bounds now2 d2.id ht2 hd2.2.1 hd2.2.2
  rw [← k1] at b1
  rw [← k2] at b2
  refine ⟨k1, k2, b1.1, b1.2, ?_, ?_⟩
  · intro hnow
    have hq : (now1 : ℚ) + 2 ≤ (now2 : ℚ) := by exact_mod_cast hnow
    have hlt : c1.id < c2.id := by linarith [b1.2, b2.1]
    exact ⟨hlt, hlt.ne⟩
  · intro hnow hd
    rw [k1, k2, hnow, hd]

theorem buildComplaint_id_witness :
    ∃ c1 c2,
      buildComplaint sampleEnv (postOf (some streetlightText)) streetlightText
        sampleClassification 1767225600000 sampleDraws = .ok c1 ∧
      buildComplaint sampleEnv (postOf (some streetlightText)) streetlightText
        sampleClassification 1767225601800 sampleDraws = .ok c2 ∧
      c1.id < c2.id ∧ c1.id ≠ c2.id := by
  obtain ⟨c1, h1⟩ := buildComplaint_total sampleEnv (postOf (some streetlightText))
    streetlightText sampleClassification 1767225600000 sampleDraws sampleDraws_valid.1
  obtain ⟨c2, h2⟩ := buildComplaint_total sampleEnv (postOf (some streetlightText))
    streetlightText sampleClassification 1767225601800 sampleDraws sampleDraws_valid.1
  exact ⟨c1, c2, h1, h2,
    (buildComplaint_id sampleEnv _ _ _ _ _ _ _ _ _ _ c1 c2 h1 h2
      (by rw [timeValue, abs_le]; norm_num) (by rw [timeValue, abs_le]; norm_num)
      sampleDraws_valid.2.1 sampleDraws_valid.2.1).2.2.2.2.1
      (by norm_num)⟩

/-- C13: for a draw in [0,1) the record is built with status `open`, location
`Auto-detected from post`, the platform and handle of the post as source and
sourceHandle, the urgency of the classification, or `medium` when it is absent
(missing or empty), and the department of the classification, or
`Infrastructure` when it is absent (missing or empty). -/
theorem buildComplaint_fields (env : Env) (post : Post) (raw : JSString) (ai : Classification)
    (now : Int) (d : Draws) (hspot : unitDraw d.spot) :
    ∃ c, buildComplaint env post raw ai now d = .ok c ∧
      c.status = "open" ∧ c.location = "Auto-detected from post" ∧
      c.source = post.platform ∧ c.sourceHandle = post.handle ∧
      (∀ u, ai.urgency = some u → u ≠ "" → c.urgency = u) ∧
      (ai.urgency = none ∨ ai.urgency = some "" → c.urgency = "medium") ∧
      (∀ dep, ai.department = some dep → dep ≠ "" → c.department = dep) ∧
      (ai.department = none ∨ ai.department = some "" → c.department = "Infrastructure") := by
  obtain ⟨c, hc⟩ := buildComplaint_total env post raw ai now d hspot
  obtain ⟨_, h1, h2, h3, h4, h5, h6, _, _⟩ := buildComplaint_ok _ _ _ _ _ _ _ hc
  refine ⟨c, hc, h1, h2, h3, h4, ?_, ?_, ?_, ?_⟩
  · intro u hu hne
    rw [h5, hu]
    simp [orElse, hne]
  · intro hu
    rw [h5]
    rcases hu with hu | hu <;> rw [hu] <;> simp [orElse]
  · intro u hu hne
    rw [h6, hu]
    simp [orElse, hne]
  · intro hu
    rw [h6]
    rcases hu with hu | hu <;> rw [hu] <;> simp [orElse]

theorem buildComplaint_fields_witness :
    ∃ c, buildComplaint sampleEnv (postOf (some streetlightText)) streetlightText
        sampleClassification 1767225600000 sampleDraws = .ok c ∧
      c.status = "open" ∧ c.location = "Auto-detected from post" ∧
      c.source = "twitter" ∧ c.sourceHandle = "@delhi_resident" ∧
      c.urgency = "high" ∧ c.department = "Electricity" := by
  obtain ⟨c, hc, h1, h2, h3, h4, h5, _, h7, _⟩ :=
    buildComplaint_fields sampleEnv (postOf (some streetlightText)) streetlightText
      sampleClassification 1767225600000 sampleDraws sampleDraws_valid.1
  exact ⟨c, hc, h1, h2, h3, h4, h5 "high" rfl (by decide), h7 "Electricity" rfl (by decide)⟩

/-! ## The complaint store -/

/-- C17: `addComplaint` puts the new record in front of the store and keeps
every earlier entry, unchanged and in the same order, after it; the store has
exactly one more entry, and a store that is not loaded yet counts as empty. -/
theorem addComplaint_keeps (c : Complaint) (prev : Option (List Complaint)) :
    ∃ l, addComplaint c prev = some l ∧ l = c :: prev.getD [] ∧
      l.length = (prev.getD []).length + 1 ∧ l.head? = some c ∧ l.tail = prev.getD [] ∧
      (∀ i, l[i + 1]? = (prev.getD [])[i]?) ∧ addComplaint c none = some [c] := by
  refine ⟨c :: prev.getD [], rfl, rfl, rfl, rfl, rfl, fun i => ?_, rfl⟩
  simp

/-! ## The ingestion scheduler -/

theorem raw_ids_nodup : (RAW_SOCIAL_POSTS.map Post.id).Nodup := by
  decide

theorem raw_length : RAW_SOCIAL_POSTS.length = 12 := rfl

theorem raw_has_text : ∀ p ∈ RAW_SOCIAL_POSTS, ∃ raw, p.raw = some raw := by
  intro p hp
  have h : ∀ q ∈ RAW_SOCIAL_POSTS, q.raw.isSome = true := by decide
  exact Option.isSome_iff_exists.mp (h p hp)

theorem setKey_same {α : Type} (m : String → Option α) (k : String) (v : α) :
    setKey m k v k = some v := by
  simp [setKey]

theorem setKey_other {α : Type} (m : String → Option α) (k : String) (v : α) (x : String)
    (h : x ≠ k) : setKey m k v x = m x := by
  simp [setKey, h]

theorem countP_setKey_absent (f : Option String → Bool) (m : String → Option String)
    (v : String) (k : String) (l : List Post) (h : ∀ q ∈ l, q.id ≠ k) :
    l.countP (fun q => f (setKey m k v q.id)) = l.countP (fun q => f (m q.id)) := by
  apply List.countP_congr
  intro q hq
  rw [setKey_other m k v q.id (h q hq)]

theorem countP_setKey (f : Option String → Bool) (m : String → Option String) (v : String)
    (p : Post) :
    ∀ l : List Post, (l.map Post.id).Nodup → p ∈ l →
      l.countP (fun q => f (setKey m p.id v q.id)) + (if f (m p.id) then 1 else 0)
        = l.countP (fun q => f (m q.id)) + (if f (some v) then 1 else 0) := by
  intro l
  induction l with
  | nil => intro _ hp; cases hp
  | cons q l ih =>
    intro hnd hp
    rw [List.map_cons, List.nodup_cons] at hnd
    obtain ⟨hq, hnd⟩ := hnd
    rw [List.countP_cons, List.countP_cons]
    by_cases hpq : p = q
    · subst hpq
      have habs : ∀ r ∈ l, r.id ≠ p.id := by
        intro r hr heq
        exact hq (heq ▸ List.mem_map_of_mem Post.id hr)
      rw [countP_setKey_absent f m v p.id l habs, setKey_same]
      omega
    · have hpl : p ∈ l := by
        rcases List.mem_cons.mp hp with h | h
        · exact absurd h hpq
        · exact h
      have hne : q.id ≠ p.id := by
        intro heq
        exact hq (heq ▸ List.mem_map_of_mem Post.id hpl)
      rw [setKey_other m p.id v q.id hne]
      have := ih hnd hpl
      omega

theorem raw_eq_of_id (p q : Post) (hp : p ∈ RAW_SOCIAL_POSTS) (hq : q ∈ RAW_SOCIAL_POSTS)
    (h : p.id = q.id) : p = q := by
  exact List.inj_on_of_nodup_map raw_ids_nodup hp hq h

theorem processNextPost_lt (w : World) (h : w.indexRef < 12) :
    ∃ post, RAW_SOCIAL_POSTS[w.indexRef]? = some post ∧ post ∈ RAW_SOCIAL_POSTS ∧
      processNextPost w =
        { w with indexRef := w.indexRef + 1,
                 posts := post :: w.posts,
                 statuses := setKey w.statuses post.id "scanning",
                 stats := { w.stats with scanned := w.stats.scanned + 1 },
                 timeouts := w.timeouts ++ [{ due := w.now + 1200, post := post }] } := by
  have hlt : w.indexRef < RAW_SOCIAL_POSTS.length := by rw [raw_length]; exact h
  have hget : RAW_SOCIAL_POSTS[w.indexRef]? = some RAW_SOCIAL_POSTS[w.indexRef] :=
    List.getElem?_eq_getElem hlt
  refine ⟨RAW_SOCIAL_POSTS[w.indexRef], hget, List.getElem_mem hlt, ?_⟩
  unfold processNextPost
  rw [if_neg (by omega)]
  simp only [hget]

theorem processNextPost_ge (w : World) (h : 12 ≤ w.indexRef) :
    processNextPost w =
      { w with running := false, intervals := clearInterval w.intervalRef w.intervals } := by
  unfold processNextPost
  rw [if_pos (by rw [raw_length]; exact h)]

theorem resolvePost_eq (env : Env) (p : Post) (d : Draws) (w : World) (raw : JSString)
    (hraw : p.raw = some raw) :
    ∃ store,
      resolvePost env p d w =
        { w with fakeResults := setKey w.fakeResults p.id (detectFakeText (toLowerCase raw)),
                 aiResults := setKey w.aiResults p.id (env.classifyComplaint raw (js "")),
                 statuses := setKey w.statuses p.id (if flagged p then "fake" else "approved"),
                 stats := { scanned := w.stats.scanned,
                            imported := w.stats.imported + (if flagged p then 0 else 1),
                            rejected := w.stats.rejected + (if flagged p then 1 else 0) },
                 complaints := store } ∧
      (flagged p = true → store = w.complaints) ∧
      (flagged p = false → unitDraw d.spot →
        ∃ c, buildComplaint env p raw (env.classifyComplaint raw (js "")) w.now d = .ok c ∧
          store = addComplaint c w.complaints) ∧
      (flagged p = false → store = w.complaints ∨
        ∃ c, buildComplaint env p raw (env.classifyComplaint raw (js "")) w.now d = .ok c ∧
          store = addComplaint c w.complaints) := by
  have hdet : detectFake p = .ok (detectFakeText (toLowerCase raw)) := detectFake_some p raw hraw
  have hfl : flagged p = (detectFakeText (toLowerCase raw)).isFake := by
    unfold flagged
    rw [hdet]
  unfold resolvePost
  rw [hdet, hraw]
  simp only
  cases hf : (detectFakeText (toLowerCase raw)).isFake with
  | true =>
    rw [hf] at hfl
    refine ⟨w.complaints, ?_, fun _ => rfl, ?_, ?_⟩
    · simp [hfl]
    · intro h; rw [hfl] at h; cases h
    · intro h; rw [hfl] at h; cases h
  | false =>
    rw [hf] at hfl
    cases hb : buildComplaint env p raw (env.classifyComplaint raw (js "")) w.now d with
    | error e =>
      refine ⟨w.complaints, ?_, fun _ => rfl, ?_, fun _ => Or.inl rfl⟩
      · simp [hfl, hb]
      · intro _ hs
        obtain ⟨c, hc⟩ := buildComplaint_total env p raw (env.classifyComplaint raw (js ""))
          w.now d hs
        rw [hb] at hc
        cases hc
    | ok c =>
      refine ⟨addComplaint c w.complaints, ?_, ?_, fun _ _ => ⟨c, rfl, rfl⟩,
        fun _ => Or.inr ⟨c, rfl, rfl⟩⟩
      · simp [hfl, hb]
      · intro h; rw [hfl] at h; cases h

theorem RunInv_congr (w w2 : World) (h1 : w2.indexRef = w.indexRef) (h2 : w2.stats = w.stats)
    (h3 : w2.timeouts = w.timeouts) (h4 : w2.statuses = w.statuses) (h : RunInv w) :
    RunInv w2 := by
  obtain ⟨a, b, c, d, e, f, g, i⟩ := h
  refine ⟨?_, ?_, ?_, ?_, ?_, ?_, ?_, ?_⟩
  · rw [h1]; exact a
  · rw [h1, h2]; exact b
  · rw [h2, h3]; exact c
  · unfold terminalCount at d ⊢; rw [h2, h4]; exact d
  · unfold scanningCount at e ⊢; rw [h3, h4]; exact e
  · rw [h1, h4]; exact f
  · rw [h3, h4]; exact g
  · rw [h3]; exact i

theorem RunInv_start (w0 : World) (hrun : w0.running = false) (ht : w0.timeouts = []) :
    RunInv (startScraping w0) := by
  unfold startScraping
  rw [hrun]
  refine ⟨?_, ?_, ?_, ?_, ?_, ?_, ?_, ?_⟩
  · simp
  · simp
  · simp [ht]
  · simp [terminalCount, isTerminal]
  · simp [scanningCount, ht]
  · intro p _; rfl
  · intro e he; simp [ht] at he
  · simp [ht]

theorem eraseIdx_key_ne {α β : Type} (f : α → β) :
    ∀ (l : List α) (i : Nat) (hi : i < l.length), (l.map f).Nodup →
      ∀ e ∈ l.eraseIdx i, f e ≠ f (l.get ⟨i, hi⟩) := by
  intro l
  induction l with
  | nil => intro i hi; simp at hi
  | cons a l ih =>
    intro i hi hnd e he
    rw [List.map_cons, List.nodup_cons] at hnd
    cases i with
    | zero =>
      simp only [List.eraseIdx_cons_zero] at he
      intro heq
      have hm : f e ∈ l.map f := List.mem_map_of_mem f he
      rw [heq] at hm
      exact hnd.1 hm
    | succ i =>
      simp only [List.eraseIdx_cons_succ, List.mem_cons] at he
      have hi2 : i < l.length := by simpa using hi
      rcases he with he | he
      · subst he
        intro heq
        apply hnd.1
        have hmem : l.get ⟨i, hi2⟩ ∈ l := List.get_mem l i hi2
        have hm : f (l.get ⟨i, hi2⟩) ∈ l.map f := List.mem_map_of_mem f hmem
        have hget : (e :: l).get ⟨i + 1, hi⟩ = l.get ⟨i, hi2⟩ := rfl
        rw [hget] at heq
        rw [← heq] at hm
        exact hm
      · exact ih i hi2 hnd.2 e he

theorem RunInv_processNextPost (w : World) (h : RunInv w) : RunInv (processNextPost w) := by
  by_cases hlt : w.indexRef < 12
  · obtain ⟨post, hget, hmem, heq⟩ := processNextPost_lt w hlt
    rw [heq]
    obtain ⟨a, b, c, d, e, f, g, i⟩ := h
    have hlen : w.indexRef < RAW_SOCIAL_POSTS.length := by rw [raw_length]; exact hlt
    have hpost : post = RAW_SOCIAL_POSTS[w.indexRef] := by
      rw [List.getElem?_eq_getElem hlen] at hget
      exact (Option.some.inj hget).symm
    have hdrop : RAW_SOCIAL_POSTS.drop w.indexRef
        = post :: RAW_SOCIAL_POSTS.drop (w.indexRef + 1) := by
      rw [hpost]
      exact List.drop_eq_getElem_cons hlen
    have hnone : w.statuses post.id = none := f post (by rw [hdrop]; exact List.mem_cons_self _ _)
    have hnd : ((RAW_SOCIAL_POSTS.drop w.indexRef).map Post.id).Nodup :=
      raw_ids_nodup.sublist ((List.drop_sublist _ _).map _)
    rw [hdrop, List.map_cons, List.nodup_cons] at hnd
    have hpend : ∀ e ∈ w.timeouts, e.post.id ≠ post.id := by
      intro e he heq2
      have := (g e he).2
      rw [heq2, hnone] at this
      cases this
    refine ⟨?_, ?_, ?_, ?_, ?_, ?_, ?_, ?_⟩
    · show w.indexRef + 1 ≤ 12
      omega
    · show w.stats.scanned + 1 = w.indexRef + 1
      omega
    · show w.stats.imported + w.stats.rejected
          + (w.timeouts ++ [({ due := w.now + 1200, post := post } : Timeout)]).length
          = w.stats.scanned + 1
      rw [List.length_append, List.length_singleton]
      omega
    · show RAW_SOCIAL_POSTS.countP
          (fun p => isTerminal (setKey w.statuses post.id "scanning" p.id))
          = w.stats.imported + w.stats.rejected
      have key := countP_setKey isTerminal w.statuses "scanning" post RAW_SOCIAL_POSTS
        raw_ids_nodup hmem
      rw [hnone] at key
      have h1 : isTerminal none = false := rfl
      have h2 : isTerminal (some "scanning") = false := by decide
      rw [h1, h2] at key
      unfold terminalCount at d
      simpa [d] using key
    · show RAW_SOCIAL_POSTS.countP
          (fun p => setKey w.statuses post.id "scanning" p.id == some "scanning")
          = (w.timeouts ++ [({ due := w.now + 1200, post := post } : Timeout)]).length
      have key := countP_setKey (fun s => s == some "scanning") w.statuses "scanning" post
        RAW_SOCIAL_POSTS raw_ids_nodup hmem
      rw [hnone] at key
      unfold scanningCount at e
      rw [List.length_append, List.length_singleton, ← e]
      simpa using key
    · intro p hp
      show setKey w.statuses post.id "scanning" p.id = none
      have hne : p.id ≠ post.id := by
        intro heq2
        exact hnd.1 (heq2 ▸ List.mem_map_of_mem Post.id hp)
      rw [setKey_other _ _ _ _ hne]
      exact f p (by rw [hdrop]; exact List.mem_cons_of_mem _ hp)
    · intro x hx
      show x.post ∈ RAW_SOCIAL_POSTS ∧ setKey w.statuses post.id "scanning" x.post.id
        = some "scanning"
      rcases List.mem_append.mp hx with hx | hx
      · rw [setKey_other _ _ _ _ (hpend x hx)]
        exact g x hx
      · rw [List.mem_singleton] at hx
        subst hx
        exact ⟨hmem, setKey_same _ _ _⟩
    · show ((w.timeouts ++ [({ due := w.now + 1200, post := post } : Timeout)]).map
          (fun e => e.post.id)).Nodup
      rw [List.map_append, List.nodup_append]
      refine ⟨i, List.nodup_singleton _, ?_⟩
      intro x hx hy
      rw [List.map_singleton, List.mem_singleton] at hy
      obtain ⟨e2, he2, hid⟩ := List.mem_map.mp hx
      exact hpend e2 he2 (hid.trans hy)
  · rw [processNextPost_ge w (by omega)]
    exact RunInv_congr w _ rfl rfl rfl rfl h

theorem RunInv_fireInterval (h : Nat) (t : Int) (w : World) (hinv : RunInv w) :
    RunInv (fireInterval h t w) := by
  have h1 : RunInv { w with now := t } := RunInv_congr w _ rfl rfl rfl rfl hinv
  exact RunInv_congr (processNextPost { w with now := t }) (fireInterval h t w) rfl rfl rfl rfl
    (RunInv_processNextPost _ h1)

theorem terminal_of_flag (b : Bool) :
    isTerminal (some (if b then "fake" else "approved")) = true := by
  cases b <;> decide

theorem scanning_of_flag (b : Bool) :
    ((some (if b then "fake" else "approved") : Option String) == some "scanning") = false := by
  cases b <;> decide

theorem fireTimeout_eq (env : Env) (i : Nat) (t : Int) (d : Draws) (w : World)
    (hi : i < w.timeouts.length) :
    fireTimeout env i t d w
      = resolvePost env (w.timeouts.get ⟨i, hi⟩).post d
          { w with now := t, timeouts := w.timeouts.eraseIdx i } := by
  unfold fireTimeout
  rw [List.getElem?_eq_getElem hi]
  rfl

theorem resolvePost_fields (env : Env) (p : Post) (d : Draws) (w : World) (raw : JSString)
    (hraw : p.raw = some raw) :
    (resolvePost env p d w).statuses
        = setKey w.statuses p.id (if flagged p then "fake" else "approved") ∧
      (resolvePost env p d w).stats.scanned = w.stats.scanned ∧
      (resolvePost env p d w).stats.imported
        = w.stats.imported + (if flagged p then 0 else 1) ∧
      (resolvePost env p d w).stats.rejected
        = w.stats.rejected + (if flagged p then 1 else 0) ∧
      (resolvePost env p d w).timeouts = w.timeouts ∧
      (resolvePost env p d w).indexRef = w.indexRef ∧
      (resolvePost env p d w).running = w.running ∧
      (resolvePost env p d w).intervals = w.intervals ∧
      (resolvePost env p d w).intervalRef = w.intervalRef ∧
      (resolvePost env p d w).now = w.now ∧
      (resolvePost env p d w).posts = w.posts ∧
      (resolvePost env p d w).nextHandle = w.nextHandle := by
  obtain ⟨store, heq, -, -, -⟩ := resolvePost_eq env p d w raw hraw
  rw [heq]
  exact ⟨rfl, rfl, rfl, rfl, rfl, rfl, rfl, rfl, rfl, rfl, rfl, rfl⟩

theorem RunInv_resolvePost (env : Env) (p : Post) (d : Draws) (w : World)
    (hmem : p ∈ RAW_SOCIAL_POSTS) (hscan : w.statuses p.id = some "scanning")
    (hcur : w.indexRef ≤ 12) (hsc : w.stats.scanned = w.indexRef)
    (hadd : w.stats.imported + w.stats.rejected + w.timeouts.length + 1 = w.stats.scanned)
    (hterm : terminalCount w = w.stats.imported + w.stats.rejected)
    (hscc : scanningCount w = w.timeouts.length + 1)
    (hun : ∀ q ∈ RAW_SOCIAL_POSTS.drop w.indexRef, w.statuses q.id = none)
    (hpend : ∀ e ∈ w.timeouts, e.post ∈ RAW_SOCIAL_POSTS ∧ e.post.id ≠ p.id ∧
      w.statuses e.post.id = some "scanning")
    (hnd : (w.timeouts.map (fun e => e.post.id)).Nodup) :
    RunInv (resolvePost env p d w) := by
  obtain ⟨raw, hraw⟩ := raw_has_text p hmem
  obtain ⟨hst, h1, h2, h3, h4, h5, -⟩ := resolvePost_fields env p d w raw hraw
  have kt := countP_setKey isTerminal w.statuses (if flagged p then "fake" else "approved")
    p RAW_SOCIAL_POSTS raw_ids_nodup hmem
  have ks := countP_setKey (fun s => s == some "scanning") w.statuses
    (if flagged p then "fake" else "approved") p RAW_SOCIAL_POSTS raw_ids_nodup hmem
  beta_reduce at ks
  have e1 : isTerminal (some "scanning") = false := by decide
  have e2 : ((some "scanning" : Option String) == some "scanning") = true := by decide
  rw [hscan, terminal_of_flag, e1] at kt
  rw [hscan, scanning_of_flag, e2] at ks
  simp only [Bool.false_eq_true, ↓reduceIte, Nat.add_zero] at kt ks
  unfold terminalCount at hterm
  unfold scanningCount at hscc
  have him : (resolvePost env p d w).stats.imported + (resolvePost env p d w).stats.rejected
      = w.stats.imported + w.stats.rejected + 1 := by
    rw [h2, h3]
    cases flagged p
    · simp only [Bool.false_eq_true, ↓reduceIte]
      omega
    · simp only [↓reduceIte]
      omega
  refine ⟨?_, ?_, ?_, ?_, ?_, ?_, ?_, ?_⟩
  · rw [h5]; exact hcur
  · rw [h1, h5]; exact hsc
  · rw [him, h4, h1]; omega
  · unfold terminalCount
    rw [hst, him]
    omega
  · unfold scanningCount
    rw [hst, h4]
    omega
  · intro q hq
    rw [h5] at hq
    have hnone := hun q hq
    have hne : q.id ≠ p.id := by
      intro heq2
      rw [heq2, hscan] at hnone
      cases hnone
    rw [hst, setKey_other _ _ _ _ hne]
    exact hnone
  · intro x hx
    rw [h4] at hx
    obtain ⟨hx1, hx2, hx3⟩ := hpend x hx
    rw [hst, setKey_other _ _ _ _ hx2]
    exact ⟨hx1, hx3⟩
  · rw [h4]; exact hnd

theorem RunInv_fireTimeout (env : Env) (i : Nat) (t : Int) (d : Draws) (w : World)
    (hi : i < w.timeouts.length) (h : RunInv w) : RunInv (fireTimeout env i t d w) := by
  rw [fireTimeout_eq env i t d w hi]
  obtain ⟨a, b, c, dd, e, f, g, nd⟩ := h
  have hmemE : w.timeouts.get ⟨i, hi⟩ ∈ w.timeouts := List.get_mem _ _ _
  obtain ⟨hmem, hscan⟩ := g _ hmemE
  have hlenE : (w.timeouts.eraseIdx i).length = w.timeouts.length - 1 := by
    rw [List.length_eraseIdx, if_pos hi]
  apply RunInv_resolvePost env _ d { w with now := t, timeouts := w.timeouts.eraseIdx i }
    hmem hscan a b
  · show w.stats.imported + w.stats.rejected + (w.timeouts.eraseIdx i).length + 1
        = w.stats.scanned
    rw [hlenE]
    omega
  · exact dd
  · show scanningCount w = (w.timeouts.eraseIdx i).length + 1
    rw [hlenE, e]
    omega
  · exact f
  · intro x hx
    have hx2 : x ∈ w.timeouts := List.mem_of_mem_eraseIdx hx
    exact ⟨(g x hx2).1,
      eraseIdx_key_ne (fun e : Timeout => e.post.id) w.timeouts i hi nd x hx, (g x hx2).2⟩
  · show ((w.timeouts.eraseIdx i).map (fun e => e.post.id)).Nodup
    exact nd.sublist ((List.eraseIdx_sublist _ _).map _)

theorem RunInv_step (env : Env) (w w2 : World) (k : Nat) (h : RunInv w)
    (hstep : RunStep env w k w2) : RunInv w2 := by
  cases hstep with
  | tick hh due t _ _ => exact RunInv_fireInterval hh t w h
  | resolve i t d hi _ => exact RunInv_fireTimeout env i t d w hi h
  | start hrun =>
    unfold startScraping
    rw [hrun]
    exact h

theorem RunInv_inRun (env : Env) (w0 w : World) (n : Nat) (hrun : w0.running = false)
    (ht : w0.timeouts = []) (h : InRun env w0 n w) : RunInv w := by
  induction h with
  | start => exact RunInv_start w0 hrun ht
  | step n k w w2 _ hstep ih => exact RunInv_step env w w2 k ih hstep

theorem resolvePost_frame (env : Env) (p : Post) (d : Draws) (w : World) :
    (resolvePost env p d w).indexRef = w.indexRef ∧
      (resolvePost env p d w).intervals = w.intervals ∧
      (resolvePost env p d w).intervalRef = w.intervalRef ∧
      (resolvePost env p d w).running = w.running ∧
      (resolvePost env p d w).timeouts = w.timeouts ∧
      (resolvePost env p d w).posts = w.posts ∧
      (resolvePost env p d w).now = w.now ∧
      (resolvePost env p d w).nextHandle = w.nextHandle ∧
      (resolvePost env p d w).stats.scanned = w.stats.scanned := by
  cases hraw : p.raw with
  | none =>
    have : resolvePost env p d w = w := by
      unfold resolvePost
      rw [detectFake_none p hraw]
    rw [this]
    exact ⟨rfl, rfl, rfl, rfl, rfl, rfl, rfl, rfl, rfl⟩
  | some raw =>
    obtain ⟨store, heq, -, -, -⟩ := resolvePost_eq env p d w raw hraw
    rw [heq]
    exact ⟨rfl, rfl, rfl, rfl, rfl, rfl, rfl, rfl, rfl⟩

theorem fireTimeout_frame (env : Env) (i : Nat) (t : Int) (d : Draws) (w : World) :
    (fireTimeout env i t d w).indexRef = w.indexRef ∧
      (fireTimeout env i t d w).intervals = w.intervals ∧
      (fireTimeout env i t d w).intervalRef = w.intervalRef ∧
      (fireTimeout env i t d w).running = w.running ∧
      (fireTimeout env i t d w).posts = w.posts ∧
      (fireTimeout env i t d w).nextHandle = w.nextHandle ∧
      (fireTimeout env i t d w).stats.scanned = w.stats.scanned := by
  unfold fireTimeout
  cases w.timeouts[i]? with
  | none => exact ⟨rfl, rfl, rfl, rfl, rfl, rfl, rfl⟩
  | some e =>
    obtain ⟨h1, h2, h3, h4, -, h6, -, h8, h9⟩ := resolvePost_frame env e.post d
      { w with now := t, timeouts := w.timeouts.eraseIdx i }
    exact ⟨h1, h2, h3, h4, h6, h8, h9⟩

theorem startScraping_running (w : World) (h : w.running = true) : startScraping w = w := by
  unfold startScraping
  rw [if_pos h]

theorem fireInterval_lt (h : Nat) (t : Int) (w : World) (hlt : w.indexRef < 12) :
    ∃ post, RAW_SOCIAL_POSTS[w.indexRef]? = some post ∧
      (fireInterval h t w).posts = post :: w.posts ∧
      (fireInterval h t w).statuses = setKey w.statuses post.id "scanning" ∧
      (fireInterval h t w).indexRef = w.indexRef + 1 ∧
      (fireInterval h t w).stats.scanned = w.stats.scanned + 1 ∧
      (fireInterval h t w).stats.imported = w.stats.imported ∧
      (fireInterval h t w).stats.rejected = w.stats.rejected ∧
      (fireInterval h t w).running = w.running ∧
      (fireInterval h t w).timeouts = w.timeouts ++ [{ due := t + 1200, post := post }] ∧
      (fireInterval h t w).intervals
        = w.intervals.map (fun e => if e.1 = h then (h, t + 1800) else e) ∧
      (fireInterval h t w).intervalRef = w.intervalRef ∧
      (fireInterval h t w).now = t ∧
      (fireInterval h t w).complaints = w.complaints ∧
      (fireInterval h t w).nextHandle = w.nextHandle := by
  obtain ⟨post, hget, -, heq⟩ := processNextPost_lt { w with now := t } hlt
  refine ⟨post, hget, ?_⟩
  have hfi : fireInterval h t w
      = { processNextPost { w with now := t } with
            intervals := (processNextPost { w with now := t }).intervals.map
              (fun e => if e.1 = h then (h, t + 1800) else e) } := rfl
  rw [hfi, heq]
  exact ⟨rfl, rfl, rfl, rfl, rfl, rfl, rfl, rfl, rfl, rfl, rfl, rfl, rfl⟩

theorem fireInterval_ge (h : Nat) (t : Int) (w : World) (hge : 12 ≤ w.indexRef) :
    (fireInterval h t w).posts = w.posts ∧
      (fireInterval h t w).statuses = w.statuses ∧
      (fireInterval h t w).indexRef = w.indexRef ∧
      (fireInterval h t w).stats = w.stats ∧
      (fireInterval h t w).running = false ∧
      (fireInterval h t w).timeouts = w.timeouts ∧
      (fireInterval h t w).intervals
        = (clearInterval w.intervalRef w.intervals).map
            (fun e => if e.1 = h then (h, t + 1800) else e) ∧
      (fireInterval h t w).intervalRef = w.intervalRef ∧
      (fireInterval h t w).now = t ∧
      (fireInterval h t w).complaints = w.complaints ∧
      (fireInterval h t w).nextHandle = w.nextHandle := by
  have heq := processNextPost_ge { w with now := t } hge
  have hfi : fireInterval h t w
      = { processNextPost { w with now := t } with
            intervals := (processNextPost { w with now := t }).intervals.map
              (fun e => if e.1 = h then (h, t + 1800) else e) } := rfl
  rw [hfi, heq]
  exact ⟨rfl, rfl, rfl, rfl, rfl, rfl, rfl, rfl, rfl, rfl, rfl⟩

/-- C14: the start command issued while a run is in progress changes nothing:
the cursor, the post list, the statuses, the retained results, the counters,
the running flag, the interval handle and the timers (no interval is added)
are what they were. -/
theorem startScraping_noop (w : World) (h : w.running = true) :
    startScraping w = w ∧
      (startScraping w).indexRef = w.indexRef ∧ (startScraping w).posts = w.posts ∧
      (startScraping w).statuses = w.statuses ∧
      (startScraping w).aiResults = w.aiResults ∧
      (startScraping w).fakeResults = w.fakeResults ∧
      (startScraping w).stats = w.stats ∧ (startScraping w).running = true ∧
      (startScraping w).intervalRef = w.intervalRef ∧
      (startScraping w).intervals = w.intervals ∧
      (startScraping w).timeouts = w.timeouts ∧
      (startScraping w).nextHandle = w.nextHandle := by
  rw [startScraping_running w h]
  exact ⟨rfl, rfl, rfl, rfl, rfl, rfl, rfl, h, rfl, rfl, rfl, rfl⟩

theorem startScraping_noop_witness :
    (startScraping (startScraping (initialWorld 0 none))).intervals
        = [(1, 1800)] ∧
      (startScraping (startScraping (initialWorld 0 none))).nextHandle = 2 :=
  ⟨(startScraping_noop (startScraping (initialWorld 0 none)) rfl).2.2.2.2.2.2.2.2.2.1,
    (startScraping_noop (startScraping (initialWorld 0 none)) rfl).2.2.2.2.2.2.2.2.2.2.2⟩

theorem inRun_cursor (env : Env) (w0 w : World) (n : Nat) (hrun : w0.running = false)
    (h : InRun env w0 n w) : w.indexRef = min n 12 := by
  induction h with
  | start =>
    unfold startScraping
    rw [hrun]
    rfl
  | step n k w w2 _ hstep ih =>
    cases hstep with
    | tick hh due t _ _ =>
      by_cases hlt : w.indexRef < 12
      · obtain ⟨post, -, -, -, h3, -⟩ := fireInterval_lt hh t w hlt
        rw [h3, ih]
        rw [ih] at hlt
        omega
      · have h3 := (fireInterval_ge hh t w (by omega)).2.2.1
        rw [h3, ih]
        rw [ih] at hlt
        omega
    | resolve i t d _ _ =>
      rw [(fireTimeout_frame env i t d w).1, ih]
      rfl
    | start hr =>
      rw [startScraping_running w hr, ih]
      rfl

theorem inRun_intervals (env : Env) (w0 w : World) (n : Nat) (hrun : w0.running = false)
    (hint : w0.intervals = []) (h : InRun env w0 n w) :
    ∀ e ∈ w.intervals, w.intervalRef = some e.1 := by
  induction h with
  | start =>
    unfold startScraping
    rw [hrun]
    intro e he
    simp [hint] at he
    subst he
    rfl
  | step n k w w2 _ hstep ih =>
    cases hstep with
    | tick hh due t _ _ =>
      by_cases hlt : w.indexRef < 12
      · obtain ⟨post, -, -, -, -, -, -, -, -, -, h9, h10, -⟩ := fireInterval_lt hh t w hlt
        rw [h9, h10]
        intro e he
        obtain ⟨e2, he2, rfl⟩ := List.mem_map.mp he
        by_cases hc : e2.1 = hh
        · rw [if_pos hc]
          rw [ih e2 he2, hc]
        · rw [if_neg hc]
          exact ih e2 he2
      · obtain ⟨-, -, -, -, -, -, h7, h8, -⟩ := fireInterval_ge hh t w (by omega)
        rw [h7, h8]
        intro e he
        obtain ⟨e2, he2, rfl⟩ := List.mem_map.mp he
        have he3 : e2 ∈ w.intervals := by
          unfold clearInterval at he2
          cases hr : w.intervalRef with
          | none => rw [hr] at he2; exact he2
          | some r => rw [hr] at he2; exact (List.mem_filter.mp he2).1
        by_cases hc : e2.1 = hh
        · rw [if_pos hc]
          rw [ih e2 he3, hc]
        · rw [if_neg hc]
          exact ih e2 he3
    | resolve i t d _ _ =>
      obtain ⟨-, h2, h3, -⟩ := fireTimeout_frame env i t d w
      rw [h2, h3]
      exact ih
    | start hr =>
      rw [startScraping_running w hr]
      exact ih

/-- C18: in a run begun from an idle state, after `n` ticks the cursor is `n`
(at most 12). The next tick, the `n + 1`-th, then dequeues the post at
position `n` of `RAW_SOCIAL_POSTS`: it puts it in front of the post list, sets
its status to `scanning` and no other status, advances the cursor by 1, adds 1
to `scanned`, leaves `imported`, `rejected` and `running` alone and sets the
resolution timeout. A tick taken once the cursor is 12 changes no post, no
status and no counter: it sets `running` to false and leaves no interval. -/
theorem tick_dequeues (env : Env) (w0 w : World) (n : Nat) (hidle : Idle w0)
    (hin : InRun env w0 n w) (h : Nat) (t : Int) :
    w.indexRef = min n 12 ∧
    (n < 12 → ∃ post, RAW_SOCIAL_POSTS[n]? = some post ∧
      (fireInterval h t w).posts = post :: w.posts ∧
      (fireInterval h t w).statuses post.id = some "scanning" ∧
      (∀ id, id ≠ post.id → (fireInterval h t w).statuses id = w.statuses id) ∧
      (fireInterval h t w).indexRef = n + 1 ∧
      (fireInterval h t w).stats.scanned = w.stats.scanned + 1 ∧
      (fireInterval h t w).stats.imported = w.stats.imported ∧
      (fireInterval h t w).stats.rejected = w.stats.rejected ∧
      (fireInterval h t w).running = w.running ∧
      (fireInterval h t w).timeouts = w.timeouts ++ [{ due := t + 1200, post := post }]) ∧
    (12 ≤ n → (fireInterval h t w).posts = w.posts ∧
      (fireInterval h t w).statuses = w.statuses ∧
      (fireInterval h t w).indexRef = w.indexRef ∧
      (fireInterval h t w).stats = w.stats ∧
      (fireInterval h t w).timeouts = w.timeouts ∧
      (fireInterval h t w).running = false ∧
      (fireInterval h t w).intervals = []) := by
  have hcur := inRun_cursor env w0 w n hidle.1 hin
  refine ⟨hcur, ?_, ?_⟩
  · intro hn
    have hidx : w.indexRef = n := by rw [hcur]; omega
    obtain ⟨post, hget, h1, h2, h3, h4, h5, h6, h7, h8, -⟩ :=
      fireInterval_lt h t w (by omega)
    rw [hidx] at hget h3
    refine ⟨post, hget, h1, ?_, ?_, h3, h4, h5, h6, h7, h8⟩
    · rw [h2]; exact setKey_same _ _ _
    · intro id hid
      rw [h2]; exact setKey_other _ _ _ _ hid
  · intro hn
    have hidx : 12 ≤ w.indexRef := by rw [hcur]; omega
    obtain ⟨h1, h2, h3, h4, h5, h6, h7, -⟩ := fireInterval_ge h t w hidx
    refine ⟨h1, h2, h3, h4, h6, h5, ?_⟩
    rw [h7]
    have hall := inRun_intervals env w0 w n hidle.1 hidle.2.1 hin
    have hclear : clearInterval w.intervalRef w.intervals = [] := by
      unfold clearInterval
      cases hr : w.intervalRef with
      | none =>
        cases hl : w.intervals with
        | nil => rfl
        | cons e l =>
          have := hall e (by rw [hl]; exact List.mem_cons_self _ _)
          rw [hr] at this
          cases this
      | some r =>
        simp only
        rw [List.filter_eq_nil_iff]
        intro e he
        have := hall e he
        rw [hr] at this
        simp [Option.some.inj this]
    rw [hclear]
    rfl

theorem tick_dequeues_witness :
    (startScraping (initialWorld 0 none)).indexRef = min 0 12 ∧
      ∃ post, RAW_SOCIAL_POSTS[0]? = some post ∧
        (fireInterval 1 1800 (startScraping (initialWorld 0 none))).statuses post.id
          = some "scanning" ∧
        (fireInterval 1 1800 (startScraping (initialWorld 0 none))).indexRef = 0 + 1 := by
  obtain ⟨h1, h2, -⟩ := tick_dequeues sampleEnv (initialWorld 0 none)
    (startScraping (initialWorld 0 none)) 0 ⟨rfl, rfl, rfl⟩ InRun.start 1 1800
  obtain ⟨post, hget, -, hs, -, hi, -⟩ := h2 (by decide)
  exact ⟨h1, post, hget, hs, hi⟩

/-- C19: in every state of a run begun from an idle state, whatever the order
in which the ticks, the resolutions and the start commands are taken,
`imported + rejected <= scanned = cursor <= 12` and the number of posts with a
terminal status is `imported + rejected`; and no step of the run decreases any
of the three counters. -/
theorem run_invariants (env : Env) (w0 w : World) (n : Nat) (hidle : Idle w0)
    (hin : InRun env w0 n w) :
    w.stats.imported + w.stats.rejected ≤ w.stats.scanned ∧
      w.stats.scanned = w.indexRef ∧ w.indexRef ≤ 12 ∧
      terminalCount w = w.stats.imported + w.stats.rejected ∧
      (∀ k w2, RunStep env w k w2 →
        w.stats.scanned ≤ w2.stats.scanned ∧ w.stats.imported ≤ w2.stats.imported ∧
          w.stats.rejected ≤ w2.stats.rejected) := by
  have hinv := RunInv_inRun env w0 w n hidle.1 hidle.2.2 hin
  refine ⟨?_, hinv.scanned_eq, hinv.cursor_le, hinv.terminal_eq, ?_⟩
  · have := hinv.resolved_add
    omega
  · intro k w2 hstep
    cases hstep with
    | tick hh due t _ _ =>
      by_cases hlt : w.indexRef < 12
      · obtain ⟨post, -, -, -, -, h4, h5, h6, -⟩ := fireInterval_lt hh t w hlt
        rw [h4, h5, h6]
        omega
      · have h4 := (fireInterval_ge hh t w (by omega)).2.2.2.1
        rw [h4]
        omega
    | resolve i t d hi _ =>
      rw [fireTimeout_eq env i t d w hi]
      have hmem := (hinv.pending _ (List.get_mem w.timeouts i hi)).1
      obtain ⟨raw, hraw⟩ := raw_has_text _ hmem
      obtain ⟨-, h1, h2, h3, -⟩ := resolvePost_fields env (w.timeouts.get ⟨i, hi⟩).post d
        { w with now := t, timeouts := w.timeouts.eraseIdx i } raw hraw
      rw [h1, h2, h3]
      refine ⟨Nat.le_refl _, Nat.le_add_right _ _, Nat.le_add_right _ _⟩
    | start hr =>
      rw [startScraping_running w hr]
      omega

theorem run_invariants_witness :
    (fireInterval 1 1800 (startScraping (initialWorld 0 none))).stats.scanned
        = (fireInterval 1 1800 (startScraping (initialWorld 0 none))).indexRef ∧
      (fireInterval 1 1800 (startScraping (initialWorld 0 none))).indexRef ≤ 12 :=
  ⟨(run_invariants sampleEnv (initialWorld 0 none) _ (0 + 1) ⟨rfl, rfl, rfl⟩
      (InRun.step 0 1 _ _ InRun.start
        (RunStep.tick (startScraping (initialWorld 0 none)) 1 1800 1800
          (by decide) (by decide)))).2.1,
    (run_invariants sampleEnv (initialWorld 0 none) _ (0 + 1) ⟨rfl, rfl, rfl⟩
      (InRun.step 0 1 _ _ InRun.start
        (RunStep.tick (startScraping (initialWorld 0 none)) 1 1800 1800
          (by decide) (by decide)))).2.2.1⟩

theorem flagged_eq (p : Post) (v : Verdict) (h : detectFake p = .ok v) :
    flagged p = v.isFake := by
  unfold flagged
  rw [h]

theorem resolvePost_sink (env : Env) (p : Post) (d : Draws) (w : World) (raw : JSString)
    (hraw : p.raw = some raw) (hd : unitDraw d.spot) :
    (flagged p = true →
      (resolvePost env p d w).statuses p.id = some "fake" ∧
      (resolvePost env p d w).stats.rejected = w.stats.rejected + 1 ∧
      (resolvePost env p d w).stats.imported = w.stats.imported ∧
      (resolvePost env p d w).complaints = w.complaints) ∧
    (flagged p = false →
      (resolvePost env p d w).statuses p.id = some "approved" ∧
      (resolvePost env p d w).stats.imported = w.stats.imported + 1 ∧
      (resolvePost env p d w).stats.rejected = w.stats.rejected ∧
      ∃ c, buildComplaint env p raw (env.classifyComplaint raw (js "")) w.now d = .ok c ∧
        (resolvePost env p d w).complaints = addComplaint c w.complaints) := by
  obtain ⟨store, heq, hs1, hs2, -⟩ := resolvePost_eq env p d w raw hraw
  rw [heq]
  constructor
  · intro hf
    refine ⟨?_, ?_, ?_, hs1 hf⟩
    · show setKey w.statuses p.id (if flagged p then "fake" else "approved") p.id = some "fake"
      rw [setKey_same, hf]
      rfl
    · show w.stats.rejected + (if flagged p then 1 else 0) = w.stats.rejected + 1
      rw [hf]
      rfl
    · show w.stats.imported + (if flagged p then 0 else 1) = w.stats.imported
      rw [hf]
      rfl
  · intro hf
    refine ⟨?_, ?_, ?_, hs2 hf hd⟩
    · show setKey w.statuses p.id (if flagged p then "fake" else "approved") p.id
        = some "approved"
      rw [setKey_same, hf]
      rfl
    · show w.stats.imported + (if flagged p then 0 else 1) = w.stats.imported + 1
      rw [hf]
      rfl
    · show w.stats.rejected + (if flagged p then 1 else 0) = w.stats.rejected
      rw [hf]
      rfl

theorem inRun_sink (env : Env) (w0 w : World) (n : Nat) (hidle : Idle w0)
    (hin : InRun env w0 n w) :
    ∃ added, w.complaints.getD [] = added ++ w0.complaints.getD [] ∧
      added.length = w.stats.imported ∧
      ∀ c ∈ added, ∃ q ∈ RAW_SOCIAL_POSTS, flagged q = false ∧ c.sourceHandle = q.handle ∧
        ∃ raw, q.raw = some raw ∧ c.description = complaintDescription raw := by
  induction hin with
  | start =>
    refine ⟨[], ?_, ?_, ?_⟩
    · unfold startScraping
      rw [hidle.1]
      rfl
    · unfold startScraping
      rw [hidle.1]
      rfl
    · intro c hc
      cases hc
  | step n k w w2 hprev hstep ih =>
    obtain ⟨added, h1, h2, h3⟩ := ih
    have hinv := RunInv_inRun env w0 w n hidle.1 hidle.2.2 hprev
    cases hstep with
    | tick hh due t _ _ =>
      refine ⟨added, ?_, ?_, h3⟩
      · by_cases hlt : w.indexRef < 12
        · obtain ⟨post, -, -, -, -, -, -, -, -, -, -, -, -, h12, -⟩ :=
            fireInterval_lt hh t w hlt
          rw [h12]
          exact h1
        · have h12 := (fireInterval_ge hh t w (by omega)).2.2.2.2.2.2.2.2.2.1
          rw [h12]
          exact h1
      · by_cases hlt : w.indexRef < 12
        · obtain ⟨post, -, -, -, -, -, h5, -⟩ := fireInterval_lt hh t w hlt
          rw [h5]
          exact h2
        · have h4 := (fireInterval_ge hh t w (by omega)).2.2.2.1
          rw [h4]
          exact h2
    | resolve i t d hi hd =>
      rw [fireTimeout_eq env i t d w hi]
      have hmem := (hinv.pending _ (List.get_mem w.timeouts i hi)).1
      obtain ⟨raw, hraw⟩ := raw_has_text _ hmem
      obtain ⟨ha, hb⟩ := resolvePost_sink env (w.timeouts.get ⟨i, hi⟩).post d
        { w with now := t, timeouts := w.timeouts.eraseIdx i } raw hraw hd.1
      cases hf : flagged (w.timeouts.get ⟨i, hi⟩).post with
      | true =>
        obtain ⟨-, -, hi2, hc2⟩ := ha hf
        refine ⟨added, ?_, ?_, h3⟩
        · rw [hc2]
          exact h1
        · rw [hi2]
          exact h2
      | false =>
        obtain ⟨-, hi2, -, c, hbuild, hc2⟩ := hb hf
        refine ⟨c :: added, ?_, ?_, ?_⟩
        · rw [hc2]
          show c :: w.complaints.getD [] = c :: added ++ w0.complaints.getD []
          rw [h1]
          rfl
        · rw [hi2, List.length_cons]
          show added.length + 1 = w.stats.imported + 1
          rw [h2]
        · intro c2 hc
          rcases List.mem_cons.mp hc with hc | hc
          · subst hc
            obtain ⟨-, -, -, -, hh5, -, -, -, hh9⟩ := buildComplaint_ok _ _ _ _ _ _ _ hbuild
            exact ⟨_, hmem, hf, hh5, raw, hraw, hh9⟩
          · exact h3 c2 hc
    | start hr =>
      rw [startScraping_running w hr]
      exact ⟨added, h1, h2, h3⟩

/-- C15: when the resolution of a post fires (with draws in [0,1)): if
`detectFake` flags the post its status becomes `fake`, `rejected` grows by 1,
`imported` and the store are unchanged; otherwise its status becomes
`approved`, `imported` grows by 1, `rejected` is unchanged and the store is
`addComplaint` of the new record, once. In every state of a run begun from an
idle state the store is therefore the store at the start with `imported`
records in front of it, each built from a demo post that is not flagged. -/
theorem resolution_sink (env : Env) :
    (∀ (p : Post) (d : Draws) (w : World) (raw : JSString) (v : Verdict),
      p.raw = some raw → d.valid → detectFake p = .ok v →
      (v.isFake = true →
        (resolvePost env p d w).statuses p.id = some "fake" ∧
        (resolvePost env p d w).stats.rejected = w.stats.rejected + 1 ∧
        (resolvePost env p d w).stats.imported = w.stats.imported ∧
        (resolvePost env p d w).complaints = w.complaints) ∧
      (v.isFake = false →
        (resolvePost env p d w).statuses p.id = some "approved" ∧
        (resolvePost env p d w).stats.imported = w.stats.imported + 1 ∧
        (resolvePost env p d w).stats.rejected = w.stats.rejected ∧
        ∃ c, buildComplaint env p raw (env.classifyComplaint raw (js "")) w.now d = .ok c ∧
          (resolvePost env p d w).complaints = addComplaint c w.complaints ∧
          (resolvePost env p d w).complaints = some (c :: w.complaints.getD []))) ∧
    (∀ (w0 w : World) (n : Nat), Idle w0 → InRun env w0 n w →
      ∃ added, w.complaints.getD [] = added ++ w0.complaints.getD [] ∧
        added.length = w.stats.imported ∧
        ∀ c ∈ added, ∃ q ∈ RAW_SOCIAL_POSTS, flagged q = false ∧
          c.sourceHandle = q.handle ∧
          ∃ raw, q.raw = some raw ∧ c.description = complaintDescription raw) := by
  constructor
  · intro p d w raw v hraw hd hv
    obtain ⟨ha, hb⟩ := resolvePost_sink env p d w raw hraw hd.1
    rw [flagged_eq p v hv] at ha hb
    refine ⟨ha, fun hf => ?_⟩
    obtain ⟨h1, h2, h3, c, h4, h5⟩ := hb hf
    exact ⟨h1, h2, h3, c, h4, h5, h5⟩
  · intro w0 w n hidle hin
    exact inRun_sink env w0 w n hidle hin

/-! ## The run with exact timers -/

theorem earliestInterval_single (e : Nat × Int) : earliestInterval [e] = some e := rfl

theorem earliestTimeout_nil (i : Nat) : earliestTimeout i [] = none := rfl

theorem earliestTimeout_single (i : Nat) (e : Timeout) :
    earliestTimeout i [e] = some (i, e.due) := rfl

theorem advance_tick (env : Env) (rand : Int → Draws) (w : World) (h : Nat) (a : Int)
    (hint : w.intervals = [(h, a)]) (hto : w.timeouts = []) (hnow : w.now ≤ a) :
    advance env rand w = fireInterval h a w := by
  unfold advance
  rw [hint, hto, earliestInterval_single, earliestTimeout_nil]
  simp only
  rw [max_eq_left hnow]

theorem advance_resolve (env : Env) (rand : Int → Draws) (w : World) (h : Nat) (a b : Int)
    (p : Post) (hint : w.intervals = [(h, a)])
    (hto : w.timeouts = [{ due := b, post := p }]) (hlt : b < a) (hnow : w.now ≤ b) :
    advance env rand w = fireTimeout env 0 b (rand b) w := by
  unfold advance
  rw [hint, hto, earliestInterval_single, earliestTimeout_single]
  simp only
  rw [if_neg (by omega), max_eq_left hnow]

theorem advance_idle (env : Env) (rand : Int → Draws) (w : World) (hint : w.intervals = [])
    (hto : w.timeouts = []) : advance env rand w = w := by
  unfold advance
  rw [hint, hto]
  rfl

theorem phase_start (w0 : World) (hidle : Idle w0) : Phase w0 0 false (startScraping w0) := by
  have hinv := RunInv_start w0 hidle.1 hidle.2.2
  have heq : startScraping w0 =
      { w0 with indexRef := 0, posts := [], statuses := fun _ => none,
                aiResults := fun _ => none, fakeResults := fun _ => none,
                stats := { scanned := 0, imported := 0, rejected := 0 },
                running := true, intervalRef := some w0.nextHandle,
                intervals := w0.intervals ++ [(w0.nextHandle, w0.now + 1800)],
                nextHandle := w0.nextHandle + 1 } := by
    unfold startScraping
    rw [hidle.1]
    rfl
  rw [heq] at hinv ⊢
  refine ⟨rfl, rfl, rfl, ?_, ?_, ?_, ?_, hinv⟩
  · show w0.intervals ++ [(w0.nextHandle, w0.now + 1800)] = _
    rw [hidle.2.1]
    simp
  · show w0.timeouts = []
    exact hidle.2.2
  · show w0.now = _
    simp
  · rfl

theorem fakeCount_succ (j : Nat) (post : Post) (h : RAW_SOCIAL_POSTS[j]? = some post) :
    fakeCount (j + 1) = fakeCount j + (if flagged post then 1 else 0) := by
  unfold fakeCount
  rw [List.take_succ, h, List.countP_append]
  simp [List.countP_cons]

theorem phase_tick (env : Env) (rand : Int → Draws) (w0 w : World) (k : Nat)
    (hp : Phase w0 k false w) (hk : k < 12) :
    advance env rand w = fireInterval w0.nextHandle (w0.now + 1800 * ((k : Int) + 1)) w ∧
      Phase w0 (k + 1) true (advance env rand w) := by
  obtain ⟨h1, h2, h3, h4, h5, h6, h7, h8⟩ := hp
  simp only [Bool.false_eq_true, if_false, false_or] at h5 h6 h7
  have hnow : w.now ≤ w0.now + 1800 * ((k : Int) + 1) := by
    rw [h6]
    split <;> omega
  have hadv := advance_tick env rand w _ _ h4 h5 hnow
  refine ⟨hadv, ?_⟩
  rw [hadv]
  obtain ⟨post, hget, -, f2, f3, f4, f5, f6, f7, f8, f9, f10, f11, -⟩ :=
    fireInterval_lt w0.nextHandle (w0.now + 1800 * ((k : Int) + 1)) w (by omega)
  rw [h3] at hget
  refine ⟨?_, ?_, ?_, ?_, ?_, ?_, ?_, RunInv_fireInterval _ _ w h8⟩
  · rw [f7]; exact h1
  · rw [f10]; exact h2
  · rw [f3, h3]
  · rw [f9, h4]
    simp only [List.map_cons, List.map_nil, if_true]
    push_cast
    ring_nf
  · simp only [if_true]
    refine ⟨post, by simpa using hget, ?_⟩
    rw [f8, h5]
    simp only [List.nil_append]
    push_cast
    ring_nf
  · rw [f11]
    simp only [true_or, if_true]
    push_cast
    ring
  · rw [f6, h7]
    simp

theorem phase_resolve (env : Env) (rand : Int → Draws) (w0 w : World) (k : Nat)
    (hp : Phase w0 k true w) (hk : 1 ≤ k) :
    advance env rand w
        = fireTimeout env 0 (w0.now + 1800 * (k : Int) + 1200)
            (rand (w0.now + 1800 * (k : Int) + 1200)) w ∧
      Phase w0 k false (advance env rand w) ∧
      ∃ post, RAW_SOCIAL_POSTS[k - 1]? = some post ∧
        w.timeouts = [{ due := w0.now + 1800 * (k : Int) + 1200, post := post }] ∧
        w.statuses post.id = some "scanning" ∧
        isTerminal ((advance env rand w).statuses post.id) = true := by
  obtain ⟨h1, h2, h3, h4, h5, h6, h7, h8⟩ := hp
  simp only [if_true, true_or] at h5 h6 h7
  obtain ⟨post, hget, hto⟩ := h5
  have hnow : w.now ≤ w0.now + 1800 * (k : Int) + 1200 := by
    rw [h6]
    omega
  have hadv := advance_resolve env rand w _ _ _ post h4 hto (by omega) hnow
  have hi : 0 < w.timeouts.length := by rw [hto]; exact Nat.zero_lt_one
  have hinv2 := RunInv_fireTimeout env 0 (w0.now + 1800 * (k : Int) + 1200)
    (rand (w0.now + 1800 * (k : Int) + 1200)) w hi h8
  have hpost : (w.timeouts.get ⟨0, hi⟩).post = post := by
    simp [hto]
  have hpend := h8.pending (w.timeouts.get ⟨0, hi⟩) (List.get_mem _ _ _)
  rw [hpost] at hpend
  obtain ⟨raw, hraw⟩ := raw_has_text post hpend.1
  have heq := fireTimeout_eq env 0 (w0.now + 1800 * (k : Int) + 1200)
    (rand (w0.now + 1800 * (k : Int) + 1200)) w hi
  rw [hpost] at heq
  obtain ⟨g1, -, -, g4, g5, g6, g7, g8, g9, g10, -⟩ := resolvePost_fields env post
    (rand (w0.now + 1800 * (k : Int) + 1200))
    { w with now := w0.now + 1800 * (k : Int) + 1200, timeouts := w.timeouts.eraseIdx 0 }
    raw hraw
  rw [← heq] at g1 g4 g5 g6 g7 g8 g9 g10 
  rw [← hadv] at g1 g4 g5 g6 g7 g8 g9 g10 hinv2
  refine ⟨hadv, ⟨?_, ?_, ?_, ?_, ?_, ?_, ?_, hinv2⟩, post, hget, hto, hpend.2, ?_⟩
  · rw [g7]; exact h1
  · rw [g9]; exact h2
  · rw [g6]; exact h3
  · rw [g8]; exact h4
  · simp only [Bool.false_eq_true, if_false]
    rw [g5]
    show w.timeouts.eraseIdx 0 = []
    rw [hto]
    rfl
  · rw [g10]
    show w0.now + 1800 * (k : Int) + 1200 = _
    have hk0 : ¬ (false = true ∨ k = 0) := by
      rintro (h | h)
      · cases h
      · omega
    rw [if_neg hk0]
  · simp only [Bool.false_eq_true, if_false]
    rw [g4]
    show w.stats.rejected + (if flagged post then 1 else 0) = fakeCount k
    rw [h7]
    have hsucc := fakeCount_succ (k - 1) post hget
    have hk1 : k - 1 + 1 = k := by omega
    rw [hk1] at hsucc
    exact hsucc.symm
  · rw [g1]
    show isTerminal (setKey w.statuses post.id _ post.id) = true
    rw [setKey_same]
    exact terminal_of_flag _

theorem phase_final (env : Env) (rand : Int → Draws) (w0 w : World)
    (hp : Phase w0 12 false w) :
    advance env rand w = fireInterval w0.nextHandle (w0.now + 1800 * 13) w ∧
      (advance env rand w).running = false ∧ (advance env rand w).intervals = [] ∧
      (advance env rand w).timeouts = [] ∧ (advance env rand w).stats = w.stats ∧
      (advance env rand w).statuses = w.statuses ∧ (advance env rand w).indexRef = 12 ∧
      w.stats.scanned = 12 ∧ w.stats.imported + w.stats.rejected = 12 ∧
      w.stats.rejected = fakeCount 12 ∧ RunInv (advance env rand w) := by
  obtain ⟨h1, h2, h3, h4, h5, h6, h7, h8⟩ := hp
  simp only [Bool.false_eq_true, if_false, false_or] at h5 h6 h7
  have hnow : w.now ≤ w0.now + 1800 * 13 := by
    rw [h6]
    split <;> omega
  have h4b : w.intervals = [(w0.nextHandle, w0.now + 1800 * 13)] := by
    rw [h4]
    norm_num
  have hadv := advance_tick env rand w _ _ h4b h5 hnow
  obtain ⟨f1, f2, f3, f4, f5, f6, f7, -⟩ :=
    fireInterval_ge w0.nextHandle (w0.now + 1800 * 13) w (by omega)
  have hsc := h8.scanned_eq
  have hadd := h8.resolved_add
  rw [h5] at hadd
  rw [h3] at hsc
  refine ⟨hadv, ?_, ?_, ?_, ?_, ?_, ?_, hsc, ?_, h7, ?_⟩
  · rw [hadv]; exact f5
  · rw [hadv, f7, h2, h4b]
    simp [clearInterval]
  · rw [hadv, f6]; exact h5
  · rw [hadv]; exact f4
  · rw [hadv]; exact f2
  · rw [hadv, f3]; exact h3
  · simp only [List.length_nil, Nat.add_zero] at hadd
    omega
  · rw [hadv]
    exact RunInv_fireInterval _ _ w h8

theorem timedRun_zero (env : Env) (rand : Int → Draws) (w0 : World) :
    timedRun env rand w0 0 = startScraping w0 := rfl

theorem timedRun_succ (env : Env) (rand : Int → Draws) (w0 : World) (n : Nat) :
    timedRun env rand w0 (n + 1) = advance env rand (timedRun env rand w0 n) := by
  unfold timedRun
  exact Function.iterate_succ_apply' _ _ _

theorem timedRun_phase (env : Env) (rand : Int → Draws) (w0 : World) (hidle : Idle w0) :
    ∀ k, k ≤ 12 → Phase w0 k false (timedRun env rand w0 (2 * k)) ∧
      (1 ≤ k → Phase w0 k true (timedRun env rand w0 (2 * k - 1))) := by
  intro k
  induction k with
  | zero =>
    intro _
    refine ⟨phase_start w0 hidle, fun h => ?_⟩
    omega
  | succ k ih =>
    intro hk
    obtain ⟨ih1, -⟩ := ih (by omega)
    have e1 : 2 * (k + 1) - 1 = 2 * k + 1 := by omega
    have e2 : 2 * (k + 1) = 2 * k + 1 + 1 := by omega
    have h1 : Phase w0 (k + 1) true (timedRun env rand w0 (2 * k + 1)) := by
      rw [timedRun_succ]
      exact (phase_tick env rand w0 _ k ih1 (by omega)).2
    have h2 : Phase w0 (k + 1) false (timedRun env rand w0 (2 * k + 1 + 1)) := by
      rw [timedRun_succ]
      exact (phase_resolve env rand w0 _ (k + 1) h1 (by omega)).2.1
    rw [e1, e2]
    exact ⟨h2, fun _ => h1⟩

theorem timedRun_final (env : Env) (rand : Int → Draws) (w0 : World) (hidle : Idle w0) :
    (timedRun env rand w0 25).running = false ∧ (timedRun env rand w0 25).intervals = [] ∧
      (timedRun env rand w0 25).timeouts = [] ∧
      (timedRun env rand w0 25).stats.scanned = 12 ∧
      (timedRun env rand w0 25).stats.imported + (timedRun env rand w0 25).stats.rejected
        = 12 ∧
      (timedRun env rand w0 25).stats.rejected = fakeCount 12 ∧
      (timedRun env rand w0 25).statuses = (timedRun env rand w0 24).statuses ∧
      RunInv (timedRun env rand w0 25) := by
  have hp := (timedRun_phase env rand w0 hidle 12 (Nat.le_refl _)).1
  have e : timedRun env rand w0 25 = advance env rand (timedRun env rand w0 (2 * 12)) :=
    timedRun_succ env rand w0 24
  obtain ⟨-, f1, f2, f3, f4, f5, -, f7, f8, f9, f10⟩ := phase_final env rand w0 _ hp
  rw [e]
  refine ⟨f1, f2, f3, ?_, ?_, ?_, f5, f10⟩
  · rw [f4]; exact f7
  · rw [f4]; exact f8
  · rw [f4]; exact f9

theorem timedRun_after (env : Env) (rand : Int → Draws) (w0 : World) (hidle : Idle w0) :
    ∀ m, timedRun env rand w0 (25 + m) = timedRun env rand w0 25 := by
  intro m
  induction m with
  | zero => rfl
  | succ m ih =>
    obtain ⟨-, h2, h3, -⟩ := timedRun_final env rand w0 hidle
    have : 25 + (m + 1) = 25 + m + 1 := by omega
    rw [this, timedRun_succ, ih]
    exact advance_idle env rand _ h2 h3

theorem timedRun_cases (env : Env) (rand : Int → Draws) (w0 : World) (hidle : Idle w0)
    (n : Nat) :
    (∃ k, k ≤ 12 ∧ n = 2 * k ∧ Phase w0 k false (timedRun env rand w0 n)) ∨
      (∃ k, 1 ≤ k ∧ k ≤ 12 ∧ n = 2 * k - 1 ∧ Phase w0 k true (timedRun env rand w0 n)) ∨
      (25 ≤ n ∧ timedRun env rand w0 n = timedRun env rand w0 25) := by
  by_cases hn : 25 ≤ n
  · right; right
    refine ⟨hn, ?_⟩
    obtain ⟨m, rfl⟩ := Nat.exists_eq_add_of_le hn
    exact timedRun_after env rand w0 hidle m
  · rcases Nat.even_or_odd' n with ⟨k, rfl | rfl⟩
    · left
      exact ⟨k, by omega, rfl, (timedRun_phase env rand w0 hidle k (by omega)).1⟩
    · right; left
      refine ⟨k + 1, by omega, by omega, by omega, ?_⟩
      have := (timedRun_phase env rand w0 hidle (k + 1) (by omega)).2 (by omega)
      have e : 2 * (k + 1) - 1 = 2 * k + 1 := by omega
      rw [e] at this
      exact this

theorem terminal_stable_fireInterval (h : Nat) (t : Int) (w : World) (hinv : RunInv w)
    (id : String) (hterm : isTerminal (w.statuses id) = true) :
    (fireInterval h t w).statuses id = w.statuses id := by
  by_cases hlt : w.indexRef < 12
  · obtain ⟨post, hget, -, f2, -⟩ := fireInterval_lt h t w hlt
    have hlen : w.indexRef < RAW_SOCIAL_POSTS.length := by rw [raw_length]; exact hlt
    have hmem : post ∈ RAW_SOCIAL_POSTS.drop w.indexRef := by
      rw [List.getElem?_eq_getElem hlen] at hget
      rw [List.drop_eq_getElem_cons hlen, ← Option.some.inj hget]
      exact List.mem_cons_self _ _
    have hnone := hinv.untouched post hmem
    have hne : id ≠ post.id := by
      intro heq
      rw [heq, hnone] at hterm
      cases hterm
    rw [f2, setKey_other _ _ _ _ hne]
  · rw [(fireInterval_ge h t w (by omega)).2.1]

theorem terminal_stable_fireTimeout (env : Env) (i : Nat) (t : Int) (d : Draws) (w : World)
    (hi : i < w.timeouts.length) (hinv : RunInv w) (id : String)
    (hterm : isTerminal (w.statuses id) = true) :
    (fireTimeout env i t d w).statuses id = w.statuses id := by
  obtain ⟨hmem, hscan⟩ := hinv.pending _ (List.get_mem w.timeouts i hi)
  obtain ⟨raw, hraw⟩ := raw_has_text _ hmem
  have g1 := (resolvePost_fields env (w.timeouts.get ⟨i, hi⟩).post d
    { w with now := t, timeouts := w.timeouts.eraseIdx i } raw hraw).1
  rw [fireTimeout_eq env i t d w hi, g1]
  have hne : id ≠ (w.timeouts.get ⟨i, hi⟩).post.id := by
    intro heq
    rw [heq, hscan] at hterm
    cases hterm
  exact setKey_other _ _ _ _ hne

theorem timedRun_inv (env : Env) (rand : Int → Draws) (w0 : World) (hidle : Idle w0)
    (n : Nat) : RunInv (timedRun env rand w0 n) ∧ (timedRun env rand w0 n).timeouts.length ≤ 1
      := by
  rcases timedRun_cases env rand w0 hidle n with ⟨k, -, -, hp⟩ | ⟨k, -, -, -, hp⟩ | ⟨-, he⟩
  · have := hp.timeouts
    simp only [Bool.false_eq_true, if_false] at this
    exact ⟨hp.inv, by rw [this]; exact Nat.zero_le _⟩
  · have := hp.timeouts
    simp only [if_true] at this
    obtain ⟨post, -, hto⟩ := this
    exact ⟨hp.inv, by rw [hto]; exact Nat.le_refl _⟩
  · rw [he]
    obtain ⟨-, -, h3, -, -, -, -, h8⟩ := timedRun_final env rand w0 hidle
    exact ⟨h8, by rw [h3]; exact Nat.zero_le _⟩

theorem timedRun_terminal_step (env : Env) (rand : Int → Draws) (w0 : World)
    (hidle : Idle w0) (n : Nat) (id : String)
    (hterm : isTerminal ((timedRun env rand w0 n).statuses id) = true) :
    (timedRun env rand w0 (n + 1)).statuses id = (timedRun env rand w0 n).statuses id := by
  rw [timedRun_succ]
  rcases timedRun_cases env rand w0 hidle n with ⟨k, hk, -, hp⟩ | ⟨k, hk1, -, -, hp⟩ | ⟨-, he⟩
  · by_cases hlt : k < 12
    · rw [(phase_tick env rand w0 _ k hp hlt).1]
      exact terminal_stable_fireInterval _ _ _ hp.inv id hterm
    · have hk12 : k = 12 := by omega
      subst hk12
      rw [(phase_final env rand w0 _ hp).2.2.2.2.2.1]
  · obtain ⟨hadv, -, post, -, hto, -⟩ := phase_resolve env rand w0 _ k hp hk1
    rw [hadv]
    exact terminal_stable_fireTimeout env 0 _ _ _ (by rw [hto]; exact Nat.zero_lt_one)
      hp.inv id hterm
  · obtain ⟨-, h2, h3, -⟩ := timedRun_final env rand w0 hidle
    rw [he, advance_idle env rand _ h2 h3]

theorem timedRun_terminal (env : Env) (rand : Int → Draws) (w0 : World) (hidle : Idle w0)
    (n : Nat) (id : String)
    (hterm : isTerminal ((timedRun env rand w0 n).statuses id) = true) :
    ∀ m, (timedRun env rand w0 (n + m)).statuses id = (timedRun env rand w0 n).statuses id
      := by
  intro m
  induction m with
  | zero => rfl
  | succ m ih =>
    have e : n + (m + 1) = n + m + 1 := by omega
    rw [e, timedRun_terminal_step env rand w0 hidle (n + m) id (by rw [ih]; exact hterm), ih]

theorem idle_initialWorld (t : Int) (complaints : Option (List Complaint)) :
    Idle (initialWorld t complaints) := ⟨rfl, rfl, rfl⟩


theorem resolution_sink_witness :
    (resolvePost sampleEnv (postOf (some shortText)) sampleDraws
        (initialWorld 0 none)).stats.rejected = 0 + 1 ∧
      (resolvePost sampleEnv (postOf (some shortText)) sampleDraws
        (initialWorld 0 none)).complaints = none :=
  ⟨(((resolution_sink sampleEnv).1 (postOf (some shortText)) sampleDraws (initialWorld 0 none)
      shortText ⟨true, [reasonShort]⟩ rfl sampleDraws_valid (by decide)).1 rfl).2.1,
    (((resolution_sink sampleEnv).1 (postOf (some shortText)) sampleDraws (initialWorld 0 none)
      shortText ⟨true, [reasonShort]⟩ rfl sampleDraws_valid (by decide)).1 rfl).2.2.2⟩

/-- C16: the start command issued in an idle state (a fresh mount, or the state
a completed run ends in) resets the cursor, the statuses and the counters, and
the run it begins is in progress for 25 timer callbacks (13 ticks and 12
resolutions) and then complete: `running` is false, `scanned` is 12,
`imported + rejected` is 12, no timer is left, and the state is idle again. -/
theorem run_completes (env : Env) (rand : Int → Draws) (w0 : World) (hidle : Idle w0) :
    (startScraping w0).indexRef = 0 ∧
      (startScraping w0).stats = { scanned := 0, imported := 0, rejected := 0 } ∧
      (∀ id, (startScraping w0).statuses id = none) ∧
      (∀ n, n < 25 → (timedRun env rand w0 n).running = true) ∧
      (timedRun env rand w0 25).running = false ∧
      (timedRun env rand w0 25).stats.scanned = 12 ∧
      (timedRun env rand w0 25).stats.imported + (timedRun env rand w0 25).stats.rejected
        = 12 ∧
      Idle (timedRun env rand w0 25) ∧
      (∀ m, timedRun env rand w0 (25 + m) = timedRun env rand w0 25) := by
  obtain ⟨f1, f2, f3, f4, f5, -⟩ := timedRun_final env rand w0 hidle
  have hs : startScraping w0 =
      { w0 with indexRef := 0, posts := [], statuses := fun _ => none,
                aiResults := fun _ => none, fakeResults := fun _ => none,
                stats := { scanned := 0, imported := 0, rejected := 0 },
                running := true, intervalRef := some w0.nextHandle,
                intervals := w0.intervals ++ [(w0.nextHandle, w0.now + 1800)],
                nextHandle := w0.nextHandle + 1 } := by
    unfold startScraping
    rw [hidle.1]
    rfl
  refine ⟨?_, ?_, ?_, ?_, f1, f4, f5, ⟨f1, f2, f3⟩, timedRun_after env rand w0 hidle⟩
  · rw [hs]
  · rw [hs]
  · intro id
    rw [hs]
  · intro n hn
    rcases timedRun_cases env rand w0 hidle n with ⟨k, -, -, hp⟩ | ⟨k, -, -, -, hp⟩ | ⟨h25, -⟩
    · exact hp.running
    · exact hp.running
    · omega

theorem run_completes_witness :
    (timedRun sampleEnv (fun _ => sampleDraws) (initialWorld 0 none) 25).running = false ∧
      (timedRun sampleEnv (fun _ => sampleDraws) (initialWorld 0 none) 25).stats.scanned
        = 12 ∧
      Idle (timedRun sampleEnv (fun _ => sampleDraws) (initialWorld 0 none) 25) :=
  ⟨(run_completes sampleEnv (fun _ => sampleDraws) (initialWorld 0 none)
      (idle_initialWorld 0 none)).2.2.2.2.1,
    (run_completes sampleEnv (fun _ => sampleDraws) (initialWorld 0 none)
      (idle_initialWorld 0 none)).2.2.2.2.2.1,
    (run_completes sampleEnv (fun _ => sampleDraws) (initialWorld 0 none)
      (idle_initialWorld 0 none)).2.2.2.2.2.2.2.1⟩

/-- C20: in the run with exact timers begun at the instant `w0.now`, tick `k`
(1 to 12) runs at `w0.now + 1800 k` and leaves one pending resolution, of the
`k`-th post, due at `w0.now + 1800 k + 1200`, strictly before the next tick,
due at `w0.now + 1800 (k + 1)`; the next callback is that resolution, after
which the status of the post is terminal while the cursor is still `k`. At
every instant at most one post is `scanning`; a terminal status never changes
again; and when the tick that sets `running` to false runs, no resolution is
pending and all twelve posts are terminal. -/
theorem resolution_before_next_tick (env : Env) (rand : Int → Draws) (w0 : World)
    (hidle : Idle w0) :
    (∀ k, 1 ≤ k → k ≤ 12 → ∃ post, RAW_SOCIAL_POSTS[k - 1]? = some post ∧
      (timedRun env rand w0 (2 * k - 1)).now = w0.now + 1800 * (k : Int) ∧
      (timedRun env rand w0 (2 * k - 1)).timeouts
        = [{ due := w0.now + 1800 * (k : Int) + 1200, post := post }] ∧
      (timedRun env rand w0 (2 * k - 1)).intervals
        = [(w0.nextHandle, w0.now + 1800 * ((k : Int) + 1))] ∧
      w0.now + 1800 * (k : Int) + 1200 < w0.now + 1800 * ((k : Int) + 1) ∧
      (timedRun env rand w0 (2 * k - 1)).statuses post.id = some "scanning" ∧
      (timedRun env rand w0 (2 * k)).now = w0.now + 1800 * (k : Int) + 1200 ∧
      isTerminal ((timedRun env rand w0 (2 * k)).statuses post.id) = true ∧
      (timedRun env rand w0 (2 * k)).indexRef = k ∧
      (timedRun env rand w0 (2 * k)).timeouts = []) ∧
    (∀ n, scanningCount (timedRun env rand w0 n) ≤ 1) ∧
    (∀ n m id, n ≤ m → isTerminal ((timedRun env rand w0 n).statuses id) = true →
      (timedRun env rand w0 m).statuses id = (timedRun env rand w0 n).statuses id) ∧
    ((timedRun env rand w0 24).running = true ∧ (timedRun env rand w0 24).timeouts = [] ∧
      (∀ p ∈ RAW_SOCIAL_POSTS, isTerminal ((timedRun env rand w0 24).statuses p.id) = true) ∧
      (timedRun env rand w0 25).running = false ∧ (timedRun env rand w0 25).timeouts = []) := by
  refine ⟨?_, ?_, ?_, ?_⟩
  · intro k hk1 hk12
    have hp := (timedRun_phase env rand w0 hidle k hk12).2 hk1
    obtain ⟨-, hp2, post, hget, hto, hscan, hterm⟩ := phase_resolve env rand w0 _ k hp hk1
    have e : 2 * k = 2 * k - 1 + 1 := by omega
    have hrun : timedRun env rand w0 (2 * k)
        = advance env rand (timedRun env rand w0 (2 * k - 1)) := by
      conv_lhs => rw [e]
      exact timedRun_succ env rand w0 (2 * k - 1)
    rw [← hrun] at hp2 hterm
    have hc1 := hp.clock
    have hc2 := hp2.clock
    have ht2 := hp2.timeouts
    simp only [if_true, true_or] at hc1
    simp only [Bool.false_eq_true, if_false, false_or] at hc2 ht2
    rw [if_neg (by omega)] at hc2
    refine ⟨post, hget, ?_, hto, hp.intervals, by omega, hscan, hc2, hterm, hp2.cursor, ht2⟩
    rw [hc1]
    omega
  · intro n
    obtain ⟨hinv, hlen⟩ := timedRun_inv env rand w0 hidle n
    rw [hinv.scanning_eq]
    exact hlen
  · intro n m id hnm hterm
    obtain ⟨j, rfl⟩ := Nat.exists_eq_add_of_le hnm
    exact timedRun_terminal env rand w0 hidle n id hterm j
  · have hp := (timedRun_phase env rand w0 hidle 12 (Nat.le_refl _)).1
    have e24 : 2 * 12 = 24 := rfl
    rw [e24] at hp
    have hto := hp.timeouts
    simp only [Bool.false_eq_true, if_false] at hto
    obtain ⟨f1, -, f3, -⟩ := timedRun_final env rand w0 hidle
    refine ⟨hp.running, hto, ?_, f1, f3⟩
    have hadd := hp.inv.resolved_add
    have hsc := hp.inv.scanned_eq
    have hcur := hp.cursor
    have hterm := hp.inv.terminal_eq
    rw [hto] at hadd
    simp only [List.length_nil, Nat.add_zero] at hadd
    have hcount : RAW_SOCIAL_POSTS.countP
        (fun p => isTerminal ((timedRun env rand w0 24).statuses p.id))
        = RAW_SOCIAL_POSTS.length := by
      unfold terminalCount at hterm
      rw [hterm, raw_length]
      omega
    exact fun p hp2 => List.countP_eq_length.mp hcount p hp2

theorem resolution_before_next_tick_witness :
    scanningCount (timedRun sampleEnv (fun _ => sampleDraws) (initialWorld 0 none) 7) ≤ 1 ∧
      (timedRun sampleEnv (fun _ => sampleDraws) (initialWorld 0 none) 25).timeouts = [] :=
  ⟨(resolution_before_next_tick sampleEnv (fun _ => sampleDraws) (initialWorld 0 none)
      (idle_initialWorld 0 none)).2.1 7,
    (resolution_before_next_tick sampleEnv (fun _ => sampleDraws) (initialWorld 0 none)
      (idle_initialWorld 0 none)).2.2.2.2.2.2.2⟩

set_option maxRecDepth 100000 in
theorem raw_verdicts :
    RAW_SOCIAL_POSTS.map (fun p => (p.id, detectFake p)) =
      [("t1", .ok { isFake := false, reasons := [] }),
        ("w1", .ok { isFake := false, reasons := [] }),
        ("t2", .ok { isFake := false, reasons := [] }),
        ("e1", .ok { isFake := false, reasons := [] }),
        ("t3", .ok { isFake := false, reasons := [] }),
        ("w2", .ok { isFake := false, reasons := [] }),
        ("e2", .ok { isFake := false, reasons := [] }),
        ("t4", .ok { isFake := true, reasons := [reasonPromo, reasonJoke] }),
        ("w3", .ok { isFake := false, reasons := [] }),
        ("t5", .ok { isFake := false, reasons := [] }),
        ("e3", .ok { isFake := false, reasons := [] }),
        ("t6", .ok { isFake := true, reasons := [reasonPromo, reasonJoke, reasonRepeat] })] := by
  decide

set_option maxRecDepth 100000 in
theorem fakeCount_twelve : fakeCount 12 = 2 := by
  decide

/-- C21: on the demo batch `detectFake` flags `t4`, with the promotional and
the joke/test reason in that order, and `t6`, with the promotional, joke/test
and repeated-character reasons in that order, and returns a clean verdict for
the other ten posts; a completed run therefore ends with `imported = 10` and
`rejected = 2`. -/
theorem demo_batch_verdicts :
    RAW_SOCIAL_POSTS.map (fun p => (p.id, detectFake p)) =
      [("t1", .ok { isFake := false, reasons := [] }),
        ("w1", .ok { isFake := false, reasons := [] }),
        ("t2", .ok { isFake := false, reasons := [] }),
        ("e1", .ok { isFake := false, reasons := [] }),
        ("t3", .ok { isFake := false, reasons := [] }),
        ("w2", .ok { isFake := false, reasons := [] }),
        ("e2", .ok { isFake := false, reasons := [] }),
        ("t4", .ok { isFake := true, reasons := [reasonPromo, reasonJoke] }),
        ("w3", .ok { isFake := false, reasons := [] }),
        ("t5", .ok { isFake := false, reasons := [] }),
        ("e3", .ok { isFake := false, reasons := [] }),
        ("t6", .ok { isFake := true, reasons := [reasonPromo, reasonJoke, reasonRepeat] })] ∧
    ∀ (env : Env) (rand : Int → Draws) (w0 : World), Idle w0 →
      (timedRun env rand w0 25).running = false ∧
      (timedRun env rand w0 25).stats.imported = 10 ∧
      (timedRun env rand w0 25).stats.rejected = 2 := by
  refine ⟨raw_verdicts, ?_⟩
  intro env rand w0 hidle
  obtain ⟨f1, -, -, -, f5, f6, -⟩ := timedRun_final env rand w0 hidle
  rw [fakeCount_twelve] at f6
  exact ⟨f1, by omega, f6⟩

theorem demo_batch_verdicts_witness :
    (timedRun sampleEnv (fun _ => sampleDraws) (initialWorld 0 none) 25).stats.imported = 10 ∧
      (timedRun sampleEnv (fun _ => sampleDraws) (initialWorld 0 none) 25).stats.rejected = 2 :=
  (demo_batch_verdicts.2 sampleEnv (fun _ => sampleDraws) (initialWorld 0 none)
    (idle_initialWorld 0 none)).2

end Civic
